import Mathlib

/-!
# OptoMMP dissector (epan/dissectors/packet-optommp.c)

A shallow embedding of the signature test `test_optommp`, the length function
`get_optommp_message_len` and the decoder `dissect_optommp` with its field primitives,
followed by theorems about them.

Conventions of the embedding:

* a packet buffer is a list of bytes; captured and reported length are both its length;
* every effect of the C code that a claim can observe is recorded in a `Dissection`:
  the byte offsets fetched through the `tvb_get_*` accessors, the two summary columns,
  the root entry and the ordered list of entries added beneath it;
* an access outside the buffer is an explicit error result, never a default value;
* `guint` arithmetic on the cursor is taken modulo `2^32`;
* the write-only out-parameter `ti` of the C functions is not modelled.
-/

namespace Optommp

/-! ## Data model -/

/-- One octet of packet data. -/
abbrev Byte := Fin 256

/-- Modelled from the spec: `tvbuff_t` is declared in epan/tvbuff.h, which is not part of
the dissector source. The spec treats the buffer as an immutable byte sequence with a single
length, so a buffer is the list of its bytes. -/
abbrev Tvb := List Byte

/-- The exception raised by the buffer accessors on an access outside the buffer. -/
inductive TvbError
  | ReportedBoundsError
deriving DecidableEq, Repr

/-- The registered fields, `hf_optommp_*`, and the protocol entry `proto_optommp`. -/
inductive Hf
  | proto_optommp
  | hf_optommp_nodest_id
  | hf_optommp_dest_id
  | hf_optommp_boot_id
  | hf_optommp_tl
  | hf_optommp_tcode
  | hf_optommp_source_ID
  | hf_optommp_rcode
  | hf_optommp_quadlet_data
  | hf_optommp_data_length
  | hf_optommp_dest_offset
  | hf_optommp_data_block_byte
  | hf_optommp_data_block_quadlet
deriving DecidableEq, Repr

/-- The subtree indices, `ett_*`. -/
inductive Ett
  | ett_optommp
  | ett_dest_id
  | ett_data_block_q
  | ett_data_block_b
deriving DecidableEq, Repr

/-- The field types used by the `hf` table. -/
inductive FType
  | FT_PROTOCOL
  | FT_UINT8
  | FT_UINT16
  | FT_UINT32
  | FT_BYTES
deriving DecidableEq, Repr

/-- One row of the `hf` table: display name, filter name, type and bit mask. -/
structure HfInfo where
  name : String
  filter_name : String
  ftype : FType
  bitmask : Nat
deriving DecidableEq, Repr

/-- The `hf[]` table of `proto_register_optommp`, together with the protocol registration. -/
def hf : Hf → HfInfo
  | .proto_optommp => ⟨"OptoMMP", "optommp", .FT_PROTOCOL, 0x0⟩
  | .hf_optommp_nodest_id => ⟨"destination_ID", "optommp.destination_ID", .FT_UINT16, 0x8000⟩
  | .hf_optommp_dest_id => ⟨"destination_ID", "optommp.destination_ID", .FT_UINT16, 0x0⟩
  | .hf_optommp_boot_id => ⟨"boot_ID", "optommp.boot_ID", .FT_UINT16, 0x7FFF⟩
  | .hf_optommp_tl => ⟨"tl", "optommp.tl", .FT_UINT8, 0xFC⟩
  | .hf_optommp_tcode => ⟨"tcode", "optommp.tcode", .FT_UINT8, 0xF0⟩
  | .hf_optommp_source_ID => ⟨"source_ID", "optommp.source_id", .FT_UINT16, 0x0⟩
  | .hf_optommp_rcode => ⟨"rcode", "optommp.rcode", .FT_UINT8, 0xF0⟩
  | .hf_optommp_quadlet_data => ⟨"quadlet_data", "optommp.quadlet_data", .FT_UINT32, 0x0⟩
  | .hf_optommp_data_length => ⟨"data_length", "optommp.data_length", .FT_UINT16, 0x0⟩
  | .hf_optommp_dest_offset =>
      ⟨"destination_offset", "optommp.destination_offset", .FT_UINT32, 0x0⟩
  | .hf_optommp_data_block_byte =>
      ⟨"data_block_byte", "optommp.data_block_byte", .FT_BYTES, 0x0⟩
  | .hf_optommp_data_block_quadlet =>
      ⟨"data_block_quadlet", "optommp.data_block_quadlet", .FT_BYTES, 0x0⟩

/-- The value carried by an entry of the display tree. -/
inductive FValue
  | none
  | uint (v : Nat)
  | bytes (bs : List Byte)
deriving DecidableEq, Repr

/-- An entry added beneath the root entry: either a registered field (`proto_tree_add_item`)
or a text container (`proto_tree_add_subtree`). `parent` is the subtree it is added to. -/
inductive Entry
  | item (parent : Ett) (hfindex : Hf) (start length : Nat) (value : FValue)
  | subtree (parent : Ett) (start length : Nat) (idx : Ett) (text : String)
deriving DecidableEq, Repr

/-- First byte offset of an entry. -/
def Entry.start : Entry → Nat
  | .item _ _ s _ _ => s
  | .subtree _ s _ _ _ => s

/-- Number of bytes an entry covers. -/
def Entry.length : Entry → Nat
  | .item _ _ _ l _ => l
  | .subtree _ _ l _ _ => l

/-- Whether an entry covers the byte at offset `k`. -/
def Entry.covers (e : Entry) (k : Nat) : Bool :=
  decide (e.start ≤ k) && decide (k < e.start + e.length)

/-- The root entry of the protocol: its byte range and the text appended to its label. -/
structure RootItem where
  start : Nat
  length : Nat
  text : String
deriving DecidableEq, Repr

/-- Everything a run of the dissector code leaves behind. -/
structure Dissection where
  reads : List Nat
  col_protocol : String
  col_info : String
  root : Option RootItem
  fields : List Entry
deriving DecidableEq, Repr

/-- The state before a packet is looked at. -/
def Dissection.init : Dissection := ⟨[], "", "", none, []⟩

/-- A computation over the dissection state that may raise a buffer exception. -/
def Dissect (α : Type) : Type := Dissection → Except TvbError (α × Dissection)

/-- Return a value without any effect. -/
def Dissect.pure {α : Type} (a : α) : Dissect α := fun s => .ok (a, s)

/-- Sequencing: an exception in the first computation ends the run. -/
def Dissect.bind {α β : Type} (m : Dissect α) (f : α → Dissect β) : Dissect β := fun s =>
  match m s with
  | .ok (a, s1) => f a s1
  | .error e => .error e

instance : Monad Dissect where
  pure := Dissect.pure
  bind := Dissect.bind

deriving instance DecidableEq for Except

/-- The value a computation returns from the initial state, or its exception. -/
def Dissect.eval {α : Type} (m : Dissect α) : Except TvbError α :=
  match m Dissection.init with
  | .ok (a, _) => .ok a
  | .error e => .error e

/-- The state a computation leaves from the initial state, when it returns. -/
def Dissect.trace {α : Type} (m : Dissect α) : Option Dissection :=
  match m Dissection.init with
  | .ok (_, s) => some s
  | .error _ => none

/-! ## Buffer accessors -/

/-- The byte at offset `i` as a number; only used below a bounds check. -/
def byte_at (tvb : Tvb) (i : Nat) : Nat := (tvb.getD i 0).val

/-- Big-endian value of the `length` bytes starting at `offset`. -/
def get_uint_value (tvb : Tvb) (offset : Nat) : Nat → Nat
  | 0 => 0
  | n + 1 => get_uint_value tvb offset n * 256 + byte_at tvb (offset + n)

/-- Modelled from the spec: `tvb_captured_length` (epan/tvbuff.h) is the buffer length. -/
def tvb_captured_length (tvb : Tvb) : Nat := tvb.length

/-- Modelled from the spec: `tvb_reported_length` (epan/tvbuff.h) is the buffer length. -/
def tvb_reported_length (tvb : Tvb) : Nat := tvb.length

/-- Modelled from the spec: `tvb_reported_length_remaining` (epan/tvbuff.h), the number of
bytes available from `offset`, zero when `offset` is past the end. -/
def tvb_reported_length_remaining (tvb : Tvb) (offset : Nat) : Nat := tvb.length - offset

/-- Modelled from the spec: the common body of the `tvb_get_*` accessors (epan/tvbuff.h):
fetch `length` bytes at `offset` as a big-endian integer, recording the offsets read; an
access that does not lie inside the buffer raises the bounds exception. -/
def tvb_get_bytes (tvb : Tvb) (offset length : Nat) : Dissect Nat := fun s =>
  if offset + length ≤ tvb.length then
    .ok (get_uint_value tvb offset length,
      { s with reads := s.reads ++ List.range' offset length })
  else .error .ReportedBoundsError

/-- Modelled from the spec: `tvb_get_guint8` (epan/tvbuff.h), one byte. -/
def tvb_get_guint8 (tvb : Tvb) (offset : Nat) : Dissect Nat := tvb_get_bytes tvb offset 1

/-- Modelled from the spec: `tvb_get_ntohs` (epan/tvbuff.h), big-endian 16 bits; also
`tvb_get_guint16` with `ENC_BIG_ENDIAN`. -/
def tvb_get_ntohs (tvb : Tvb) (offset : Nat) : Dissect Nat := tvb_get_bytes tvb offset 2

/-- Modelled from the spec: `tvb_get_ntoh48` (epan/tvbuff.h), big-endian 48 bits. -/
def tvb_get_ntoh48 (tvb : Tvb) (offset : Nat) : Dissect Nat := tvb_get_bytes tvb offset 6

/-- Addition of `guint` values. -/
def guint_add (a b : Nat) : Nat := (a + b) % 4294967296

/-! ## Summary columns and display tree -/

/-- Number of trailing zero bits of a non-zero mask, searched over `fuel` bits. -/
def ctz_fuel : Nat → Nat → Nat
  | 0, _ => 0
  | fuel + 1, mask => if mask % 2 = 1 then 0 else 1 + ctz_fuel fuel (mask / 2)

/-- Modelled from the spec: `hfinfo_bitshift` (epan/proto.c), the shift that brings the
lowest set bit of a field mask to bit 0. -/
def hfinfo_bitshift (mask : Nat) : Nat := if mask = 0 then 0 else ctz_fuel 32 mask

/-- The value of an unsigned field: the fetched integer, masked and shifted when the field
registers a bit mask. -/
def masked_value (mask v : Nat) : Nat :=
  if mask = 0 then v else (v &&& mask) >>> hfinfo_bitshift mask

/-- Value of a field over `[start, start + length)` according to its registered type. -/
def field_value (hfindex : Hf) (tvb : Tvb) (start length : Nat) : FValue :=
  match (hf hfindex).ftype with
  | .FT_PROTOCOL => .none
  | .FT_BYTES => .bytes ((tvb.drop start).take length)
  | _ => .uint (masked_value (hf hfindex).bitmask (get_uint_value tvb start length))

/-- Modelled from the spec: `proto_tree_add_item` (epan/proto.h) reports a field as a
(name, value, byte-range) triple; a range that does not lie inside the buffer raises the
bounds exception. -/
def proto_tree_add_item (parent : Ett) (hfindex : Hf) (tvb : Tvb) (start length : Nat) :
    Dissect Unit := fun s =>
  if start + length ≤ tvb.length then
    .ok ((), { s with
      fields := s.fields ++ [Entry.item parent hfindex start length
        (field_value hfindex tvb start length)] })
  else .error .ReportedBoundsError

/-- Modelled from the spec: `proto_tree_add_subtree` (epan/proto.h) declares a text
container over `[start, start + length)`; it reads no byte. -/
def proto_tree_add_subtree (parent : Ett) (start length : Nat) (idx : Ett) (text : String) :
    Dissect Unit := fun s =>
  .ok ((), { s with fields := s.fields ++ [Entry.subtree parent start length idx text] })

/-- Modelled from the spec: the root entry, `proto_tree_add_item` of the protocol with
start 0 and length -1, covers the whole buffer. -/
def proto_tree_add_root (tvb : Tvb) : Dissect Unit := fun s =>
  .ok ((), { s with root := some ⟨0, tvb.length, ""⟩ })

/-- Modelled from the spec: `proto_item_append_text` (epan/proto.h) on the root entry. -/
def proto_item_append_text (text : String) : Dissect Unit := fun s =>
  .ok ((), { s with root := s.root.map fun r => { r with text := r.text ++ text } })

/-- Modelled from the spec: `col_set_str` (epan/column-utils.h) on the protocol column. -/
def col_set_str_protocol (text : String) : Dissect Unit := fun s =>
  .ok ((), { s with col_protocol := text })

/-- Modelled from the spec: `col_clear` (epan/column-utils.h) on the info column. -/
def col_clear_info : Dissect Unit := fun s => .ok ((), { s with col_info := "" })

/-- Modelled from the spec: `col_add_fstr` (epan/column-utils.h) on the info column, applied
to the already formatted text. -/
def col_add_fstr_info (text : String) : Dissect Unit := fun s =>
  .ok ((), { s with col_info := text })

/-- Lower-case hexadecimal with at least `width` digits, zero padded (printf `%0<width>x`). -/
def hex_string (width n : Nat) : String :=
  String.mk (List.replicate (width - (Nat.toDigits 16 n).length) '0' ++ Nat.toDigits 16 n)

/-- The table `optommp_tcode_names`. -/
def optommp_tcode_names : List (Nat × String) :=
  [ (0, "Write Quadlet Request"),
    (1, "Write Block Request"),
    (2, "Write Response"),
    (4, "Read Quadlet Request"),
    (5, "Read Block Request"),
    (6, "Read Quadlet Response"),
    (7, "Read Block Response") ]

/-- Modelled from the spec: `val_to_str` (epan/value_string.h) with the format
`Unknown (0x%02x)`: the name of the first row with that value, else the formatted value. -/
def val_to_str (val : Nat) (vs : List (Nat × String)) : String :=
  match vs.find? (fun r => r.1 == val) with
  | some r => r.2
  | none => "Unknown (0x" ++ hex_string 2 val ++ ")"

/-! ## Constants -/

/-- The constant `OPTO_FRAME_HEADER_LEN`. -/
def OPTO_FRAME_HEADER_LEN : Nat := 8
/-- The constant `OPTOMMP_MIN_LENGTH`. -/
def OPTOMMP_MIN_LENGTH : Nat := 12
/-- The constant `OPTOMMP_WRITE_QUADLET_REQUEST`. -/
def OPTOMMP_WRITE_QUADLET_REQUEST : Nat := 0
/-- The constant `OPTOMMP_WRITE_BLOCK_REQUEST`. -/
def OPTOMMP_WRITE_BLOCK_REQUEST : Nat := 1
/-- The constant `OPTOMMP_WRITE_RESPONSE`. -/
def OPTOMMP_WRITE_RESPONSE : Nat := 2
/-- The constant `OPTOMMP_READ_QUADLET_REQUEST`. -/
def OPTOMMP_READ_QUADLET_REQUEST : Nat := 4
/-- The constant `OPTOMMP_READ_BLOCK_REQUEST`. -/
def OPTOMMP_READ_BLOCK_REQUEST : Nat := 5
/-- The constant `OPTOMMP_READ_QUADLET_RESPONSE`. -/
def OPTOMMP_READ_QUADLET_RESPONSE : Nat := 6
/-- The constant `OPTOMMP_READ_BLOCK_RESPONSE`. -/
def OPTOMMP_READ_BLOCK_RESPONSE : Nat := 7

/-! ## The signature test and the length function -/

/-- The function `test_optommp` (lines 308-331). -/
def test_optommp (tvb : Tvb) : Dissect Bool :=
  if tvb_captured_length tvb < 4 then pure false
  else do
    let dest ← tvb_get_ntohs tvb 0
    if dest ≠ 0x0 then pure false
    else do
      let b2 ← tvb_get_guint8 tvb 2
      if b2 &&& 0x3 ≠ 0x0 then pure false
      else do
        let b3 ← tvb_get_guint8 tvb 3
        let tcode := b3 &&& 0xF0
        let b3p ← tvb_get_guint8 tvb 3
        let pri := b3p &&& 0xF
        if tcode > 0x70 ∨ tcode = 0x3 ∨ pri ≠ 0 then pure false
        else pure true

/-- The function `get_optommp_message_len` (lines 340-372). -/
def get_optommp_message_len (tvb : Tvb) (offset : Nat) : Dissect Nat := do
  let b ← tvb_get_guint8 tvb (offset + 3)
  let tcode := b >>> 4
  let len :=
    if tcode = OPTOMMP_WRITE_QUADLET_REQUEST ∨ tcode = OPTOMMP_WRITE_BLOCK_REQUEST ∨
        tcode = OPTOMMP_READ_BLOCK_REQUEST ∨ tcode = OPTOMMP_READ_QUADLET_RESPONSE ∨
        tcode = OPTOMMP_READ_BLOCK_RESPONSE then 16
    else if tcode = OPTOMMP_WRITE_RESPONSE ∨ tcode = OPTOMMP_READ_QUADLET_REQUEST then 12
    else OPTO_FRAME_HEADER_LEN
  if (tcode = OPTOMMP_WRITE_BLOCK_REQUEST ∨ tcode = OPTOMMP_READ_BLOCK_RESPONSE) ∧
      tvb_reported_length_remaining tvb offset ≥ 14 then do
    let data_length ← tvb_get_ntohs tvb (offset + 12)
    pure (guint_add len data_length)
  else pure len

/-! ## Field primitives -/

/-- The function `optommp_has_destination_offset` (lines 854-860). -/
def optommp_has_destination_offset (tcode : Nat) : Nat :=
  if tcode = 0 ∨ tcode = 1 ∨ tcode = 4 ∨ tcode = 5 then 1 else 0

/-- The function `dissect_optommp_dest_id` (lines 517-540); returns the advanced cursor. -/
def dissect_optommp_dest_id (tvb : Tvb) (offset : Nat) : Dissect Nat := do
  let dest_id ← tvb_get_ntohs tvb offset
  if dest_id &&& 0x8000 = 0x8000 then do
    proto_tree_add_subtree .ett_optommp offset 2 .ett_dest_id "destination_ID"
    proto_tree_add_item .ett_dest_id .hf_optommp_dest_id tvb offset 2
    proto_tree_add_item .ett_dest_id .hf_optommp_boot_id tvb offset 2
    pure (guint_add offset 2)
  else do
    proto_tree_add_item .ett_optommp .hf_optommp_nodest_id tvb offset 2
    pure (guint_add offset 2)

/-- The function `dissect_optommp_source_ID` (lines 668-677). -/
def dissect_optommp_source_ID (tvb : Tvb) (offset : Nat) : Dissect Nat := do
  if tvb_reported_length tvb ≥ guint_add offset 2 then
    proto_tree_add_item .ett_optommp .hf_optommp_source_ID tvb offset 2
  pure (guint_add offset 2)

/-- The function `dissect_optommp_destination_offset_6` (lines 688-698). -/
def dissect_optommp_destination_offset_6 (tvb : Tvb) (offset : Nat) : Dissect Nat := do
  if tvb_reported_length tvb ≥ guint_add offset 6 then do
    let offset2 := guint_add offset 2
    proto_tree_add_item .ett_optommp .hf_optommp_dest_offset tvb offset2 4
    pure (guint_add offset2 4)
  else pure (guint_add offset 4)

/-- The function `dissect_optommp_quadlet_data` (lines 708-717). -/
def dissect_optommp_quadlet_data (tvb : Tvb) (offset : Nat) : Dissect Nat := do
  if tvb_reported_length tvb ≥ guint_add offset 4 then
    proto_tree_add_item .ett_optommp .hf_optommp_quadlet_data tvb offset 4
  pure (guint_add offset 4)

/-- The function `dissect_optommp_data_length` (lines 727-742); returns the read
`data_length` and the advanced cursor. -/
def dissect_optommp_data_length (tvb : Tvb) (offset : Nat) : Dissect (Nat × Nat) := do
  if tvb_reported_length tvb ≥ guint_add offset 2 then do
    let data_length ← tvb_get_ntohs tvb offset
    proto_tree_add_item .ett_optommp .hf_optommp_data_length tvb offset 2
    pure (data_length, guint_add offset 2)
  else pure (0, guint_add offset 2)

/-- The function `dissect_optommp_rcode` (lines 752-762). -/
def dissect_optommp_rcode (tvb : Tvb) (offset : Nat) : Dissect Nat := do
  if tvb_reported_length tvb ≥ guint_add offset 1 then
    proto_tree_add_item .ett_optommp .hf_optommp_rcode tvb offset 1
  pure (guint_add offset 1)

/-- The function `dissect_optommp_data_block_byte` (lines 813-823). -/
def dissect_optommp_data_block_byte (tvb : Tvb) (offset : Nat) : Dissect Nat := do
  if tvb_reported_length tvb ≥ guint_add offset 1 then
    proto_tree_add_item .ett_data_block_b .hf_optommp_data_block_byte tvb offset 1
  pure (guint_add offset 1)

/-- The function `dissect_optommp_data_block_quadlet` (lines 833-843). -/
def dissect_optommp_data_block_quadlet (tvb : Tvb) (offset : Nat) : Dissect Nat := do
  if tvb_reported_length tvb ≥ guint_add offset 4 then
    proto_tree_add_item .ett_data_block_q .hf_optommp_data_block_quadlet tvb offset 4
  pure (guint_add offset 4)

/-- The loop `for (i = 0; i < count; ++i) body(&offset)`, by recursion on the number of
iterations left; returns the local cursor after the loop. -/
def repeat_cursor (body : Nat → Dissect Nat) : Nat → Nat → Dissect Nat
  | 0, offset => pure offset
  | count + 1, offset => do
    let next ← body offset
    repeat_cursor body count next

/-- The function `dissect_optommp_data_block` (lines 773-803); the shared cursor is only
read, so the function returns nothing. -/
def dissect_optommp_data_block (tvb : Tvb) (offset data_length : Nat) : Dissect Unit := do
  let quadlet_offset := offset
  let byte_offset := offset
  proto_tree_add_subtree .ett_optommp offset data_length .ett_data_block_q
    "data_block (as quadlets)"
  let _ ← repeat_cursor (dissect_optommp_data_block_quadlet tvb)
    ((data_length / 4) % 65536) quadlet_offset
  proto_tree_add_subtree .ett_optommp offset data_length .ett_data_block_b
    "data_block (as bytes)"
  let _ ← repeat_cursor (dissect_optommp_data_block_byte tvb) data_length byte_offset
  pure ()

/-! ## Variant bodies -/

/-- The function `dissect_optommp_write_quadlet_request` (lines 550-556). -/
def dissect_optommp_write_quadlet_request (tvb : Tvb) (offset : Nat) : Dissect Nat := do
  let offset ← dissect_optommp_source_ID tvb offset
  let offset ← dissect_optommp_destination_offset_6 tvb offset
  dissect_optommp_quadlet_data tvb offset

/-- The function `dissect_optommp_write_block_request` (lines 566-575). -/
def dissect_optommp_write_block_request (tvb : Tvb) (offset : Nat) : Dissect Nat := do
  let offset ← dissect_optommp_source_ID tvb offset
  let offset ← dissect_optommp_destination_offset_6 tvb offset
  let (data_length, offset) ← dissect_optommp_data_length tvb offset
  let offset := guint_add offset 2
  dissect_optommp_data_block tvb offset data_length
  pure offset

/-- The function `dissect_optommp_write_response` (lines 585-590). -/
def dissect_optommp_write_response (tvb : Tvb) (offset : Nat) : Dissect Nat := do
  let offset ← dissect_optommp_source_ID tvb offset
  dissect_optommp_rcode tvb offset

/-- The function `dissect_optommp_read_quadlet_request` (lines 600-605). -/
def dissect_optommp_read_quadlet_request (tvb : Tvb) (offset : Nat) : Dissect Nat := do
  let offset ← dissect_optommp_source_ID tvb offset
  dissect_optommp_destination_offset_6 tvb offset

/-- The function `dissect_optommp_read_block_request` (lines 615-621). -/
def dissect_optommp_read_block_request (tvb : Tvb) (offset : Nat) : Dissect Nat := do
  let offset ← dissect_optommp_source_ID tvb offset
  let offset ← dissect_optommp_destination_offset_6 tvb offset
  let (_, offset) ← dissect_optommp_data_length tvb offset
  pure offset

/-- The function `dissect_optommp_read_quadlet_response` (lines 631-638). -/
def dissect_optommp_read_quadlet_response (tvb : Tvb) (offset : Nat) : Dissect Nat := do
  let offset ← dissect_optommp_source_ID tvb offset
  let offset ← dissect_optommp_rcode tvb offset
  let offset := guint_add offset 5
  dissect_optommp_quadlet_data tvb offset

/-- The function `dissect_optommp_read_block_response` (lines 648-658). -/
def dissect_optommp_read_block_response (tvb : Tvb) (offset : Nat) : Dissect Nat := do
  let offset ← dissect_optommp_source_ID tvb offset
  let offset ← dissect_optommp_rcode tvb offset
  let offset := guint_add offset 5
  let (data_length, offset) ← dissect_optommp_data_length tvb offset
  let offset := guint_add offset 2
  dissect_optommp_data_block tvb offset data_length
  pure offset

/-! ## The decoder -/

/-- The `switch (tcode)` of `dissect_optommp` (lines 473-503); no default case. -/
def dissect_optommp_switch (tvb : Tvb) (tcode offset : Nat) : Dissect Nat :=
  match tcode with
  | 0 => dissect_optommp_write_quadlet_request tvb offset
  | 1 => dissect_optommp_write_block_request tvb offset
  | 2 => dissect_optommp_write_response tvb offset
  | 4 => dissect_optommp_read_quadlet_request tvb offset
  | 5 => dissect_optommp_read_block_request tvb offset
  | 6 => dissect_optommp_read_quadlet_response tvb offset
  | 7 => dissect_optommp_read_block_response tvb offset
  | _ => pure offset

/-- The summary part of `dissect_optommp` (lines 412-434). -/
def dissect_optommp_summary (tvb : Tvb) : Dissect Unit := do
  col_set_str_protocol "OptoMMP"
  col_clear_info
  if tvb_reported_length tvb ≥ OPTOMMP_MIN_LENGTH then do
    let b ← tvb_get_guint8 tvb 3
    let tcode := b >>> 4
    if optommp_has_destination_offset tcode ≠ 0 ∧ tvb_reported_length tvb ≥ 12 then do
      let destination_offset ← tvb_get_ntoh48 tvb 6
      col_add_fstr_info (" type: " ++ val_to_str tcode optommp_tcode_names ++
        ", dest_off: 0x" ++ hex_string 12 destination_offset)
    else
      col_add_fstr_info (" type: " ++ val_to_str tcode optommp_tcode_names)

/-- The tree part of `dissect_optommp` (lines 436-505), run when a tree is requested;
returns the cursor `offset` at the end. -/
def dissect_optommp_tree (tvb : Tvb) : Dissect Nat := do
  let offset := 0
  proto_tree_add_root tvb
  if tvb_reported_length tvb ≥ OPTOMMP_MIN_LENGTH then do
    let b ← tvb_get_guint8 tvb 3
    let tcode := b >>> 4
    proto_item_append_text (", type: " ++ val_to_str tcode optommp_tcode_names)
    if optommp_has_destination_offset tcode ≠ 0 then do
      let destination_offset ← tvb_get_ntoh48 tvb 6
      proto_item_append_text (", dest_off: 0x" ++ hex_string 12 destination_offset)
    let offset ← dissect_optommp_dest_id tvb offset
    proto_tree_add_item .ett_optommp .hf_optommp_tl tvb offset 1
    let offset := guint_add offset 1
    proto_tree_add_item .ett_optommp .hf_optommp_tcode tvb offset 1
    let b ← tvb_get_guint8 tvb offset
    let tcode := b >>> 4
    let offset := guint_add offset 1
    dissect_optommp_switch tvb tcode offset
  else pure offset

/-- The function `dissect_optommp` (lines 406-508); `tree` tells whether a display tree is
requested. Returns the captured length. -/
def dissect_optommp (tvb : Tvb) (tree : Bool) : Dissect Nat := do
  dissect_optommp_summary tvb
  if tree then do
    let _ ← dissect_optommp_tree tvb
    pure ()
  pure (tvb_captured_length tvb)

/-! ## Definitions used in the statements

The formulas of the specification (`signature_spec`, `encode_write_quadlet_request`), the
expected header entries and header state, and the lookup of a decoded field by name. -/

/-- The acceptance condition of the signature test as the specification words it: bytes 0-1
are zero, the low two bits of byte 2 are zero, the high nibble of byte 3 is one of the seven
valid tcodes and the low nibble of byte 3 is zero. -/
def signature_spec (tvb : Tvb) : Bool :=
  decide (get_uint_value tvb 0 2 = 0) && decide (byte_at tvb 2 &&& 0x03 = 0) &&
    decide ((byte_at tvb 3 &&& 0xF0) ∈ [0x00, 0x10, 0x20, 0x40, 0x50, 0x60, 0x70]) &&
    decide (byte_at tvb 3 &&& 0x0F = 0)

/-- The entries `dissect_optommp_dest_id` adds for the destination id in bytes 0-1. -/
def dest_id_entries (tvb : Tvb) : List Entry :=
  if get_uint_value tvb 0 2 &&& 0x8000 = 0x8000 then
    [ .subtree .ett_optommp 0 2 .ett_dest_id "destination_ID",
      .item .ett_dest_id .hf_optommp_dest_id 0 2 (.uint (get_uint_value tvb 0 2)),
      .item .ett_dest_id .hf_optommp_boot_id 0 2 (.uint (get_uint_value tvb 0 2 &&& 0x7FFF)) ]
  else
    [ .item .ett_optommp .hf_optommp_nodest_id 0 2
        (.uint ((get_uint_value tvb 0 2 &&& 0x8000) >>> 15)) ]

/-- The header entries: destination id over bytes 0-1, transaction label in bits 2-7 of
byte 2, tcode in bits 4-7 of byte 3. -/
def header_entries (tvb : Tvb) : List Entry :=
  dest_id_entries tvb ++
    [ .item .ett_optommp .hf_optommp_tl 2 1 (.uint (byte_at tvb 2 >>> 2)),
      .item .ett_optommp .hf_optommp_tcode 3 1 (.uint (byte_at tvb 3 >>> 4)) ]

/-- The byte offsets read for the `dest_off` text: bytes 6-11 when the tcode has a
destination offset, none otherwise. -/
def dest_off_reads (tvb : Tvb) : List Nat :=
  if optommp_has_destination_offset (byte_at tvb 3 >>> 4) ≠ 0 then [6, 7, 8, 9, 10, 11] else []

/-- The summary text for a buffer of at least 12 bytes. -/
def summary_text (tvb : Tvb) : String :=
  if optommp_has_destination_offset (byte_at tvb 3 >>> 4) ≠ 0 then
    " type: " ++ val_to_str (byte_at tvb 3 >>> 4) optommp_tcode_names ++
      ", dest_off: 0x" ++ hex_string 12 (get_uint_value tvb 6 6)
  else " type: " ++ val_to_str (byte_at tvb 3 >>> 4) optommp_tcode_names

/-- The text appended to the root entry for a buffer of at least 12 bytes. -/
def root_text (tvb : Tvb) : String :=
  if optommp_has_destination_offset (byte_at tvb 3 >>> 4) ≠ 0 then
    "" ++ (", type: " ++ val_to_str (byte_at tvb 3 >>> 4) optommp_tcode_names) ++
      (", dest_off: 0x" ++ hex_string 12 (get_uint_value tvb 6 6))
  else "" ++ (", type: " ++ val_to_str (byte_at tvb 3 >>> 4) optommp_tcode_names)

/-- The state in which `dissect_optommp`, started in `s` on a buffer of at least 12 bytes
with a tree requested, enters its `switch`: summary written, root entry and header entries
added. -/
def header_state (tvb : Tvb) (s : Dissection) : Dissection :=
  { reads := s.reads ++ ([3] ++ dest_off_reads tvb) ++ ([3] ++ dest_off_reads tvb ++ [0, 1, 3]),
    col_protocol := "OptoMMP",
    col_info := summary_text tvb,
    root := some ⟨0, tvb.length, root_text tvb⟩,
    fields := s.fields ++ header_entries tvb }

/-- The unsigned value of an entry when it is a field with the given filter name. -/
def Entry.uint_named (filter_name : String) : Entry → Option Nat
  | .item _ hfindex _ _ (.uint v) =>
      if (hf hfindex).filter_name = filter_name then some v else none
  | _ => none

/-- The value of the first unsigned field with the given filter name. -/
def find_uint (filter_name : String) (fields : List Entry) : Option Nat :=
  fields.findSome? (Entry.uint_named filter_name)

/-- The byte with value `n mod 256`. -/
def to_byte (n : Nat) : Byte := ⟨n % 256, Nat.mod_lt n (by decide)⟩

/-- The 16-byte Write Quadlet Request of the wire layout in the specification:
destination_id big-endian in bytes 0-1, transaction_label in bits 2-7 of byte 2, tcode 0 and
priority 0 in byte 3, source_id in bytes 4-5, `0xFFFF` in bytes 6-7, the address in bytes
8-11 and quadlet_data in bytes 12-15. -/
def encode_write_quadlet_request
    (destination_id transaction_label source_id address quadlet_data : Nat) : Tvb :=
  [ to_byte (destination_id / 256), to_byte destination_id,
    to_byte (transaction_label * 4),
    to_byte (0 * 16 + 0),
    to_byte (source_id / 256), to_byte source_id,
    to_byte 0xFF, to_byte 0xFF,
    to_byte (address / 16777216), to_byte (address / 65536), to_byte (address / 256),
    to_byte address,
    to_byte (quadlet_data / 16777216), to_byte (quadlet_data / 65536),
    to_byte (quadlet_data / 256), to_byte quadlet_data ]

/-- The field values of a decoded Write Quadlet Request. -/
structure WriteQuadletRequest where
  destination_id : Nat
  transaction_label : Nat
  tcode : Nat
  source_id : Nat
  destination_offset : Nat
  quadlet_data : Nat
deriving DecidableEq, Repr

/-- Decode with `dissect_optommp` and collect the six fields of a Write Quadlet Request by
their filter names; `none` when the decoder fails or a field is not emitted. -/
def decode_write_quadlet_request (tvb : Tvb) : Option WriteQuadletRequest :=
  match (dissect_optommp tvb true).trace with
  | none => none
  | some r =>
    match find_uint "optommp.destination_ID" r.fields, find_uint "optommp.tl" r.fields,
      find_uint "optommp.tcode" r.fields, find_uint "optommp.source_id" r.fields,
      find_uint "optommp.destination_offset" r.fields,
      find_uint "optommp.quadlet_data" r.fields with
    | some d, some tl, some tcode, some src, some off, some q => some ⟨d, tl, tcode, src, off, q⟩
    | _, _, _, _, _, _ => none

/-! ### Expected entries of the variant bodies -/

/-- Whether an entry is a registered field (added by `proto_tree_add_item`) rather than a
text container. -/
def Entry.is_field : Entry → Bool
  | .item _ _ _ _ _ => true
  | .subtree _ _ _ _ _ => false

/-- The registered fields among a list of entries, in order. -/
def field_items (entries : List Entry) : List Entry := entries.filter Entry.is_field

/-- Whether an entry is a registered field with the given index. -/
def Entry.has_hf (h : Hf) : Entry → Bool
  | .item _ hfindex _ _ _ => decide (hfindex = h)
  | .subtree _ _ _ _ _ => false

/-- Whether the byte range of an entry ends at or before `len`. -/
def Entry.inside (len : Nat) (e : Entry) : Bool := decide (e.start + e.length ≤ len)

/-- The source_ID field over bytes 4-5. -/
def source_ID_entry (tvb : Tvb) : Entry :=
  .item .ett_optommp .hf_optommp_source_ID 4 2 (.uint (get_uint_value tvb 4 2))

/-- The rcode field: high nibble of byte 6. -/
def rcode_entry (tvb : Tvb) : Entry :=
  .item .ett_optommp .hf_optommp_rcode 6 1 (.uint (byte_at tvb 6 >>> 4))

/-- The destination_offset field over bytes 8-11. -/
def dest_offset_entry (tvb : Tvb) : Entry :=
  .item .ett_optommp .hf_optommp_dest_offset 8 4 (.uint (get_uint_value tvb 8 4))

/-- The quadlet_data field over bytes 12-15. -/
def quadlet_data_entry (tvb : Tvb) : Entry :=
  .item .ett_optommp .hf_optommp_quadlet_data 12 4 (.uint (get_uint_value tvb 12 4))

/-- The data_length field over bytes 12-13. -/
def data_length_entry (tvb : Tvb) : Entry :=
  .item .ett_optommp .hf_optommp_data_length 12 2 (.uint (get_uint_value tvb 12 2))

/-- The `data_length` a block variant works with: the big-endian value of bytes 12-13 when
the buffer holds them, 0 otherwise. -/
def data_length_value (tvb : Tvb) : Nat :=
  if 14 ≤ tvb.length then get_uint_value tvb 12 2 else 0

/-- The entries a loop of `count` guarded field reads of `width` bytes adds, starting at
`offset`: one entry per round whose bytes lie inside the buffer. -/
def loop_entries (tvb : Tvb) (parent : Ett) (hfindex : Hf) (width : Nat) :
    Nat → Nat → List Entry
  | 0, _ => []
  | count + 1, offset =>
    (if offset + width ≤ tvb.length then
        [Entry.item parent hfindex offset width (field_value hfindex tvb offset width)]
      else []) ++
      loop_entries tvb parent hfindex width count (offset + width)

/-- The entries `dissect_optommp_data_block` adds: the container and words of the word
view, then the container and bytes of the byte view. -/
def data_block_entries (tvb : Tvb) (offset data_length : Nat) : List Entry :=
  [Entry.subtree .ett_optommp offset data_length .ett_data_block_q
      "data_block (as quadlets)"] ++
    loop_entries tvb .ett_data_block_q .hf_optommp_data_block_quadlet 4 (data_length / 4)
      offset ++
    [Entry.subtree .ett_optommp offset data_length .ett_data_block_b "data_block (as bytes)"] ++
    loop_entries tvb .ett_data_block_b .hf_optommp_data_block_byte 1 data_length offset

/-- The entries the `switch` of `dissect_optommp` adds on a buffer of at least 12 bytes,
by tcode. -/
def variant_entries (tvb : Tvb) (tcode : Nat) : List Entry :=
  match tcode with
  | 0 => [source_ID_entry tvb, dest_offset_entry tvb] ++
      (if 16 ≤ tvb.length then [quadlet_data_entry tvb] else [])
  | 1 => [source_ID_entry tvb, dest_offset_entry tvb] ++
      (if 14 ≤ tvb.length then [data_length_entry tvb] else []) ++
      data_block_entries tvb 16 (data_length_value tvb)
  | 2 => [source_ID_entry tvb, rcode_entry tvb]
  | 4 => [source_ID_entry tvb, dest_offset_entry tvb]
  | 5 => [source_ID_entry tvb, dest_offset_entry tvb] ++
      (if 14 ≤ tvb.length then [data_length_entry tvb] else [])
  | 6 => [source_ID_entry tvb, rcode_entry tvb] ++
      (if 16 ≤ tvb.length then [quadlet_data_entry tvb] else [])
  | 7 => [source_ID_entry tvb, rcode_entry tvb] ++
      (if 14 ≤ tvb.length then [data_length_entry tvb] else []) ++
      data_block_entries tvb 16 (data_length_value tvb)
  | _ => []

/-- The byte offsets the `switch` reads through `tvb_get_ntohs`: bytes 12-13 for the
variants with a data_length, when the buffer holds them. -/
def variant_reads (tvb : Tvb) (tcode : Nat) : List Nat :=
  if (tcode = 1 ∨ tcode = 5 ∨ tcode = 7) ∧ 14 ≤ tvb.length then [12, 13] else []

/-- The cursor after the `switch` on a buffer of at least 12 bytes, by tcode. -/
def variant_cursor (tcode : Nat) : Nat :=
  match tcode with
  | 0 => 16
  | 1 => 16
  | 2 => 7
  | 4 => 12
  | 5 => 14
  | 6 => 16
  | 7 => 16
  | _ => 4

/-- The state `dissect_optommp` ends in on a buffer of at least 12 bytes with a tree
requested, started from `s`. -/
def final_state (tvb : Tvb) (s : Dissection) : Dissection :=
  { header_state tvb s with
    reads := (header_state tvb s).reads ++ variant_reads tvb (byte_at tvb 3 >>> 4),
    fields := (header_state tvb s).fields ++ variant_entries tvb (byte_at tvb 3 >>> 4) }

/-- The entries `dissect_optommp` adds beneath the root entry, for any buffer: none without a
tree or below 12 bytes, else the header entries followed by the entries of the variant. -/
def emitted_entries (tvb : Tvb) (tree : Bool) : List Entry :=
  if 12 ≤ tvb.length ∧ tree = true then
    header_entries tvb ++ variant_entries tvb (byte_at tvb 3 >>> 4)
  else []

/-- The byte offsets `dissect_optommp` fetches through the `tvb_get_*` accessors, for any
buffer, in order. -/
def performed_reads (tvb : Tvb) (tree : Bool) : List Nat :=
  if 12 ≤ tvb.length then
    ([3] ++ dest_off_reads tvb) ++
      (if tree = true then
        [3] ++ dest_off_reads tvb ++ [0, 1, 3] ++ variant_reads tvb (byte_at tvb 3 >>> 4)
      else [])
  else []

/-! ### The variant table of the specification -/

/-- The word view of a data block: `data_length / 4` words of four bytes. -/
def word_view (tvb : Tvb) (offset data_length : Nat) : List Entry :=
  (List.range (data_length / 4)).map fun i =>
    Entry.item .ett_data_block_q .hf_optommp_data_block_quadlet (offset + 4 * i) 4
      (.bytes ((tvb.drop (offset + 4 * i)).take 4))

/-- The byte view of a data block: `data_length` single bytes. -/
def byte_view (tvb : Tvb) (offset data_length : Nat) : List Entry :=
  (List.range data_length).map fun j =>
    Entry.item .ett_data_block_b .hf_optommp_data_block_byte (offset + 1 * j) 1
      (.bytes ((tvb.drop (offset + 1 * j)).take 1))

/-- The data block as the specification describes it: two parallel views of the same
`data_length` bytes, each under its container. -/
def data_block_views (tvb : Tvb) (offset data_length : Nat) : List Entry :=
  [Entry.subtree .ett_optommp offset data_length .ett_data_block_q
      "data_block (as quadlets)"] ++
    word_view tvb offset data_length ++
    [Entry.subtree .ett_optommp offset data_length .ett_data_block_b "data_block (as bytes)"] ++
    byte_view tvb offset data_length

/-- The bytes an entry carries as its value; none for an unsigned value or a container. -/
def Entry.value_bytes : Entry → List Byte
  | .item _ _ _ _ (.bytes bs) => bs
  | _ => []

/-- The byte values of a list of entries, one after the other. -/
def concat_bytes : List Entry → List Byte
  | [] => []
  | e :: rest => e.value_bytes ++ concat_bytes rest

/-- The `data_length` that sizes the data block of a message: the value the block variants
(tcode 1 and 7) read, 0 for every other tcode. -/
def block_data_length (tvb : Tvb) : Nat :=
  if byte_at tvb 3 >>> 4 = 1 ∨ byte_at tvb 3 >>> 4 = 7 then data_length_value tvb else 0

/-- Whether an entry is one of the two view containers `dissect_optommp_data_block`
declares (`ett_data_block_q`, `ett_data_block_b`). -/
def Entry.is_data_block_container : Entry → Bool
  | .subtree _ _ _ idx _ => decide (idx = .ett_data_block_q ∨ idx = .ett_data_block_b)
  | .item _ _ _ _ _ => false

/-- The subtree an entry is added to. -/
def Entry.parent : Entry → Ett
  | .item p _ _ _ _ => p
  | .subtree p _ _ _ _ => p

/-- The display name of an entry: the registered field name, or the container text. -/
def Entry.label : Entry → String
  | .item _ hfindex _ _ _ => (hf hfindex).name
  | .subtree _ _ _ _ text => text

/-- The names of the entries added directly beneath the protocol subtree, in order. -/
def top_labels (entries : List Entry) : List String :=
  (entries.filter fun e => decide (e.parent = .ett_optommp)).map Entry.label

/-- The names of the variant fields by tcode, from the table of the specification
(section 3); the data block appears as its two views. -/
def variant_names (tcode : Nat) : List String :=
  match tcode with
  | 0 => ["source_ID", "destination_offset", "quadlet_data"]
  | 1 => ["source_ID", "destination_offset", "data_length", "data_block (as quadlets)",
      "data_block (as bytes)"]
  | 2 => ["source_ID", "rcode"]
  | 4 => ["source_ID", "destination_offset"]
  | 5 => ["source_ID", "destination_offset", "data_length"]
  | 6 => ["source_ID", "rcode", "quadlet_data"]
  | 7 => ["source_ID", "rcode", "data_length", "data_block (as quadlets)",
      "data_block (as bytes)"]
  | _ => []

/-- The table of variant field sets of the specification (section 3), by tcode, for a
buffer holding the whole message. -/
def table_entries (tvb : Tvb) (tcode : Nat) : List Entry :=
  match tcode with
  | 0 => [source_ID_entry tvb, dest_offset_entry tvb, quadlet_data_entry tvb]
  | 1 => [source_ID_entry tvb, dest_offset_entry tvb, data_length_entry tvb] ++
      data_block_views tvb 16 (get_uint_value tvb 12 2)
  | 2 => [source_ID_entry tvb, rcode_entry tvb]
  | 4 => [source_ID_entry tvb, dest_offset_entry tvb]
  | 5 => [source_ID_entry tvb, dest_offset_entry tvb, data_length_entry tvb]
  | 6 => [source_ID_entry tvb, rcode_entry tvb, quadlet_data_entry tvb]
  | 7 => [source_ID_entry tvb, rcode_entry tvb, data_length_entry tvb] ++
      data_block_views tvb 16 (get_uint_value tvb 12 2)
  | _ => []

end Optommp

namespace Optommp

/-! ## Basic facts about the embedding -/

@[simp] theorem dissect_pure_apply {α : Type} (a : α) (s : Dissection) :
    (Pure.pure a : Dissect α) s = .ok (a, s) := rfl

@[simp] theorem dissect_bind_apply {α β : Type} (m : Dissect α) (f : α → Dissect β)
    (s : Dissection) :
    (m >>= f) s = match m s with
      | .ok (a, s1) => f a s1
      | .error e => .error e := rfl

theorem byte_at_lt (tvb : Tvb) (i : Nat) : byte_at tvb i < 256 := (tvb.getD i 0).isLt

theorem get_uint_value_one (tvb : Tvb) (i : Nat) : get_uint_value tvb i 1 = byte_at tvb i := by
  simp [get_uint_value]

theorem get_uint_value_two (tvb : Tvb) (i : Nat) :
    get_uint_value tvb i 2 = byte_at tvb i * 256 + byte_at tvb (i + 1) := by
  simp [get_uint_value]

theorem tvb_get_bytes_ok (tvb : Tvb) (offset length : Nat) (s : Dissection)
    (h : offset + length ≤ tvb.length) :
    tvb_get_bytes tvb offset length s =
      .ok (get_uint_value tvb offset length,
        { s with reads := s.reads ++ List.range' offset length }) := by
  simp [tvb_get_bytes, h]

/-! ## The signature test -/

/-- What `test_optommp` computes on a buffer of at least four bytes. -/
theorem test_optommp_eval (tvb : Tvb) (h : 4 ≤ tvb.length) :
    (test_optommp tvb).eval = .ok (decide (get_uint_value tvb 0 2 = 0 ∧
      byte_at tvb 2 &&& 0x3 = 0 ∧
      ¬ (byte_at tvb 3 &&& 0xF0 > 0x70 ∨ byte_at tvb 3 &&& 0xF0 = 0x3 ∨
        byte_at tvb 3 &&& 0xF ≠ 0))) := by
  have h2 : 0 + 2 ≤ tvb.length := by omega
  have h3 : 2 + 1 ≤ tvb.length := by omega
  have h4 : 3 + 1 ≤ tvb.length := by omega
  have hc : ¬ tvb_captured_length tvb < 4 := by simp [tvb_captured_length]; omega
  unfold Dissect.eval test_optommp
  rw [if_neg hc]
  simp only [dissect_bind_apply, tvb_get_ntohs, tvb_get_guint8, tvb_get_bytes_ok _ _ _ _ h2]
  by_cases hd : get_uint_value tvb 0 2 = 0
  · simp only [hd, ne_eq, not_true_eq_false, if_false, dissect_bind_apply,
      tvb_get_bytes_ok _ _ _ _ h3, get_uint_value_one]
    by_cases hb : byte_at tvb 2 &&& 0x3 = 0
    · simp only [hb, not_true_eq_false, if_false, dissect_bind_apply,
        tvb_get_bytes_ok _ _ _ _ h4, get_uint_value_one]
      split_ifs with hx <;> simp [hx]
    · simp [hb]
  · simp [hd]

/-- Byte 3 of an accepted shape passes the third check of `test_optommp`. -/
theorem valid_nibbles_pass : ∀ b : Fin 256, b.val &&& 0x0F = 0 →
    b.val >>> 4 ∈ [0, 1, 2, 4, 5, 6, 7] →
    ¬ (b.val &&& 0xF0 > 0x70 ∨ b.val &&& 0xF0 = 0x3 ∨ b.val &&& 0xF ≠ 0) := by
  set_option maxRecDepth 100000 in decide

/-- C1: the claimed equivalence between `test_optommp` and the four conditions of the
specification fails on the four bytes `00 00 00 30`: the code accepts them, although the
high nibble 3 of byte 3 is not one of the seven listed values. -/
theorem test_optommp_differs_from_spec_on_tcode3 :
    (test_optommp [0x00, 0x00, 0x00, 0x30]).eval = .ok true ∧
      signature_spec [0x00, 0x00, 0x00, 0x30] = false := by
  decide

/-- C2: on a buffer of fewer than four bytes `test_optommp` returns false and leaves the
state as it was, so the list of byte offsets read is unchanged: it reads no byte. -/
theorem test_optommp_short_buffer (tvb : Tvb) (h : tvb.length < 4) (s : Dissection) :
    test_optommp tvb s = .ok (false, s) ∧
      (test_optommp tvb).eval = .ok false ∧
      (test_optommp tvb).trace = some Dissection.init := by
  have e : ∀ t : Dissection, test_optommp tvb t = .ok (false, t) := by
    intro t
    simp [test_optommp, tvb_captured_length, h]
  simp [Dissect.eval, Dissect.trace, e]

/-- Instances of the short-buffer theorem: a three-byte buffer and the empty buffer. -/
theorem test_optommp_short_buffer_witness :
    (test_optommp [0x00, 0x00, 0x00] Dissection.init = .ok (false, Dissection.init) ∧
      (test_optommp [0x00, 0x00, 0x00]).eval = .ok false ∧
      (test_optommp [0x00, 0x00, 0x00]).trace = some Dissection.init) ∧
    (test_optommp [] Dissection.init = .ok (false, Dissection.init) ∧
      (test_optommp []).eval = .ok false ∧
      (test_optommp []).trace = some Dissection.init) :=
  ⟨test_optommp_short_buffer [0x00, 0x00, 0x00] (by decide) Dissection.init,
    test_optommp_short_buffer [] (by decide) Dissection.init⟩

/-- C3: a buffer of eight bytes whose byte 3 is `0x30` (high nibble 3, the reserved tcode)
is accepted by `test_optommp`, where the claim says it is rejected. -/
theorem test_optommp_accepts_reserved_tcode3 :
    4 ≤ tvb_captured_length [0x00, 0x00, 0xFC, 0x30, 0xDE, 0xAD, 0xBE, 0xEF] ∧
      byte_at [0x00, 0x00, 0xFC, 0x30, 0xDE, 0xAD, 0xBE, 0xEF] 3 &&& 0xF0 = 0x30 ∧
      (test_optommp [0x00, 0x00, 0xFC, 0x30, 0xDE, 0xAD, 0xBE, 0xEF]).eval = .ok true := by
  decide

/-- C4: every buffer of at least four bytes with bytes 0-1 zero, the low two bits of byte 2
zero, the low nibble of byte 3 zero and the high nibble of byte 3 in 0, 1, 2, 4, 5, 6, 7 is
accepted by `test_optommp`, whatever its other bytes are. -/
theorem test_optommp_accepts_valid_prefix (tvb : Tvb) (h : 4 ≤ tvb.length)
    (h01 : get_uint_value tvb 0 2 = 0) (h2 : byte_at tvb 2 &&& 0x03 = 0)
    (h3 : byte_at tvb 3 &&& 0x0F = 0) (ht : byte_at tvb 3 >>> 4 ∈ [0, 1, 2, 4, 5, 6, 7]) :
    (test_optommp tvb).eval = .ok true := by
  have hn := valid_nibbles_pass ⟨byte_at tvb 3, byte_at_lt tvb 3⟩ h3 ht
  rw [test_optommp_eval tvb h]
  simp only [Except.ok.injEq, decide_eq_true_eq]
  exact ⟨h01, h2, hn⟩

/-- Instance of the acceptance theorem: a six-byte buffer with tcode 7. -/
theorem test_optommp_accepts_valid_prefix_witness :
    (test_optommp [0x00, 0x00, 0xFC, 0x70, 0xAA, 0x55]).eval = .ok true :=
  test_optommp_accepts_valid_prefix [0x00, 0x00, 0xFC, 0x70, 0xAA, 0x55]
    (by decide) (by decide) (by decide) (by decide) (by decide)

/-! ## The length function -/


theorem get_uint_value_two_lt (tvb : Tvb) (i : Nat) : get_uint_value tvb i 2 < 65536 := by
  have h0 := byte_at_lt tvb i
  have h1 := byte_at_lt tvb (i + 1)
  rw [get_uint_value_two]
  omega

theorem tcode_lt (tvb : Tvb) (i : Nat) : byte_at tvb i >>> 4 < 16 := by
  have h0 := byte_at_lt tvb i
  rw [Nat.shiftRight_eq_div_pow]
  omega

/-- The run of `get_optommp_message_len` when the data length is not added. -/
theorem get_optommp_message_len_fixed_run (tvb : Tvb) (offset : Nat) (s : Dissection)
    (h : offset + 4 ≤ tvb.length)
    (hb : ¬ ((byte_at tvb (offset + 3) >>> 4 = 1 ∨ byte_at tvb (offset + 3) >>> 4 = 7) ∧
      offset + 14 ≤ tvb.length)) :
    get_optommp_message_len tvb offset s =
      .ok (if byte_at tvb (offset + 3) >>> 4 ∈ [0, 1, 5, 6, 7] then 16
           else if byte_at tvb (offset + 3) >>> 4 ∈ [2, 4] then 12 else 8,
        { s with reads := s.reads ++ [offset + 3] }) := by
  have h1 : offset + 3 + 1 ≤ tvb.length := by omega
  have hr : ¬ ((byte_at tvb (offset + 3) >>> 4 = OPTOMMP_WRITE_BLOCK_REQUEST ∨
      byte_at tvb (offset + 3) >>> 4 = OPTOMMP_READ_BLOCK_RESPONSE) ∧
      tvb_reported_length_remaining tvb offset ≥ 14) := by
    simp only [OPTOMMP_WRITE_BLOCK_REQUEST, OPTOMMP_READ_BLOCK_RESPONSE,
      tvb_reported_length_remaining]
    intro hh
    exact hb ⟨hh.1, by omega⟩
  unfold get_optommp_message_len
  simp only [dissect_bind_apply, tvb_get_guint8, tvb_get_bytes_ok _ _ _ _ h1,
    get_uint_value_one, if_neg hr, dissect_pure_apply]
  have ht := tcode_lt tvb (offset + 3)
  generalize byte_at tvb (offset + 3) >>> 4 = t at ht ⊢
  interval_cases t <;> simp [OPTOMMP_WRITE_QUADLET_REQUEST, OPTOMMP_WRITE_BLOCK_REQUEST,
    OPTOMMP_READ_BLOCK_REQUEST, OPTOMMP_READ_QUADLET_RESPONSE, OPTOMMP_READ_BLOCK_RESPONSE,
    OPTOMMP_WRITE_RESPONSE, OPTOMMP_READ_QUADLET_REQUEST, OPTO_FRAME_HEADER_LEN]

/-- The run of `get_optommp_message_len` on a block message with its length field present. -/
theorem get_optommp_message_len_block_run (tvb : Tvb) (offset : Nat) (s : Dissection)
    (h : offset + 14 ≤ tvb.length)
    (ht : byte_at tvb (offset + 3) >>> 4 = 1 ∨ byte_at tvb (offset + 3) >>> 4 = 7) :
    get_optommp_message_len tvb offset s =
      .ok (16 + get_uint_value tvb (offset + 12) 2,
        { s with reads := s.reads ++ [offset + 3, offset + 12, offset + 13] }) := by
  have h1 : offset + 3 + 1 ≤ tvb.length := by omega
  have h2 : offset + 12 + 2 ≤ tvb.length := by omega
  have hr : (byte_at tvb (offset + 3) >>> 4 = OPTOMMP_WRITE_BLOCK_REQUEST ∨
      byte_at tvb (offset + 3) >>> 4 = OPTOMMP_READ_BLOCK_RESPONSE) ∧
      tvb_reported_length_remaining tvb offset ≥ 14 := by
    simp only [OPTOMMP_WRITE_BLOCK_REQUEST, OPTOMMP_READ_BLOCK_RESPONSE,
      tvb_reported_length_remaining]
    exact ⟨ht, by omega⟩
  have hv := get_uint_value_two_lt tvb (offset + 12)
  unfold get_optommp_message_len
  simp only [dissect_bind_apply, tvb_get_guint8, tvb_get_ntohs, tvb_get_bytes_ok _ _ _ _ h1,
    get_uint_value_one, if_pos hr, dissect_pure_apply, tvb_get_bytes_ok _ _ _ _ h2]
  have hg : ∀ v, v < 65536 → guint_add 16 v = 16 + v := by
    intro v hv; unfold guint_add; omega
  rcases ht with ht | ht <;>
    simp [ht, hg _ hv, OPTOMMP_WRITE_QUADLET_REQUEST, OPTOMMP_WRITE_BLOCK_REQUEST,
    OPTOMMP_READ_BLOCK_REQUEST, OPTOMMP_READ_QUADLET_RESPONSE, OPTOMMP_READ_BLOCK_RESPONSE,
    OPTOMMP_WRITE_RESPONSE, OPTOMMP_READ_QUADLET_REQUEST, OPTO_FRAME_HEADER_LEN, List.range']

theorem byte_at_append (p ext : Tvb) (i : Nat) (h : i < p.length) :
    byte_at (p ++ ext) i = byte_at p i := by
  unfold byte_at
  rw [List.getD_append _ _ _ _ h]

theorem get_uint_value_append (p ext : Tvb) (i n : Nat) (h : i + n ≤ p.length) :
    get_uint_value (p ++ ext) i n = get_uint_value p i n := by
  induction n with
  | zero => rfl
  | succ k ih =>
    simp only [get_uint_value]
    rw [ih (by omega), byte_at_append _ _ _ (by omega)]

/-- The value `get_optommp_message_len` returns on a buffer holding the tcode byte. -/
theorem get_optommp_message_len_eval (tvb : Tvb) (offset : Nat) (h : offset + 4 ≤ tvb.length) :
    (get_optommp_message_len tvb offset).eval =
      .ok (if (byte_at tvb (offset + 3) >>> 4 = 1 ∨ byte_at tvb (offset + 3) >>> 4 = 7) ∧
              offset + 14 ≤ tvb.length then 16 + get_uint_value tvb (offset + 12) 2
           else if byte_at tvb (offset + 3) >>> 4 ∈ [0, 1, 5, 6, 7] then 16
           else if byte_at tvb (offset + 3) >>> 4 ∈ [2, 4] then 12 else 8) := by
  unfold Dissect.eval
  by_cases hb : (byte_at tvb (offset + 3) >>> 4 = 1 ∨ byte_at tvb (offset + 3) >>> 4 = 7) ∧
      offset + 14 ≤ tvb.length
  · rw [get_optommp_message_len_block_run tvb offset _ hb.2 hb.1, if_pos hb]
  · rw [get_optommp_message_len_fixed_run tvb offset _ h hb, if_neg hb]

/-- C5: with the tcode byte available, `get_optommp_message_len` returns 12 for tcode 2 and
4, 16 for tcode 0, 5 and 6, and 8 for tcode 3 and 8..15; in each case the only byte read is
the one at `offset + 3`, so no other byte and no other length changes the result. -/
theorem get_optommp_message_len_fixed_variants (tvb : Tvb) (offset : Nat) (s : Dissection)
    (h : offset + 4 ≤ tvb.length) :
    ((byte_at tvb (offset + 3) >>> 4 = 2 ∨ byte_at tvb (offset + 3) >>> 4 = 4) →
        get_optommp_message_len tvb offset s =
          .ok (12, { s with reads := s.reads ++ [offset + 3] })) ∧
      ((byte_at tvb (offset + 3) >>> 4 = 0 ∨ byte_at tvb (offset + 3) >>> 4 = 5 ∨
          byte_at tvb (offset + 3) >>> 4 = 6) →
        get_optommp_message_len tvb offset s =
          .ok (16, { s with reads := s.reads ++ [offset + 3] })) ∧
      ((byte_at tvb (offset + 3) >>> 4 = 3 ∨ 8 ≤ byte_at tvb (offset + 3) >>> 4) →
        get_optommp_message_len tvb offset s =
          .ok (8, { s with reads := s.reads ++ [offset + 3] })) := by
  have hl := tcode_lt tvb (offset + 3)
  refine ⟨fun ht => ?_, fun ht => ?_, fun ht => ?_⟩ <;>
    rw [get_optommp_message_len_fixed_run tvb offset s h (by omega)] <;>
    generalize byte_at tvb (offset + 3) >>> 4 = t at ht hl ⊢ <;>
    interval_cases t <;> simp at ht ⊢

/-- Instances of the fixed-length theorem: tcode 2 at offset 1, tcode 6 and tcode 9 at offset 0. -/
theorem get_optommp_message_len_fixed_variants_witness :
    get_optommp_message_len [0xAA, 0x00, 0x00, 0x04, 0x20] 1 Dissection.init =
        .ok (12, { Dissection.init with reads := Dissection.init.reads ++ [1 + 3] }) ∧
      get_optommp_message_len [0x00, 0x00, 0x04, 0x60, 0x01] 0 Dissection.init =
        .ok (16, { Dissection.init with reads := Dissection.init.reads ++ [0 + 3] }) ∧
      get_optommp_message_len [0x00, 0x00, 0x04, 0x90] 0 Dissection.init =
        .ok (8, { Dissection.init with reads := Dissection.init.reads ++ [0 + 3] }) :=
  ⟨(get_optommp_message_len_fixed_variants [0xAA, 0x00, 0x00, 0x04, 0x20] 1 Dissection.init
      (by decide)).1 (by decide),
    (get_optommp_message_len_fixed_variants [0x00, 0x00, 0x04, 0x60, 0x01] 0 Dissection.init
      (by decide)).2.1 (by decide),
    (get_optommp_message_len_fixed_variants [0x00, 0x00, 0x04, 0x90] 0 Dissection.init
      (by decide)).2.2 (by decide)⟩

/-- C6: with at least 14 bytes available from `offset` and tcode 1 or 7,
`get_optommp_message_len` returns 16 plus the big-endian 16-bit value of the bytes at
`offset + 12` and `offset + 13`; the sum does not wrap and lies in 16..65551. -/
theorem get_optommp_message_len_adds_data_length (tvb : Tvb) (offset : Nat)
    (h : 14 ≤ tvb_reported_length_remaining tvb offset)
    (ht : byte_at tvb (offset + 3) >>> 4 = 1 ∨ byte_at tvb (offset + 3) >>> 4 = 7) :
    (get_optommp_message_len tvb offset).eval =
        .ok (16 + (byte_at tvb (offset + 12) * 256 + byte_at tvb (offset + 13))) ∧
      16 ≤ 16 + (byte_at tvb (offset + 12) * 256 + byte_at tvb (offset + 13)) ∧
      16 + (byte_at tvb (offset + 12) * 256 + byte_at tvb (offset + 13)) ≤ 65551 := by
  have hlen : offset + 14 ≤ tvb.length := by
    unfold tvb_reported_length_remaining at h; omega
  have h0 := byte_at_lt tvb (offset + 12)
  have h1 := byte_at_lt tvb (offset + 13)
  refine ⟨?_, by omega, by omega⟩
  unfold Dissect.eval
  rw [get_optommp_message_len_block_run tvb offset _ hlen ht, get_uint_value_two]

/-- Instance of the block-length theorem: a Write Block Request announcing 65535 bytes. -/
theorem get_optommp_message_len_adds_data_length_witness :
    (get_optommp_message_len
        [0x00, 0x00, 0x04, 0x10, 0x00, 0x00, 0xFF, 0xFF, 0xF0, 0x30, 0x00, 0x00, 0xFF, 0xFF]
        0).eval = .ok 65551 :=
  (get_optommp_message_len_adds_data_length
    [0x00, 0x00, 0x04, 0x10, 0x00, 0x00, 0xFF, 0xFF, 0xF0, 0x30, 0x00, 0x00, 0xFF, 0xFF]
    0 (by decide) (by decide)).1

/-- C7: with at least 4 but fewer than 14 bytes available from `offset` and tcode 1 or 7,
`get_optommp_message_len` returns exactly 16 and reads only the byte at `offset + 3`, so
neither `offset + 12` nor `offset + 13` is read. -/
theorem get_optommp_message_len_short_block (tvb : Tvb) (offset : Nat) (s : Dissection)
    (h4 : 4 ≤ tvb_reported_length_remaining tvb offset)
    (h14 : tvb_reported_length_remaining tvb offset < 14)
    (ht : byte_at tvb (offset + 3) >>> 4 = 1 ∨ byte_at tvb (offset + 3) >>> 4 = 7) :
    get_optommp_message_len tvb offset s =
        .ok (16, { s with reads := s.reads ++ [offset + 3] }) ∧
      offset + 12 ∉ [offset + 3] ∧ offset + 13 ∉ [offset + 3] := by
  unfold tvb_reported_length_remaining at h4 h14
  refine ⟨?_, by simp, by simp⟩
  rw [get_optommp_message_len_fixed_run tvb offset s (by omega) (by omega)]
  rcases ht with ht | ht <;> simp [ht]

/-- Instance of the short-block theorem: a 13-byte Read Block Response. -/
theorem get_optommp_message_len_short_block_witness :
    get_optommp_message_len
        [0x00, 0x00, 0x04, 0x70, 0x00, 0x00, 0x00, 0x00, 0x00, 0x00, 0x00, 0x00, 0xFF]
        0 Dissection.init =
        .ok (16, { Dissection.init with reads := Dissection.init.reads ++ [0 + 3] }) ∧
      0 + 12 ∉ [0 + 3] ∧ 0 + 13 ∉ [0 + 3] :=
  get_optommp_message_len_short_block
    [0x00, 0x00, 0x04, 0x70, 0x00, 0x00, 0x00, 0x00, 0x00, 0x00, 0x00, 0x00, 0xFF]
    0 Dissection.init (by decide) (by decide) (by decide)

/-- C8: once 14 bytes are available from `offset`, appending bytes does not change the
result of `get_optommp_message_len`; and on every leading part of such a buffer that still
holds the tcode byte the function returns a value that is at most the value on the whole
buffer. -/
theorem get_optommp_message_len_converges (p ext : Tvb) (offset : Nat)
    (h14 : 14 ≤ tvb_reported_length_remaining (p ++ ext) offset) :
    (∀ more : Tvb, (get_optommp_message_len (p ++ ext ++ more) offset).eval =
        (get_optommp_message_len (p ++ ext) offset).eval) ∧
      (offset + 4 ≤ tvb_reported_length p →
        ∃ n m, (get_optommp_message_len p offset).eval = .ok n ∧
          (get_optommp_message_len (p ++ ext) offset).eval = .ok m ∧ n ≤ m) := by
  have hlen : offset + 14 ≤ (p ++ ext).length := by
    unfold tvb_reported_length_remaining at h14; omega
  constructor
  · intro more
    have hm : offset + 14 ≤ (p ++ ext ++ more).length := by
      rw [List.length_append]; omega
    rw [get_optommp_message_len_eval _ _ (by omega),
      get_optommp_message_len_eval _ _ (by omega),
      byte_at_append (p ++ ext) more (offset + 3) (by omega),
      get_uint_value_append (p ++ ext) more (offset + 12) 2 (by omega)]
    simp only [hlen, hm]
  · intro hp
    unfold tvb_reported_length at hp
    rw [get_optommp_message_len_eval _ _ hp, get_optommp_message_len_eval _ _ (by omega),
      byte_at_append p ext (offset + 3) (by omega)]
    refine ⟨_, _, rfl, rfl, ?_⟩
    have hl := tcode_lt p (offset + 3)
    generalize byte_at p (offset + 3) >>> 4 = t at hl ⊢
    by_cases hq : offset + 14 ≤ p.length
    · rw [get_uint_value_append p ext (offset + 12) 2 (by omega)]
      simp only [hq, hlen, and_true]
      exact le_refl _
    · simp only [hq, hlen, and_true, and_false, if_false]
      interval_cases t <;> simp

/-- Instance of the convergence theorem: a Write Block Request of 14 bytes, its first 8 bytes, and three bytes appended. -/
theorem get_optommp_message_len_converges_witness :
    (get_optommp_message_len
        ([0x00, 0x00, 0x04, 0x10, 0x00, 0x00, 0xFF, 0xFF] ++
          [0xF0, 0x30, 0x00, 0x00, 0x00, 0x06] ++ [0x01, 0x02, 0x03]) 0).eval =
        (get_optommp_message_len
          ([0x00, 0x00, 0x04, 0x10, 0x00, 0x00, 0xFF, 0xFF] ++
            [0xF0, 0x30, 0x00, 0x00, 0x00, 0x06]) 0).eval ∧
      ∃ n m, (get_optommp_message_len
          [0x00, 0x00, 0x04, 0x10, 0x00, 0x00, 0xFF, 0xFF] 0).eval = .ok n ∧
        (get_optommp_message_len
          ([0x00, 0x00, 0x04, 0x10, 0x00, 0x00, 0xFF, 0xFF] ++
            [0xF0, 0x30, 0x00, 0x00, 0x00, 0x06]) 0).eval = .ok m ∧ n ≤ m :=
  ⟨(get_optommp_message_len_converges [0x00, 0x00, 0x04, 0x10, 0x00, 0x00, 0xFF, 0xFF]
      [0xF0, 0x30, 0x00, 0x00, 0x00, 0x06] 0 (by decide)).1 [0x01, 0x02, 0x03],
    (get_optommp_message_len_converges [0x00, 0x00, 0x04, 0x10, 0x00, 0x00, 0xFF, 0xFF]
      [0xF0, 0x30, 0x00, 0x00, 0x00, 0x06] 0 (by decide)).2 (by decide)⟩

/-! ## The field primitives and the decoder -/

theorem proto_tree_add_item_ok (parent : Ett) (hfindex : Hf) (tvb : Tvb) (start length : Nat)
    (s : Dissection) (h : start + length ≤ tvb.length) :
    proto_tree_add_item parent hfindex tvb start length s =
      .ok ((), { s with fields := s.fields ++
        [Entry.item parent hfindex start length (field_value hfindex tvb start length)] }) := by
  simp [proto_tree_add_item, h]

theorem guint_add_eq (a b : Nat) (h : a + b < 4294967296) : guint_add a b = a + b := by
  unfold guint_add
  omega

theorem high_nibble : ∀ b : Fin 256, (b.val &&& 0xF0) >>> 4 = b.val >>> 4 := by
  set_option maxRecDepth 100000 in decide

theorem high_six_bits : ∀ b : Fin 256, (b.val &&& 0xFC) >>> 2 = b.val >>> 2 := by
  set_option maxRecDepth 100000 in decide

theorem field_value_tl (tvb : Tvb) (i : Nat) :
    field_value .hf_optommp_tl tvb i 1 = .uint (byte_at tvb i >>> 2) := by
  have h : hfinfo_bitshift 0xFC = 2 := by decide
  simp [field_value, hf, masked_value, h, get_uint_value_one]
  exact high_six_bits ⟨byte_at tvb i, byte_at_lt tvb i⟩

theorem field_value_tcode (tvb : Tvb) (i : Nat) :
    field_value .hf_optommp_tcode tvb i 1 = .uint (byte_at tvb i >>> 4) := by
  have h : hfinfo_bitshift 0xF0 = 4 := by decide
  simp [field_value, hf, masked_value, h, get_uint_value_one]
  exact high_nibble ⟨byte_at tvb i, byte_at_lt tvb i⟩

theorem field_value_rcode (tvb : Tvb) (i : Nat) :
    field_value .hf_optommp_rcode tvb i 1 = .uint (byte_at tvb i >>> 4) := by
  have h : hfinfo_bitshift 0xF0 = 4 := by decide
  simp [field_value, hf, masked_value, h, get_uint_value_one]
  exact high_nibble ⟨byte_at tvb i, byte_at_lt tvb i⟩

theorem field_value_nodest_id (tvb : Tvb) (i : Nat) :
    field_value .hf_optommp_nodest_id tvb i 2 =
      .uint ((get_uint_value tvb i 2 &&& 0x8000) >>> 15) := by
  have h : hfinfo_bitshift 0x8000 = 15 := by decide
  simp [field_value, hf, masked_value, h]

theorem field_value_boot_id (tvb : Tvb) (i : Nat) :
    field_value .hf_optommp_boot_id tvb i 2 = .uint (get_uint_value tvb i 2 &&& 0x7FFF) := by
  have h : hfinfo_bitshift 0x7FFF = 0 := by decide
  simp [field_value, hf, masked_value, h]

theorem field_value_dest_id (tvb : Tvb) (i : Nat) :
    field_value .hf_optommp_dest_id tvb i 2 = .uint (get_uint_value tvb i 2) := by
  simp [field_value, hf, masked_value]

theorem field_value_source_ID (tvb : Tvb) (i : Nat) :
    field_value .hf_optommp_source_ID tvb i 2 = .uint (get_uint_value tvb i 2) := by
  simp [field_value, hf, masked_value]

theorem field_value_quadlet_data (tvb : Tvb) (i : Nat) :
    field_value .hf_optommp_quadlet_data tvb i 4 = .uint (get_uint_value tvb i 4) := by
  simp [field_value, hf, masked_value]

theorem field_value_dest_offset (tvb : Tvb) (i : Nat) :
    field_value .hf_optommp_dest_offset tvb i 4 = .uint (get_uint_value tvb i 4) := by
  simp [field_value, hf, masked_value]

/-- The run of `dissect_optommp_dest_id` at the start of a buffer holding bytes 0-1. -/
theorem dissect_optommp_dest_id_run (tvb : Tvb) (s : Dissection) (h : 2 ≤ tvb.length) :
    dissect_optommp_dest_id tvb 0 s =
      .ok (2, { s with reads := s.reads ++ [0, 1], fields := s.fields ++ dest_id_entries tvb }) := by
  have h2 : 0 + 2 ≤ tvb.length := by omega
  unfold dissect_optommp_dest_id dest_id_entries
  simp only [dissect_bind_apply, tvb_get_ntohs, tvb_get_bytes_ok _ _ _ _ h2]
  by_cases hb : get_uint_value tvb 0 2 &&& 0x8000 = 0x8000
  · simp [hb, proto_tree_add_subtree, proto_tree_add_item_ok _ _ _ _ _ _ h2, guint_add,
      field_value_dest_id, field_value_boot_id, List.range']
  · simp [hb, proto_tree_add_item_ok _ _ _ _ _ _ h2, guint_add, field_value_nodest_id,
      List.range']

/-- The run of `dissect_optommp_source_ID`: the cursor advances by 2 and the field is
added exactly when the buffer holds it. -/
theorem dissect_optommp_source_ID_run (tvb : Tvb) (offset : Nat) (s : Dissection)
    (ho : offset + 2 < 4294967296) :
    dissect_optommp_source_ID tvb offset s =
      .ok (offset + 2, { s with fields := s.fields ++
        if offset + 2 ≤ tvb.length then
          [Entry.item .ett_optommp .hf_optommp_source_ID offset 2
            (.uint (get_uint_value tvb offset 2))]
        else [] }) := by
  unfold dissect_optommp_source_ID
  rw [guint_add_eq _ _ ho]
  by_cases hc : offset + 2 ≤ tvb.length
  · simp [tvb_reported_length, hc, proto_tree_add_item_ok _ _ _ _ _ _ hc, field_value_source_ID]
  · simp [tvb_reported_length, hc]

/-- The run of `dissect_optommp_rcode`: the cursor advances by 1 and the field is added
exactly when the buffer holds it. -/
theorem dissect_optommp_rcode_run (tvb : Tvb) (offset : Nat) (s : Dissection)
    (ho : offset + 1 < 4294967296) :
    dissect_optommp_rcode tvb offset s =
      .ok (offset + 1, { s with fields := s.fields ++
        if offset + 1 ≤ tvb.length then
          [Entry.item .ett_optommp .hf_optommp_rcode offset 1 (.uint (byte_at tvb offset >>> 4))]
        else [] }) := by
  unfold dissect_optommp_rcode
  rw [guint_add_eq _ _ ho]
  by_cases hc : offset + 1 ≤ tvb.length
  · simp [tvb_reported_length, hc, proto_tree_add_item_ok _ _ _ _ _ _ hc, field_value_rcode]
  · simp [tvb_reported_length, hc]

/-- The run of `dissect_optommp_quadlet_data`: the cursor advances by 4 and the field is
added exactly when the buffer holds it. -/
theorem dissect_optommp_quadlet_data_run (tvb : Tvb) (offset : Nat) (s : Dissection)
    (ho : offset + 4 < 4294967296) :
    dissect_optommp_quadlet_data tvb offset s =
      .ok (offset + 4, { s with fields := s.fields ++
        if offset + 4 ≤ tvb.length then
          [Entry.item .ett_optommp .hf_optommp_quadlet_data offset 4
            (.uint (get_uint_value tvb offset 4))]
        else [] }) := by
  unfold dissect_optommp_quadlet_data
  rw [guint_add_eq _ _ ho]
  by_cases hc : offset + 4 ≤ tvb.length
  · simp [tvb_reported_length, hc, proto_tree_add_item_ok _ _ _ _ _ _ hc,
      field_value_quadlet_data]
  · simp [tvb_reported_length, hc]

/-- The run of `dissect_optommp_destination_offset_6` on a buffer that holds the six
bytes: two bytes are skipped, the four-byte field is added, the cursor advances by 6. -/
theorem dissect_optommp_destination_offset_6_run (tvb : Tvb) (offset : Nat) (s : Dissection)
    (ho : offset + 6 < 4294967296) (hc : offset + 6 ≤ tvb.length) :
    dissect_optommp_destination_offset_6 tvb offset s =
      .ok (offset + 6, { s with fields := s.fields ++
        [Entry.item .ett_optommp .hf_optommp_dest_offset (offset + 2) 4
          (.uint (get_uint_value tvb (offset + 2) 4))] }) := by
  unfold dissect_optommp_destination_offset_6
  have h4 : offset + 2 + 4 ≤ tvb.length := by omega
  have e6 : guint_add offset 6 = offset + 6 := guint_add_eq _ _ ho
  have e2 : guint_add offset 2 = offset + 2 := guint_add_eq _ _ (by omega)
  have e4 : guint_add (offset + 2) 4 = offset + 6 := guint_add_eq _ _ (by omega)
  simp [tvb_reported_length, hc, e6, e2, e4, proto_tree_add_item_ok _ _ _ _ _ _ h4,
    field_value_dest_offset]

/-- The run of the summary part of `dissect_optommp` on a buffer of at least 12 bytes. -/
theorem dissect_optommp_summary_run (tvb : Tvb) (s : Dissection) (h : 12 ≤ tvb.length) :
    dissect_optommp_summary tvb s =
      .ok ((), { s with reads := s.reads ++ ([3] ++ dest_off_reads tvb),
                        col_protocol := "OptoMMP", col_info := summary_text tvb }) := by
  have h3 : 3 + 1 ≤ tvb.length := by omega
  have h6 : 6 + 6 ≤ tvb.length := by omega
  unfold dissect_optommp_summary dest_off_reads summary_text
  by_cases hd : optommp_has_destination_offset (byte_at tvb 3 >>> 4) = 0
  · simp [col_set_str_protocol, col_clear_info, col_add_fstr_info, tvb_reported_length, h,
      OPTOMMP_MIN_LENGTH, tvb_get_guint8, tvb_get_bytes_ok _ _ _ _ h3, get_uint_value_one, hd,
      List.range']
  · simp [col_set_str_protocol, col_clear_info, col_add_fstr_info, tvb_reported_length, h,
      OPTOMMP_MIN_LENGTH, tvb_get_guint8, tvb_get_ntoh48, tvb_get_bytes_ok _ _ _ _ h3,
      tvb_get_bytes_ok _ _ _ _ h6, get_uint_value_one, hd, List.range']

/-- The tree part of `dissect_optommp` on a buffer of at least 12 bytes: the root entry and
the header entries are added, then the `switch` runs with the cursor at 4. -/
theorem dissect_optommp_tree_run (tvb : Tvb) (s : Dissection) (h : 12 ≤ tvb.length) :
    dissect_optommp_tree tvb s =
      dissect_optommp_switch tvb (byte_at tvb 3 >>> 4) 4
        { s with reads := s.reads ++ ([3] ++ dest_off_reads tvb ++ [0, 1, 3]),
                 root := some ⟨0, tvb.length, root_text tvb⟩,
                 fields := s.fields ++ header_entries tvb } := by
  have h2 : 2 ≤ tvb.length := by omega
  have h3 : 3 + 1 ≤ tvb.length := by omega
  have h21 : 2 + 1 ≤ tvb.length := by omega
  have h6 : 6 + 6 ≤ tvb.length := by omega
  have e1 : guint_add 2 1 = 3 := by decide
  have e2 : guint_add 3 1 = 4 := by decide
  unfold dissect_optommp_tree dest_off_reads root_text header_entries
  by_cases hd : optommp_has_destination_offset (byte_at tvb 3 >>> 4) = 0
  · simp [proto_tree_add_root, proto_item_append_text, tvb_reported_length, h,
      OPTOMMP_MIN_LENGTH, tvb_get_guint8, tvb_get_bytes_ok _ _ _ _ h3, get_uint_value_one, hd,
      List.range', dissect_optommp_dest_id_run _ _ h2, proto_tree_add_item_ok _ _ _ _ _ _ h21,
      proto_tree_add_item_ok _ _ _ _ _ _ h3, e1, e2, field_value_tl, field_value_tcode]
  · simp [proto_tree_add_root, proto_item_append_text, tvb_reported_length, h,
      OPTOMMP_MIN_LENGTH, tvb_get_guint8, tvb_get_ntoh48, tvb_get_bytes_ok _ _ _ _ h3,
      tvb_get_bytes_ok _ _ _ _ h6, get_uint_value_one, hd,
      List.range', dissect_optommp_dest_id_run _ _ h2, proto_tree_add_item_ok _ _ _ _ _ _ h21,
      proto_tree_add_item_ok _ _ _ _ _ _ h3, e1, e2, field_value_tl, field_value_tcode]

/-- The function `dissect_optommp` with a tree requested, on a buffer of at least 12 bytes:
it runs the `switch` from `header_state` and returns the captured length. -/
theorem dissect_optommp_run (tvb : Tvb) (s : Dissection) (h : 12 ≤ tvb.length) :
    dissect_optommp tvb true s =
      match dissect_optommp_switch tvb (byte_at tvb 3 >>> 4) 4 (header_state tvb s) with
      | .ok (_, s1) => .ok (tvb.length, s1)
      | .error e => .error e := by
  unfold dissect_optommp header_state
  simp only [dissect_bind_apply, dissect_optommp_summary_run _ _ h,
    dissect_optommp_tree_run _ _ h, tvb_captured_length, if_true, dissect_pure_apply,
    List.append_assoc]
  generalize dissect_optommp_switch tvb _ _ _ = r
  rcases r with e | ⟨a, s1⟩ <;> rfl

/-- The run of `dissect_optommp_write_quadlet_request` from cursor 4 on a buffer of at
least 12 bytes. -/
theorem dissect_optommp_write_quadlet_request_run (tvb : Tvb) (s : Dissection)
    (h : 12 ≤ tvb.length) :
    dissect_optommp_write_quadlet_request tvb 4 s =
      .ok (16, { s with fields := s.fields ++
        ([ Entry.item .ett_optommp .hf_optommp_source_ID 4 2 (.uint (get_uint_value tvb 4 2)),
           Entry.item .ett_optommp .hf_optommp_dest_offset 8 4
             (.uint (get_uint_value tvb 8 4)) ] ++
          if 16 ≤ tvb.length then
            [Entry.item .ett_optommp .hf_optommp_quadlet_data 12 4
              (.uint (get_uint_value tvb 12 4))]
          else []) }) := by
  have h6 : 4 + 2 ≤ tvb.length := by omega
  unfold dissect_optommp_write_quadlet_request
  simp only [dissect_bind_apply, dissect_optommp_source_ID_run tvb 4 _ (by decide),
    dissect_optommp_destination_offset_6_run tvb (4 + 2) _ (by decide) (by omega),
    dissect_optommp_quadlet_data_run tvb (4 + 2 + 6) _ (by decide), if_pos h6]
  simp

/-- The run of `dissect_optommp_read_quadlet_response` from cursor 4. -/
theorem dissect_optommp_read_quadlet_response_run (tvb : Tvb) (s : Dissection) :
    dissect_optommp_read_quadlet_response tvb 4 s =
      .ok (16, { s with fields := s.fields ++
        ((if 6 ≤ tvb.length then
            [Entry.item .ett_optommp .hf_optommp_source_ID 4 2
              (.uint (get_uint_value tvb 4 2))]
          else []) ++
         (if 7 ≤ tvb.length then
            [Entry.item .ett_optommp .hf_optommp_rcode 6 1 (.uint (byte_at tvb 6 >>> 4))]
          else []) ++
         (if 16 ≤ tvb.length then
            [Entry.item .ett_optommp .hf_optommp_quadlet_data 12 4
              (.uint (get_uint_value tvb 12 4))]
          else [])) }) := by
  have e5 : guint_add (4 + 2 + 1) 5 = 12 := by decide
  unfold dissect_optommp_read_quadlet_response
  simp only [dissect_bind_apply, dissect_optommp_source_ID_run tvb 4 _ (by decide),
    dissect_optommp_rcode_run tvb (4 + 2) _ (by decide), e5,
    dissect_optommp_quadlet_data_run tvb 12 _ (by decide)]
  simp

theorem get_uint_value_four (tvb : Tvb) (i : Nat) :
    get_uint_value tvb i 4 =
      ((byte_at tvb i * 256 + byte_at tvb (i + 1)) * 256 + byte_at tvb (i + 2)) * 256 +
        byte_at tvb (i + 3) := by
  simp [get_uint_value]

/-- Bit 15 of a 16-bit value is set exactly when the value is at least `0x8000`. -/
theorem bit15_set_iff (d : Nat) (hd : d < 65536) : d &&& 0x8000 = 0x8000 ↔ 0x8000 ≤ d := by
  have e : (0x8000 : Nat) = 2 ^ 15 := by norm_num
  rw [e, Nat.and_two_pow, Nat.testBit_to_div_mod]
  by_cases hq : d / 2 ^ 15 % 2 = 1
  · simp [hq]; omega
  · simp [hq]; omega

/-- The flag bit of a 16-bit value below `0x8000`, masked and shifted, is zero. -/
theorem bit15_clear (d : Nat) (hd : d < 0x8000) : (d &&& 0x8000) >>> 15 = 0 := by
  have e : (0x8000 : Nat) = 2 ^ 15 := by norm_num
  rw [e, Nat.and_two_pow, Nat.testBit_lt_two_pow (by omega)]
  simp

/-- The final state of `dissect_optommp` on a 16-byte Read Quadlet Response. -/
theorem dissect_optommp_read_quadlet_response_trace (tvb : Tvb) (hlen : tvb.length = 16)
    (ht : byte_at tvb 3 >>> 4 = 6) :
    (dissect_optommp tvb true).trace =
      some { header_state tvb Dissection.init with
        fields := header_entries tvb ++
          [ Entry.item .ett_optommp .hf_optommp_source_ID 4 2
              (.uint (byte_at tvb 4 * 256 + byte_at tvb 5)),
            Entry.item .ett_optommp .hf_optommp_rcode 6 1 (.uint (byte_at tvb 6 >>> 4)),
            Entry.item .ett_optommp .hf_optommp_quadlet_data 12 4
              (.uint (((byte_at tvb 12 * 256 + byte_at tvb 13) * 256 + byte_at tvb 14) * 256 +
                byte_at tvb 15)) ] } := by
  unfold Dissect.trace
  rw [dissect_optommp_run tvb _ (by omega), ht]
  simp only [dissect_optommp_switch, dissect_optommp_read_quadlet_response_run]
  simp [hlen, header_state, Dissection.init, get_uint_value_two, get_uint_value_four]

theorem header_entries_not_covering (tvb : Tvb) (e : Entry) (he : e ∈ header_entries tvb)
    (k : Nat) (hk : 4 ≤ k) : e.covers k = false := by
  unfold header_entries dest_id_entries at he
  split_ifs at he
  · simp at he
    rcases he with h | h | h | h | h <;>
      simp [h, Entry.covers, Entry.start, Entry.length] <;> omega
  · simp at he
    rcases he with h | h | h <;>
      simp [h, Entry.covers, Entry.start, Entry.length] <;> omega

theorem header_entries_find_uint (tvb : Tvb) (name : String)
    (h1 : name ≠ "optommp.destination_ID") (h2 : name ≠ "optommp.boot_ID")
    (h3 : name ≠ "optommp.tl") (h4 : name ≠ "optommp.tcode") (rest : List Entry) :
    find_uint name (header_entries tvb ++ rest) = find_uint name rest := by
  unfold header_entries dest_id_entries find_uint
  split_ifs <;>
    simp [List.findSome?, Entry.uint_named, hf, Ne.symm h1, Ne.symm h2, Ne.symm h3, Ne.symm h4]

/-- C10: on every 16-byte buffer with tcode 6 `dissect_optommp` adds, after the header
entries, exactly source_ID = big-endian bytes 4-5, rcode = high nibble of byte 6 and
quadlet_data = big-endian bytes 12-15, in this order; no entry covers any of bytes 7-11; and
with byte 6 = 00 and bytes 12-15 = DE AD BE EF the values are rcode 0 and quadlet_data
0xDEADBEEF. -/
theorem dissect_optommp_read_quadlet_response_fields (tvb : Tvb) (hlen : tvb.length = 16)
    (ht : byte_at tvb 3 >>> 4 = 6) :
    ∃ r, (dissect_optommp tvb true).trace = some r ∧
      r.fields = header_entries tvb ++
        [ Entry.item .ett_optommp .hf_optommp_source_ID 4 2
            (.uint (byte_at tvb 4 * 256 + byte_at tvb 5)),
          Entry.item .ett_optommp .hf_optommp_rcode 6 1 (.uint (byte_at tvb 6 >>> 4)),
          Entry.item .ett_optommp .hf_optommp_quadlet_data 12 4
            (.uint (((byte_at tvb 12 * 256 + byte_at tvb 13) * 256 + byte_at tvb 14) * 256 +
              byte_at tvb 15)) ] ∧
      (∀ e ∈ r.fields, ∀ k, 7 ≤ k → k ≤ 11 → e.covers k = false) ∧
      (byte_at tvb 6 = 0x00 → byte_at tvb 12 = 0xDE → byte_at tvb 13 = 0xAD →
        byte_at tvb 14 = 0xBE → byte_at tvb 15 = 0xEF →
        find_uint "optommp.rcode" r.fields = some 0 ∧
          find_uint "optommp.quadlet_data" r.fields = some 0xDEADBEEF) := by
  refine ⟨_, dissect_optommp_read_quadlet_response_trace tvb hlen ht, rfl, ?_, ?_⟩
  · intro e he k h7 h11
    simp only [List.mem_append] at he
    rcases he with he | he
    · exact header_entries_not_covering tvb e he k (by omega)
    · simp at he
      rcases he with h | h | h <;>
        simp [h, Entry.covers, Entry.start, Entry.length] <;> omega
  · intro h6 h12 h13 h14 h15
    simp only []
    rw [header_entries_find_uint _ _ (by decide) (by decide) (by decide) (by decide),
      header_entries_find_uint _ _ (by decide) (by decide) (by decide) (by decide)]
    simp [find_uint, List.findSome?, Entry.uint_named, hf, h6, h12, h13, h14, h15]

/-- Instance of the Read Quadlet Response theorem: rcode 0 and quadlet_data DE AD BE EF. -/
theorem dissect_optommp_read_quadlet_response_fields_witness :
    ∃ r, (dissect_optommp
        [0x00, 0x00, 0x04, 0x60, 0x00, 0x05, 0x00, 0x11, 0x22, 0x33, 0x44, 0x55,
          0xDE, 0xAD, 0xBE, 0xEF] true).trace = some r ∧
      find_uint "optommp.rcode" r.fields = some 0 ∧
      find_uint "optommp.quadlet_data" r.fields = some 0xDEADBEEF :=
  (dissect_optommp_read_quadlet_response_fields
    [0x00, 0x00, 0x04, 0x60, 0x00, 0x05, 0x00, 0x11, 0x22, 0x33, 0x44, 0x55,
      0xDE, 0xAD, 0xBE, 0xEF] (by decide) (by decide)).elim
    fun r h => ⟨r, h.1,
      h.2.2.2 (by decide) (by decide) (by decide) (by decide) (by decide)⟩

/-- The final state of `dissect_optommp` on a 16-byte Write Quadlet Request. -/
theorem dissect_optommp_write_quadlet_request_trace (tvb : Tvb) (hlen : tvb.length = 16)
    (ht : byte_at tvb 3 >>> 4 = 0) :
    (dissect_optommp tvb true).trace =
      some { header_state tvb Dissection.init with
        fields := header_entries tvb ++
          [ Entry.item .ett_optommp .hf_optommp_source_ID 4 2 (.uint (get_uint_value tvb 4 2)),
            Entry.item .ett_optommp .hf_optommp_dest_offset 8 4
              (.uint (get_uint_value tvb 8 4)),
            Entry.item .ett_optommp .hf_optommp_quadlet_data 12 4
              (.uint (get_uint_value tvb 12 4)) ] } := by
  unfold Dissect.trace
  rw [dissect_optommp_run tvb _ (by omega), ht]
  simp only [dissect_optommp_switch, dissect_optommp_write_quadlet_request_run tvb _ (by omega)]
  simp [hlen, header_state, Dissection.init]

/-- The values `decode_write_quadlet_request` collects from a 16-byte buffer with tcode 0. -/
theorem decode_write_quadlet_request_eq (tvb : Tvb) (hlen : tvb.length = 16)
    (ht : byte_at tvb 3 >>> 4 = 0) :
    decode_write_quadlet_request tvb =
      some ⟨if get_uint_value tvb 0 2 &&& 0x8000 = 0x8000 then get_uint_value tvb 0 2
            else (get_uint_value tvb 0 2 &&& 0x8000) >>> 15,
        byte_at tvb 2 >>> 2, 0, get_uint_value tvb 4 2, get_uint_value tvb 8 4,
        get_uint_value tvb 12 4⟩ := by
  unfold decode_write_quadlet_request
  rw [dissect_optommp_write_quadlet_request_trace tvb hlen ht]
  simp only []
  unfold header_entries dest_id_entries find_uint
  split_ifs <;> simp [List.findSome?, Entry.uint_named, hf, ht]

/-- C9 (as stated): the round trip fails for destination_id 1: the decoded destination_ID
field is 0, the value of the masked flag bit, and not the encoded 1. -/
theorem write_quadlet_plain_destination_not_reproduced :
    decode_write_quadlet_request (encode_write_quadlet_request 1 0 0 0 0) =
        some ⟨0, 0, 0, 0, 0, 0⟩ ∧
      decode_write_quadlet_request (encode_write_quadlet_request 1 0 0 0 0) ≠
        some ⟨1, 0, 0, 0, 0, 0⟩ := by
  decide

/-- C9 (amended): for in-range values the 16-byte Write Quadlet Request decodes to the
encoded transaction label, tcode 0, source_id, destination_offset and quadlet_data, and to a
destination_ID equal to the encoded one when its bit 15 is set and equal to 0 when bit 15 is
clear. -/
theorem write_quadlet_round_trip (destination_id transaction_label source_id address
    quadlet_data : Nat) (hd : destination_id < 65536) (htl : transaction_label < 64)
    (hs : source_id < 65536) (ha : address < 4294967296) (hq : quadlet_data < 4294967296) :
    decode_write_quadlet_request
        (encode_write_quadlet_request destination_id transaction_label source_id address
          quadlet_data) =
      some ⟨if 0x8000 ≤ destination_id then destination_id else 0, transaction_label, 0,
        source_id, address, quadlet_data⟩ := by
  have hlen : (encode_write_quadlet_request destination_id transaction_label source_id address
      quadlet_data).length = 16 := rfl
  have ht : byte_at (encode_write_quadlet_request destination_id transaction_label source_id
      address quadlet_data) 3 >>> 4 = 0 := by
    simp [encode_write_quadlet_request, byte_at, to_byte]
  have e0 : get_uint_value (encode_write_quadlet_request destination_id transaction_label
      source_id address quadlet_data) 0 2 = destination_id := by
    simp [get_uint_value, encode_write_quadlet_request, byte_at, to_byte]
    omega
  have e2 : byte_at (encode_write_quadlet_request destination_id transaction_label
      source_id address quadlet_data) 2 >>> 2 = transaction_label := by
    simp [encode_write_quadlet_request, byte_at, to_byte, Nat.shiftRight_eq_div_pow]
    omega
  have e4 : get_uint_value (encode_write_quadlet_request destination_id transaction_label
      source_id address quadlet_data) 4 2 = source_id := by
    simp [get_uint_value, encode_write_quadlet_request, byte_at, to_byte]
    omega
  have e8 : get_uint_value (encode_write_quadlet_request destination_id transaction_label
      source_id address quadlet_data) 8 4 = address := by
    simp [get_uint_value, encode_write_quadlet_request, byte_at, to_byte]
    omega
  have e12 : get_uint_value (encode_write_quadlet_request destination_id transaction_label
      source_id address quadlet_data) 12 4 = quadlet_data := by
    simp [get_uint_value, encode_write_quadlet_request, byte_at, to_byte]
    omega
  rw [decode_write_quadlet_request_eq _ hlen ht, e0, e2, e4, e8, e12]
  by_cases hb : 0x8000 ≤ destination_id
  · rw [if_pos ((bit15_set_iff _ hd).2 hb), if_pos hb]
  · rw [if_neg (fun h => hb ((bit15_set_iff _ hd).1 h)), if_neg hb,
      bit15_clear _ (by omega)]

/-- Instance of the round-trip theorem with the boot-id flag set. -/
theorem write_quadlet_round_trip_witness :
    decode_write_quadlet_request
        (encode_write_quadlet_request 0x8001 0x15 0x0005 0xF0300000 0xDEADBEEF) =
      some ⟨if 0x8000 ≤ 0x8001 then 0x8001 else 0, 0x15, 0, 0x0005, 0xF0300000, 0xDEADBEEF⟩ :=
  write_quadlet_round_trip 0x8001 0x15 0x0005 0xF0300000 0xDEADBEEF
    (by decide) (by decide) (by decide) (by decide) (by decide)

/-! ## The decoder on every buffer -/

/-- The run of `dissect_optommp_data_length`: the cursor advances by 2; the field is read
and added exactly when the buffer holds it, otherwise the returned length is 0. -/
theorem dissect_optommp_data_length_run (tvb : Tvb) (offset : Nat) (s : Dissection)
    (ho : offset + 2 < 4294967296) :
    dissect_optommp_data_length tvb offset s =
      .ok ((if offset + 2 ≤ tvb.length then get_uint_value tvb offset 2 else 0, offset + 2),
        { s with
          reads := s.reads ++ if offset + 2 ≤ tvb.length then [offset, offset + 1] else [],
          fields := s.fields ++
            if offset + 2 ≤ tvb.length then
              [Entry.item .ett_optommp .hf_optommp_data_length offset 2
                (.uint (get_uint_value tvb offset 2))]
            else [] }) := by
  unfold dissect_optommp_data_length
  rw [guint_add_eq _ _ ho]
  by_cases hc : offset + 2 ≤ tvb.length
  · have fv : field_value .hf_optommp_data_length tvb offset 2 =
        .uint (get_uint_value tvb offset 2) := by
      simp [field_value, hf, masked_value]
    simp [tvb_reported_length, hc, tvb_get_ntohs, tvb_get_bytes_ok _ _ _ _ hc,
      proto_tree_add_item_ok _ _ _ _ _ _ hc, fv, List.range']
  · simp [tvb_reported_length, hc]

/-- The run of `dissect_optommp_data_block_quadlet`. -/
theorem dissect_optommp_data_block_quadlet_run (tvb : Tvb) (offset : Nat) (s : Dissection)
    (ho : offset + 4 < 4294967296) :
    dissect_optommp_data_block_quadlet tvb offset s =
      .ok (offset + 4, { s with fields := s.fields ++
        if offset + 4 ≤ tvb.length then
          [Entry.item .ett_data_block_q .hf_optommp_data_block_quadlet offset 4
            (field_value .hf_optommp_data_block_quadlet tvb offset 4)]
        else [] }) := by
  unfold dissect_optommp_data_block_quadlet
  rw [guint_add_eq _ _ ho]
  by_cases hc : offset + 4 ≤ tvb.length
  · simp [tvb_reported_length, hc, proto_tree_add_item_ok _ _ _ _ _ _ hc]
  · simp [tvb_reported_length, hc]

/-- The run of `dissect_optommp_data_block_byte`. -/
theorem dissect_optommp_data_block_byte_run (tvb : Tvb) (offset : Nat) (s : Dissection)
    (ho : offset + 1 < 4294967296) :
    dissect_optommp_data_block_byte tvb offset s =
      .ok (offset + 1, { s with fields := s.fields ++
        if offset + 1 ≤ tvb.length then
          [Entry.item .ett_data_block_b .hf_optommp_data_block_byte offset 1
            (field_value .hf_optommp_data_block_byte tvb offset 1)]
        else [] }) := by
  unfold dissect_optommp_data_block_byte
  rw [guint_add_eq _ _ ho]
  by_cases hc : offset + 1 ≤ tvb.length
  · simp [tvb_reported_length, hc, proto_tree_add_item_ok _ _ _ _ _ _ hc]
  · simp [tvb_reported_length, hc]

/-- A loop over a guarded field read adds the entries of `loop_entries` and moves its local
cursor by `width` per round. -/
theorem repeat_cursor_run (tvb : Tvb) (parent : Ett) (hfindex : Hf) (width : Nat)
    (body : Nat → Dissect Nat)
    (hbody : ∀ offset s, offset + width < 4294967296 →
      body offset s = .ok (offset + width, { s with fields := s.fields ++
        if offset + width ≤ tvb.length then
          [Entry.item parent hfindex offset width (field_value hfindex tvb offset width)]
        else [] })) :
    ∀ (count offset : Nat) (s : Dissection), offset + width * count < 4294967296 →
      repeat_cursor body count offset s =
        .ok (offset + width * count,
          { s with fields := s.fields ++ (loop_entries tvb parent hfindex width count offset) })
        := by
  intro count
  induction count with
  | zero =>
    intro offset s _
    simp [repeat_cursor, loop_entries]
  | succ n ih =>
    intro offset s h
    have h1 : offset + width < 4294967296 := by
      have : width * (n + 1) = width * n + width := by ring
      omega
    have h2 : offset + width + width * n < 4294967296 := by
      have : width * (n + 1) = width * n + width := by ring
      omega
    simp only [repeat_cursor, dissect_bind_apply, hbody offset s h1, ih (offset + width) _ h2,
      loop_entries]
    have e : offset + width + width * n = offset + width * (n + 1) := by ring
    simp [e]

/-- The run of `dissect_optommp_data_block`: the entries of both views are added and
nothing else changes. -/
theorem dissect_optommp_data_block_run (tvb : Tvb) (offset data_length : Nat) (s : Dissection)
    (ho : offset + data_length < 4294967296) (hd : data_length < 65536) :
    dissect_optommp_data_block tvb offset data_length s =
      .ok ((), { s with fields := s.fields ++ data_block_entries tvb offset data_length }) := by
  have hm : data_length / 4 % 65536 = data_length / 4 := by omega
  unfold dissect_optommp_data_block data_block_entries
  simp only [dissect_bind_apply, proto_tree_add_subtree, hm,
    repeat_cursor_run tvb .ett_data_block_q .hf_optommp_data_block_quadlet 4 _
      (dissect_optommp_data_block_quadlet_run tvb) (data_length / 4) offset _ (by omega),
    repeat_cursor_run tvb .ett_data_block_b .hf_optommp_data_block_byte 1 _
      (dissect_optommp_data_block_byte_run tvb) data_length offset _ (by omega),
    dissect_pure_apply]
  simp

theorem data_length_value_lt (tvb : Tvb) : data_length_value tvb < 65536 := by
  unfold data_length_value
  split_ifs
  · exact get_uint_value_two_lt tvb 12
  · decide

/-- The `switch` of `dissect_optommp` entered with the cursor at 4 on a buffer of at least 12
bytes: it never fails, adds the entries of `variant_entries` and leaves the cursor at
`variant_cursor`. -/
theorem dissect_optommp_switch_run (tvb : Tvb) (s : Dissection) (h : 12 ≤ tvb.length)
    (tcode : Nat) (ht : tcode < 16) :
    dissect_optommp_switch tvb tcode 4 s =
      .ok (variant_cursor tcode,
        { s with reads := s.reads ++ variant_reads tvb tcode,
                 fields := s.fields ++ variant_entries tvb tcode }) := by
  have h6 : 4 + 2 ≤ tvb.length := by omega
  have h7 : 4 + 2 + 1 ≤ tvb.length := by omega
  have e5 : guint_add (4 + 2 + 1) 5 = 12 := by decide
  have e2 : guint_add (4 + 2 + 6 + 2) 2 = 16 := by decide
  have e2b : guint_add (12 + 2) 2 = 16 := by decide
  have hdl := data_length_value_lt tvb
  have hdv : (if 12 + 2 ≤ tvb.length then get_uint_value tvb 12 2 else 0) =
      data_length_value tvb := by
    unfold data_length_value
    simp
  interval_cases tcode
  · -- Write Quadlet Request
    simp only [dissect_optommp_switch, dissect_optommp_write_quadlet_request_run tvb s h,
      variant_cursor, variant_reads, variant_entries, source_ID_entry, dest_offset_entry,
      quadlet_data_entry]
    simp
  · -- Write Block Request
    simp only [dissect_optommp_switch, dissect_optommp_write_block_request, dissect_bind_apply,
      dissect_optommp_source_ID_run tvb 4 _ (by decide),
      dissect_optommp_destination_offset_6_run tvb (4 + 2) _ (by decide) (by omega),
      dissect_optommp_data_length_run tvb (4 + 2 + 6) _ (by decide), e2, hdv,
      dissect_optommp_data_block_run tvb 16 _ _ (by omega) hdl, dissect_pure_apply,
      if_pos h6, variant_cursor, variant_reads, variant_entries, source_ID_entry,
      dest_offset_entry, data_length_entry]
    by_cases h14 : 14 ≤ tvb.length <;> simp [h14]
  · -- Write Response
    simp only [dissect_optommp_switch, dissect_optommp_write_response, dissect_bind_apply,
      dissect_optommp_source_ID_run tvb 4 _ (by decide),
      dissect_optommp_rcode_run tvb (4 + 2) _ (by decide), if_pos h6, if_pos h7,
      variant_cursor, variant_reads, variant_entries, source_ID_entry, rcode_entry]
    simp
  · simp [dissect_optommp_switch, variant_cursor, variant_reads, variant_entries]
  · -- Read Quadlet Request
    simp only [dissect_optommp_switch, dissect_optommp_read_quadlet_request,
      dissect_bind_apply, dissect_optommp_source_ID_run tvb 4 _ (by decide),
      dissect_optommp_destination_offset_6_run tvb (4 + 2) _ (by decide) (by omega),
      if_pos h6, variant_cursor, variant_reads, variant_entries, source_ID_entry,
      dest_offset_entry]
    simp
  · -- Read Block Request
    simp only [dissect_optommp_switch, dissect_optommp_read_block_request, dissect_bind_apply,
      dissect_optommp_source_ID_run tvb 4 _ (by decide),
      dissect_optommp_destination_offset_6_run tvb (4 + 2) _ (by decide) (by omega),
      dissect_optommp_data_length_run tvb (4 + 2 + 6) _ (by decide), dissect_pure_apply,
      if_pos h6, variant_cursor, variant_reads, variant_entries, source_ID_entry,
      dest_offset_entry, data_length_entry]
    by_cases h14 : 14 ≤ tvb.length <;> simp [h14]
  · -- Read Quadlet Response
    simp only [dissect_optommp_switch, dissect_optommp_read_quadlet_response_run,
      variant_cursor, variant_reads, variant_entries, source_ID_entry, rcode_entry,
      quadlet_data_entry]
    have h6b : 6 ≤ tvb.length := by omega
    have h7b : 7 ≤ tvb.length := by omega
    simp [h6b, h7b]
  · -- Read Block Response
    simp only [dissect_optommp_switch, dissect_optommp_read_block_response, dissect_bind_apply,
      dissect_optommp_source_ID_run tvb 4 _ (by decide),
      dissect_optommp_rcode_run tvb (4 + 2) _ (by decide), e5,
      dissect_optommp_data_length_run tvb 12 _ (by decide), e2b, hdv,
      dissect_optommp_data_block_run tvb 16 _ _ (by omega) hdl, dissect_pure_apply,
      if_pos h6, if_pos h7, variant_cursor, variant_reads, variant_entries, source_ID_entry,
      rcode_entry, data_length_entry]
    by_cases h14 : 14 ≤ tvb.length <;> simp [h14]
  all_goals simp [dissect_optommp_switch, variant_cursor, variant_reads, variant_entries]

/-- The function `dissect_optommp` with a tree requested never fails on a buffer of at least
12 bytes and ends in `final_state`. -/
theorem dissect_optommp_tree_result (tvb : Tvb) (s : Dissection) (h : 12 ≤ tvb.length) :
    dissect_optommp tvb true s = .ok (tvb.length, final_state tvb s) := by
  rw [dissect_optommp_run tvb s h,
    dissect_optommp_switch_run tvb _ h _ (tcode_lt tvb 3)]
  rfl

/-- The function `dissect_optommp` without a tree on a buffer of at least 12 bytes: only the
summary is produced. -/
theorem dissect_optommp_no_tree_result (tvb : Tvb) (s : Dissection) (h : 12 ≤ tvb.length) :
    dissect_optommp tvb false s =
      .ok (tvb.length, { s with reads := s.reads ++ ([3] ++ dest_off_reads tvb),
                                col_protocol := "OptoMMP", col_info := summary_text tvb }) := by
  unfold dissect_optommp
  simp [dissect_optommp_summary_run _ _ h, tvb_captured_length]

/-- The function `dissect_optommp` on a buffer shorter than 12 bytes: the protocol column is
set, the summary is cleared, and with a tree requested the bare root entry is added. -/
theorem dissect_optommp_short_result (tvb : Tvb) (tree : Bool) (s : Dissection)
    (h : tvb.length < 12) :
    dissect_optommp tvb tree s =
      .ok (tvb.length, { s with col_protocol := "OptoMMP", col_info := "",
                                root := if tree then some ⟨0, tvb.length, ""⟩ else s.root }) := by
  have hn : ¬ 12 ≤ tvb.length := by omega
  unfold dissect_optommp dissect_optommp_summary dissect_optommp_tree
  cases tree <;>
    simp [col_set_str_protocol, col_clear_info, tvb_reported_length, OPTOMMP_MIN_LENGTH, hn,
      proto_tree_add_root, tvb_captured_length]

/-! ## Short buffers, unknown tcodes, header order and summary -/

/-- C11: on every buffer shorter than 12 bytes `dissect_optommp` returns normally, with or
without a tree; the summary text is empty, no byte is read, no entry is added beneath the
root, and the root entry, present exactly when a tree is requested, carries no type or
dest_off text. -/
theorem dissect_optommp_short_buffer (tvb : Tvb) (tree : Bool) (h : tvb.length < 12) :
    (dissect_optommp tvb tree).eval = .ok tvb.length ∧
      ∃ r, (dissect_optommp tvb tree).trace = some r ∧
        r.col_info = "" ∧ r.fields = [] ∧ r.reads = [] ∧
        r.root = (if tree then some ⟨0, tvb.length, ""⟩ else none) := by
  unfold Dissect.eval Dissect.trace
  rw [dissect_optommp_short_result tvb tree _ h]
  exact ⟨rfl, _, rfl, rfl, rfl, rfl, rfl⟩

/-- Instances of the short-buffer theorem: an 11-byte buffer and the empty buffer. -/
theorem dissect_optommp_short_buffer_witness :
    ((dissect_optommp [0x00, 0x00, 0x04, 0x10, 0x00, 0x00, 0xFF, 0xFF, 0xF0, 0x30, 0x00]
          true).eval = .ok 11 ∧
      ∃ r, (dissect_optommp [0x00, 0x00, 0x04, 0x10, 0x00, 0x00, 0xFF, 0xFF, 0xF0, 0x30, 0x00]
          true).trace = some r ∧
        r.col_info = "" ∧ r.fields = [] ∧ r.reads = [] ∧
        r.root = (if true = true then some ⟨0, 11, ""⟩ else none)) ∧
    ((dissect_optommp [] true).eval = .ok 0 ∧
      ∃ r, (dissect_optommp [] true).trace = some r ∧
        r.col_info = "" ∧ r.fields = [] ∧ r.reads = [] ∧
        r.root = (if true = true then some ⟨0, 0, ""⟩ else none)) :=
  ⟨dissect_optommp_short_buffer
      [0x00, 0x00, 0x04, 0x10, 0x00, 0x00, 0xFF, 0xFF, 0xF0, 0x30, 0x00] true (by decide),
    dissect_optommp_short_buffer [] true (by decide)⟩

theorem val_to_str_unknown (tcode : Nat) (h : tcode = 3 ∨ (8 ≤ tcode ∧ tcode ≤ 15)) :
    val_to_str tcode optommp_tcode_names = "Unknown (0x" ++ hex_string 2 tcode ++ ")" := by
  have h16 : tcode < 16 := by omega
  interval_cases tcode <;> first | omega | rfl

/-- C12: on every buffer of at least 12 bytes whose tcode is 3 or 8..15, `dissect_optommp`
adds exactly the header entries (destination id over bytes 0-1, transaction label over byte
2, tcode over byte 3) and the summary is ` type: Unknown (0x..)` with no dest_off part. -/
theorem dissect_optommp_unknown_tcode (tvb : Tvb) (h : 12 ≤ tvb.length)
    (ht : byte_at tvb 3 >>> 4 = 3 ∨ 8 ≤ byte_at tvb 3 >>> 4) :
    ∃ r, (dissect_optommp tvb true).trace = some r ∧
      r.fields = dest_id_entries tvb ++
        [ Entry.item .ett_optommp .hf_optommp_tl 2 1 (.uint (byte_at tvb 2 >>> 2)),
          Entry.item .ett_optommp .hf_optommp_tcode 3 1 (.uint (byte_at tvb 3 >>> 4)) ] ∧
      (∀ e ∈ dest_id_entries tvb, e.start = 0 ∧ e.length = 2) ∧
      r.col_info = " type: Unknown (0x" ++ hex_string 2 (byte_at tvb 3 >>> 4) ++ ")" := by
  have hl := tcode_lt tvb 3
  have hu : byte_at tvb 3 >>> 4 = 3 ∨ (8 ≤ byte_at tvb 3 >>> 4 ∧ byte_at tvb 3 >>> 4 ≤ 15) := by
    omega
  have hv : variant_entries tvb (byte_at tvb 3 >>> 4) = [] := by
    generalize byte_at tvb 3 >>> 4 = t at hl hu
    interval_cases t <;> first | omega | rfl
  have hd : optommp_has_destination_offset (byte_at tvb 3 >>> 4) = 0 := by
    generalize byte_at tvb 3 >>> 4 = t at hl hu
    interval_cases t <;> first | omega | rfl
  refine ⟨final_state tvb Dissection.init, ?_, ?_, ?_, ?_⟩
  · unfold Dissect.trace
    rw [dissect_optommp_tree_result tvb _ h]
  · simp [final_state, header_state, hv, Dissection.init, header_entries]
  · intro e he
    unfold dest_id_entries at he
    split_ifs at he
    · simp at he
      rcases he with h1 | h1 | h1 <;> simp [h1, Entry.start, Entry.length]
    · simp at he
      simp [he, Entry.start, Entry.length]
  · simp only [final_state, header_state, summary_text, hd, ne_eq, not_true_eq_false, if_false,
      val_to_str_unknown _ hu, ← String.append_assoc]
    have e : " type: " ++ "Unknown (0x" = " type: Unknown (0x" := by decide
    rw [e]

/-- Instance of the unknown-tcode theorem: a 12-byte buffer with tcode 3. -/
theorem dissect_optommp_unknown_tcode_witness :
    ∃ r, (dissect_optommp
        [0x00, 0x00, 0x04, 0x30, 0x00, 0x05, 0x00, 0x00, 0x00, 0x00, 0x00, 0x00] true).trace =
          some r ∧
      r.fields =
        [ Entry.item .ett_optommp .hf_optommp_nodest_id 0 2 (.uint 0),
          Entry.item .ett_optommp .hf_optommp_tl 2 1 (.uint 1),
          Entry.item .ett_optommp .hf_optommp_tcode 3 1 (.uint 3) ] ∧
      r.col_info = " type: Unknown (0x03)" :=
  (dissect_optommp_unknown_tcode
    [0x00, 0x00, 0x04, 0x30, 0x00, 0x05, 0x00, 0x00, 0x00, 0x00, 0x00, 0x00]
    (by decide) (by decide)).elim fun r h => ⟨r, h.1, h.2.1, h.2.2.2⟩

theorem loop_entries_start (tvb : Tvb) (parent : Ett) (hfindex : Hf) (width : Nat) :
    ∀ (count offset : Nat) (e : Entry),
      e ∈ loop_entries tvb parent hfindex width count offset → offset ≤ e.start := by
  intro count
  induction count with
  | zero => intro offset e he; simp [loop_entries] at he
  | succ n ih =>
    intro offset e he
    simp only [loop_entries, List.mem_append] at he
    rcases he with he | he
    · split_ifs at he
      · simp at he
        simp [he, Entry.start]
      · simp at he
    · have := ih (offset + width) e he
      omega

theorem variant_entries_start (tvb : Tvb) (tcode : Nat) (e : Entry)
    (he : e ∈ variant_entries tvb tcode) : 4 ≤ e.start := by
  have hloop : ∀ (parent : Ett) (hfindex : Hf) (width count : Nat),
      e ∈ loop_entries tvb parent hfindex width count 16 → 4 ≤ e.start := by
    intro parent hfindex width count h
    have := loop_entries_start tvb parent hfindex width count 16 e h
    omega
  unfold variant_entries at he
  split at he <;>
    simp only [List.mem_append, List.mem_cons, List.mem_singleton, List.not_mem_nil, or_false,
      data_block_entries, List.mem_ite_nil_right] at he
  · rcases he with (h | h) | ⟨_, h⟩ <;>
      simp [h, source_ID_entry, dest_offset_entry, quadlet_data_entry, Entry.start]
  · rcases he with ((h | h) | ⟨_, h⟩) | (((h | h) | h) | h)
    all_goals first
      | exact hloop _ _ _ _ h
      | simp [h, source_ID_entry, dest_offset_entry, data_length_entry, Entry.start]
  · rcases he with h | h <;> simp [h, source_ID_entry, rcode_entry, Entry.start]
  · rcases he with h | h <;> simp [h, source_ID_entry, dest_offset_entry, Entry.start]
  · rcases he with (h | h) | ⟨_, h⟩ <;>
      simp [h, source_ID_entry, dest_offset_entry, data_length_entry, Entry.start]
  · rcases he with (h | h) | ⟨_, h⟩ <;>
      simp [h, source_ID_entry, rcode_entry, quadlet_data_entry, Entry.start]
  · rcases he with ((h | h) | ⟨_, h⟩) | (((h | h) | h) | h)
    all_goals first
      | exact hloop _ _ _ _ h
      | simp [h, source_ID_entry, rcode_entry, data_length_entry, Entry.start]

theorem dest_id_entries_range (tvb : Tvb) (e : Entry) (he : e ∈ dest_id_entries tvb) :
    e.start = 0 ∧ e.length = 2 := by
  unfold dest_id_entries at he
  split_ifs at he
  · simp at he
    rcases he with h1 | h1 | h1 <;> simp [h1, Entry.start, Entry.length]
  · simp at he
    simp [he, Entry.start, Entry.length]

/-- C14: on every buffer of at least 12 bytes, whatever the tcode, the entries
`dissect_optommp` adds start with the destination id entries over bytes 0-1, then the
transaction label (byte 2 shifted right by 2, bits 2-7), then the tcode (byte 3 shifted
right by 4, bits 4-7); all further entries come after these and start at byte 4 or later. -/
theorem dissect_optommp_header_first (tvb : Tvb) (h : 12 ≤ tvb.length) :
    ∃ r rest, (dissect_optommp tvb true).trace = some r ∧
      r.fields = dest_id_entries tvb ++
        [ Entry.item .ett_optommp .hf_optommp_tl 2 1 (.uint (byte_at tvb 2 >>> 2)),
          Entry.item .ett_optommp .hf_optommp_tcode 3 1 (.uint (byte_at tvb 3 >>> 4)) ] ++
        rest ∧
      dest_id_entries tvb ≠ [] ∧
      (∀ e ∈ dest_id_entries tvb, e.start = 0 ∧ e.length = 2) ∧
      (∀ e ∈ rest, 4 ≤ e.start) := by
  refine ⟨final_state tvb Dissection.init, variant_entries tvb (byte_at tvb 3 >>> 4), ?_, ?_,
    ?_, dest_id_entries_range tvb, variant_entries_start tvb _⟩
  · unfold Dissect.trace
    rw [dissect_optommp_tree_result tvb _ h]
  · simp [final_state, header_state, Dissection.init, header_entries]
  · unfold dest_id_entries
    split_ifs <;> simp

/-- Instance of the header theorem: a 12-byte Write Response with the boot-id flag set. -/
theorem dissect_optommp_header_first_witness :
    ∃ r rest, (dissect_optommp
        [0x80, 0x01, 0x14, 0x20, 0x00, 0x05, 0x30, 0x00, 0x00, 0x00, 0x00, 0x00] true).trace =
          some r ∧
      r.fields =
        [ Entry.subtree .ett_optommp 0 2 .ett_dest_id "destination_ID",
          Entry.item .ett_dest_id .hf_optommp_dest_id 0 2 (.uint 0x8001),
          Entry.item .ett_dest_id .hf_optommp_boot_id 0 2 (.uint 1) ] ++
        [ Entry.item .ett_optommp .hf_optommp_tl 2 1 (.uint 5),
          Entry.item .ett_optommp .hf_optommp_tcode 3 1 (.uint 2) ] ++
        rest ∧
      (∀ e ∈ rest, 4 ≤ e.start) :=
  (dissect_optommp_header_first
    [0x80, 0x01, 0x14, 0x20, 0x00, 0x05, 0x30, 0x00, 0x00, 0x00, 0x00, 0x00]
    (by decide)).elim fun r hr => hr.elim fun rest h => ⟨r, rest, h.1, h.2.1, h.2.2.2.2⟩

theorem get_uint_value_lt (tvb : Tvb) (i : Nat) : ∀ n, get_uint_value tvb i n < 256 ^ n := by
  intro n
  induction n with
  | zero => simp [get_uint_value]
  | succ k ih =>
    have hb := byte_at_lt tvb (i + k)
    simp only [get_uint_value, pow_succ]
    omega

/-- A value below `2^48` is printed by `%012x` with exactly 12 digits. -/
theorem hex_string_12_length (v : Nat) (h : v < 281474976710656) :
    (hex_string 12 v).length = 12 := by
  have hl : (Nat.toDigits 16 v).length ≤ 12 :=
    Nat.toDigitsCore_length 16 (by decide) (v + 1) v 12 (by norm_num; omega) (by decide)
  unfold hex_string
  simp only [String.length, List.length_append, List.length_replicate]
  omega

theorem has_destination_offset_iff (tcode : Nat) :
    optommp_has_destination_offset tcode ≠ 0 ↔ tcode = 0 ∨ tcode = 1 ∨ tcode = 4 ∨ tcode = 5 := by
  unfold optommp_has_destination_offset
  split_ifs with h <;> simp [h]

/-- C15: on every buffer of at least 12 bytes, with or without a tree, `dissect_optommp`
leaves the summary ` type: <tcode name>`, followed by `, dest_off: 0x` and the 12 hexadecimal
digits of the big-endian value of bytes 6-11 exactly when the tcode is 0, 1, 4 or 5. -/
theorem dissect_optommp_summary_same (tvb : Tvb) (tree : Bool) (h : 12 ≤ tvb.length) :
    ∃ r, (dissect_optommp tvb tree).trace = some r ∧
      r.col_info = " type: " ++ val_to_str (byte_at tvb 3 >>> 4) optommp_tcode_names ++
        (if byte_at tvb 3 >>> 4 = 0 ∨ byte_at tvb 3 >>> 4 = 1 ∨ byte_at tvb 3 >>> 4 = 4 ∨
            byte_at tvb 3 >>> 4 = 5 then
          ", dest_off: 0x" ++ hex_string 12 (get_uint_value tvb 6 6)
        else "") ∧
      (hex_string 12 (get_uint_value tvb 6 6)).length = 12 := by
  have hs : summary_text tvb =
      " type: " ++ val_to_str (byte_at tvb 3 >>> 4) optommp_tcode_names ++
        (if byte_at tvb 3 >>> 4 = 0 ∨ byte_at tvb 3 >>> 4 = 1 ∨ byte_at tvb 3 >>> 4 = 4 ∨
            byte_at tvb 3 >>> 4 = 5 then
          ", dest_off: 0x" ++ hex_string 12 (get_uint_value tvb 6 6)
        else "") := by
    unfold summary_text
    by_cases hd : byte_at tvb 3 >>> 4 = 0 ∨ byte_at tvb 3 >>> 4 = 1 ∨ byte_at tvb 3 >>> 4 = 4 ∨
        byte_at tvb 3 >>> 4 = 5
    · rw [if_pos ((has_destination_offset_iff _).2 hd), if_pos hd]
      simp only [String.append_assoc]
    · rw [if_neg (fun hh => hd ((has_destination_offset_iff _).1 hh)), if_neg hd]
      simp
  have hlen : (hex_string 12 (get_uint_value tvb 6 6)).length = 12 :=
    hex_string_12_length _ (by have := get_uint_value_lt tvb 6 6; norm_num at this; exact this)
  unfold Dissect.trace
  cases tree
  · rw [dissect_optommp_no_tree_result tvb _ h]
    exact ⟨_, rfl, hs, hlen⟩
  · rw [dissect_optommp_tree_result tvb _ h]
    exact ⟨_, rfl, hs, hlen⟩

/-- Instances of the summary theorem: a Read Quadlet Request without a tree and a Write
Response with a tree. -/
theorem dissect_optommp_summary_same_witness :
    (∃ r, (dissect_optommp
        [0x00, 0x00, 0x04, 0x40, 0x00, 0x05, 0xFF, 0xFF, 0xF0, 0x30, 0x00, 0x00] false).trace =
          some r ∧
      r.col_info = " type: Read Quadlet Request, dest_off: 0xfffff0300000") ∧
    (∃ r, (dissect_optommp
        [0x00, 0x00, 0x04, 0x20, 0x00, 0x05, 0x30, 0x00, 0x00, 0x00, 0x00, 0x00] true).trace =
          some r ∧
      r.col_info = " type: Write Response") :=
  ⟨(dissect_optommp_summary_same
      [0x00, 0x00, 0x04, 0x40, 0x00, 0x05, 0xFF, 0xFF, 0xF0, 0x30, 0x00, 0x00] false
      (by decide)).elim fun r h => ⟨r, h.1, h.2.1.trans (by decide)⟩,
    (dissect_optommp_summary_same
      [0x00, 0x00, 0x04, 0x20, 0x00, 0x05, 0x30, 0x00, 0x00, 0x00, 0x00, 0x00] true
      (by decide)).elim fun r h => ⟨r, h.1, h.2.1.trans (by decide)⟩⟩

/-! ## Destination id and destination offset -/

/-- C17 (as stated): with bytes 0-1 = `00 01` (bit 15 clear, numeric id 1 in bits 0-14)
`dissect_optommp_dest_id` reports a destination_ID entry of value 0, not the numeric id. -/
theorem dest_id_numeric_id_not_reported :
    Option.map Dissection.fields (dissect_optommp_dest_id
        [0x00, 0x01, 0x04, 0x20, 0x00, 0x05, 0x30, 0x00, 0x00, 0x00, 0x00, 0x00] 0).trace =
        some [Entry.item .ett_optommp .hf_optommp_nodest_id 0 2 (.uint 0)] ∧
      get_uint_value
        [0x00, 0x01, 0x04, 0x20, 0x00, 0x05, 0x30, 0x00, 0x00, 0x00, 0x00, 0x00] 0 2 &&&
          0x7FFF = 1 := by
  decide

/-- C17 (amended): on every buffer of at least 12 bytes `dissect_optommp_dest_id` branches
on bit 15 of the big-endian value `d` of bytes 0-1. With the bit set it adds the
destination_ID container, a destination_ID of value `d` and a boot_ID of value `d & 0x7FFF`;
with the bit clear it adds one destination_ID entry of value 0. In both cases it reads bytes
0-1 and returns the cursor 2. -/
theorem dissect_optommp_dest_id_branches (tvb : Tvb) (s : Dissection) (h : 12 ≤ tvb.length) :
    (get_uint_value tvb 0 2 &&& 0x8000 = 0x8000 →
      dissect_optommp_dest_id tvb 0 s =
        .ok (2, { s with reads := s.reads ++ [0, 1], fields := s.fields ++
          [ Entry.subtree .ett_optommp 0 2 .ett_dest_id "destination_ID",
            Entry.item .ett_dest_id .hf_optommp_dest_id 0 2 (.uint (get_uint_value tvb 0 2)),
            Entry.item .ett_dest_id .hf_optommp_boot_id 0 2
              (.uint (get_uint_value tvb 0 2 &&& 0x7FFF)) ] })) ∧
    (get_uint_value tvb 0 2 &&& 0x8000 ≠ 0x8000 →
      dissect_optommp_dest_id tvb 0 s =
        .ok (2, { s with reads := s.reads ++ [0, 1], fields := s.fields ++
          [ Entry.item .ett_optommp .hf_optommp_nodest_id 0 2 (.uint 0) ] })) := by
  have hd := get_uint_value_two_lt tvb 0
  constructor
  · intro hb
    rw [dissect_optommp_dest_id_run tvb s (by omega)]
    simp [dest_id_entries, hb]
  · intro hb
    have hlt : get_uint_value tvb 0 2 < 0x8000 := by
      by_contra hc
      exact hb ((bit15_set_iff _ hd).2 (by omega))
    rw [dissect_optommp_dest_id_run tvb s (by omega)]
    simp [dest_id_entries, hb, bit15_clear _ hlt]

/-- Instances of the destination id theorem: bytes 0-1 = `80 01` and bytes 0-1 = `00 01`. -/
theorem dissect_optommp_dest_id_branches_witness :
    dissect_optommp_dest_id
        [0x80, 0x01, 0x04, 0x20, 0x00, 0x05, 0x30, 0x00, 0x00, 0x00, 0x00, 0x00] 0
        Dissection.init =
      .ok (2, ⟨[0, 1], "", "", none,
          [ Entry.subtree .ett_optommp 0 2 .ett_dest_id "destination_ID",
            Entry.item .ett_dest_id .hf_optommp_dest_id 0 2 (.uint 0x8001),
            Entry.item .ett_dest_id .hf_optommp_boot_id 0 2 (.uint 1) ]⟩) ∧
    dissect_optommp_dest_id
        [0x00, 0x01, 0x04, 0x20, 0x00, 0x05, 0x30, 0x00, 0x00, 0x00, 0x00, 0x00] 0
        Dissection.init =
      .ok (2, ⟨[0, 1], "", "", none,
          [ Entry.item .ett_optommp .hf_optommp_nodest_id 0 2 (.uint 0) ]⟩) :=
  ⟨(dissect_optommp_dest_id_branches
      [0x80, 0x01, 0x04, 0x20, 0x00, 0x05, 0x30, 0x00, 0x00, 0x00, 0x00, 0x00]
      Dissection.init (by decide)).1 (by decide),
    (dissect_optommp_dest_id_branches
      [0x00, 0x01, 0x04, 0x20, 0x00, 0x05, 0x30, 0x00, 0x00, 0x00, 0x00, 0x00]
      Dissection.init (by decide)).2 (by decide)⟩

theorem loop_entries_filter_hf (tvb : Tvb) (parent : Ett) (hfindex other : Hf) (width : Nat)
    (hne : hfindex ≠ other) :
    ∀ (count offset : Nat),
      (loop_entries tvb parent hfindex width count offset).filter (Entry.has_hf other) = [] := by
  intro count
  induction count with
  | zero => intro offset; simp [loop_entries]
  | succ n ih =>
    intro offset
    simp only [loop_entries, List.filter_append, ih, List.append_nil]
    split_ifs <;> simp [Entry.has_hf, hne]

theorem get_uint_value_six_low (tvb : Tvb) :
    get_uint_value tvb 6 6 % 4294967296 = get_uint_value tvb 8 4 := by
  have h8 := byte_at_lt tvb 8
  have h9 := byte_at_lt tvb 9
  have h10 := byte_at_lt tvb 10
  have h11 := byte_at_lt tvb 11
  simp only [get_uint_value, Nat.add_zero, Nat.zero_mul, Nat.zero_add, Nat.reduceAdd]
  omega

/-- C20: on every buffer of at least 12 bytes with tcode 0, 1, 4 or 5, `dissect_optommp` adds
exactly one destination_offset field; it covers bytes 8-11, its value is the big-endian value
of those four bytes (bytes 6-7 do not enter it), and that value is the low 32 bits of the
48-bit value of bytes 6-11 printed as `dest_off` in the summary. -/
theorem dissect_optommp_destination_offset_field (tvb : Tvb) (h : 12 ≤ tvb.length)
    (ht : byte_at tvb 3 >>> 4 = 0 ∨ byte_at tvb 3 >>> 4 = 1 ∨ byte_at tvb 3 >>> 4 = 4 ∨
      byte_at tvb 3 >>> 4 = 5) :
    ∃ r, (dissect_optommp tvb true).trace = some r ∧
      r.fields.filter (Entry.has_hf .hf_optommp_dest_offset) =
        [ Entry.item .ett_optommp .hf_optommp_dest_offset 8 4
            (.uint (((byte_at tvb 8 * 256 + byte_at tvb 9) * 256 + byte_at tvb 10) * 256 +
              byte_at tvb 11)) ] ∧
      ((byte_at tvb 8 * 256 + byte_at tvb 9) * 256 + byte_at tvb 10) * 256 + byte_at tvb 11 =
        get_uint_value tvb 6 6 % 4294967296 ∧
      r.col_info = " type: " ++ val_to_str (byte_at tvb 3 >>> 4) optommp_tcode_names ++
        ", dest_off: 0x" ++ hex_string 12 (get_uint_value tvb 6 6) := by
  have hq : (loop_entries tvb .ett_data_block_q .hf_optommp_data_block_quadlet 4
      (data_length_value tvb / 4) 16).filter (Entry.has_hf .hf_optommp_dest_offset) = [] :=
    loop_entries_filter_hf tvb _ _ _ 4 (by decide) _ _
  have hb : (loop_entries tvb .ett_data_block_b .hf_optommp_data_block_byte 1
      (data_length_value tvb) 16).filter (Entry.has_hf .hf_optommp_dest_offset) = [] :=
    loop_entries_filter_hf tvb _ _ _ 1 (by decide) _ _
  have hhdr : (header_entries tvb).filter (Entry.has_hf .hf_optommp_dest_offset) = [] := by
    unfold header_entries dest_id_entries
    split_ifs <;> simp [Entry.has_hf]
  refine ⟨final_state tvb Dissection.init, ?_, ?_, ?_, ?_⟩
  · unfold Dissect.trace
    rw [dissect_optommp_tree_result tvb _ h]
  · simp only [final_state, header_state, Dissection.init, List.nil_append, List.filter_append,
      hhdr]
    rcases ht with ht | ht | ht | ht <;> rw [ht] <;>
      simp only [variant_entries, data_block_entries, List.filter_append, hq, hb] <;>
      (try split_ifs) <;>
      simp [Entry.has_hf, source_ID_entry, dest_offset_entry, quadlet_data_entry,
        data_length_entry, get_uint_value_four]
  · rw [get_uint_value_six_low, get_uint_value_four]
  · simp only [final_state, header_state, summary_text]
    rw [if_pos ((has_destination_offset_iff _).2 ht)]

/-- Instance of the destination offset theorem: a Read Quadlet Request whose bytes 6-7 are
not `FF FF`. -/
theorem dissect_optommp_destination_offset_field_witness :
    ∃ r, (dissect_optommp
        [0x00, 0x00, 0x04, 0x40, 0x00, 0x05, 0x12, 0x34, 0xF0, 0x30, 0x00, 0x08] true).trace =
          some r ∧
      r.fields.filter (Entry.has_hf .hf_optommp_dest_offset) =
        [ Entry.item .ett_optommp .hf_optommp_dest_offset 8 4 (.uint 0xF0300008) ] ∧
      r.col_info = " type: Read Quadlet Request, dest_off: 0x1234f0300008" :=
  (dissect_optommp_destination_offset_field
    [0x00, 0x00, 0x04, 0x40, 0x00, 0x05, 0x12, 0x34, 0xF0, 0x30, 0x00, 0x08]
    (by decide) (by decide)).elim fun r h => ⟨r, h.1, h.2.1, h.2.2.2.trans (by decide)⟩

/-! ## Whole messages: the variant table and the data block -/

/-- When all `count` rounds lie inside the buffer, `loop_entries` has one entry per round. -/
theorem loop_entries_full (tvb : Tvb) (parent : Ett) (hfindex : Hf) (width : Nat) :
    ∀ (count offset : Nat), offset + width * count ≤ tvb.length →
      loop_entries tvb parent hfindex width count offset =
        (List.range count).map fun i =>
          Entry.item parent hfindex (offset + width * i) width
            (field_value hfindex tvb (offset + width * i) width) := by
  intro count
  induction count with
  | zero => intro offset _; simp [loop_entries]
  | succ n ih =>
    intro offset h
    have e : width * (n + 1) = width * n + width := by ring
    have h1 : offset + width ≤ tvb.length := by omega
    have h2 : offset + width + width * n ≤ tvb.length := by omega
    rw [loop_entries, if_pos h1, ih (offset + width) h2, List.range_succ_eq_map]
    simp only [List.map_cons, List.map_map, Nat.mul_zero, Nat.add_zero, List.singleton_append,
      List.cons.injEq, true_and]
    apply List.map_congr_left
    intro i _
    have e2 : offset + width + width * i = offset + width * (i + 1) := by ring
    simp [e2]

/-- On a buffer that holds the whole block, the entries of `dissect_optommp_data_block` are
the two views of the specification. -/
theorem data_block_entries_full (tvb : Tvb) (offset data_length : Nat)
    (h : offset + data_length ≤ tvb.length) :
    data_block_entries tvb offset data_length = data_block_views tvb offset data_length := by
  have h4 : offset + 4 * (data_length / 4) ≤ tvb.length := by omega
  have h1 : offset + 1 * data_length ≤ tvb.length := by omega
  unfold data_block_entries data_block_views word_view byte_view
  rw [loop_entries_full tvb _ _ 4 _ _ h4, loop_entries_full tvb _ _ 1 _ _ h1]
  simp [field_value, hf]

/-- On a buffer holding the whole message, the entries of the `switch` are those of the
table. -/
theorem variant_entries_full (tvb : Tvb) (tcode : Nat) (h16 : 16 ≤ tvb.length)
    (hblock : tcode = 1 ∨ tcode = 7 → 16 + get_uint_value tvb 12 2 ≤ tvb.length) :
    variant_entries tvb tcode = table_entries tvb tcode := by
  have h14 : 14 ≤ tvb.length := by omega
  have hdv : data_length_value tvb = get_uint_value tvb 12 2 := by
    simp [data_length_value, h14]
  unfold variant_entries table_entries
  split
  · simp [h16]
  · rw [hdv, data_block_entries_full tvb 16 _ (hblock (Or.inl rfl))]
    simp [h14]
  · rfl
  · rfl
  · simp [h14]
  · simp [h16]
  · rw [hdv, data_block_entries_full tvb 16 _ (hblock (Or.inr rfl))]
    simp [h14]
  · rfl

theorem top_labels_data_block_views (tvb : Tvb) (offset data_length : Nat) :
    top_labels (data_block_views tvb offset data_length) =
      ["data_block (as quadlets)", "data_block (as bytes)"] := by
  have hw : (word_view tvb offset data_length).filter
      (fun e => decide (e.parent = .ett_optommp)) = [] := by
    simp [word_view, List.filter_eq_nil_iff, Entry.parent]
  have hb : (byte_view tvb offset data_length).filter
      (fun e => decide (e.parent = .ett_optommp)) = [] := by
    simp [byte_view, List.filter_eq_nil_iff, Entry.parent]
  simp only [top_labels, data_block_views, List.filter_append, hw, hb]
  simp [Entry.parent, Entry.label]

theorem top_labels_table_entries (tvb : Tvb) (tcode : Nat) :
    top_labels (table_entries tvb tcode) = variant_names tcode := by
  have hsplit : ∀ a b : List Entry, top_labels (a ++ b) = top_labels a ++ top_labels b := by
    intro a b
    simp [top_labels]
  unfold table_entries variant_names
  split <;>
    (try simp only [hsplit, top_labels_data_block_views]) <;>
    simp [top_labels, source_ID_entry, dest_offset_entry, quadlet_data_entry, rcode_entry,
      data_length_entry, Entry.parent, Entry.label, hf]

/-- C13: on every buffer that holds the whole message (at least 16 bytes, and at least
16 + data_length bytes for tcode 1 and 7), the entries `dissect_optommp` adds after the header
are those of the table for the tcode, in the order of the table; their names beneath the
protocol subtree are the names the table lists for that tcode, whatever the bytes are. -/
theorem dissect_optommp_variant_table (tvb : Tvb) (h16 : 16 ≤ tvb.length)
    (ht : byte_at tvb 3 >>> 4 ∈ [0, 1, 2, 4, 5, 6, 7])
    (hblock : byte_at tvb 3 >>> 4 = 1 ∨ byte_at tvb 3 >>> 4 = 7 →
      16 + get_uint_value tvb 12 2 ≤ tvb.length) :
    ∃ r, (dissect_optommp tvb true).trace = some r ∧
      r.fields = header_entries tvb ++ table_entries tvb (byte_at tvb 3 >>> 4) ∧
      top_labels (table_entries tvb (byte_at tvb 3 >>> 4)) =
        variant_names (byte_at tvb 3 >>> 4) ∧
      variant_names (byte_at tvb 3 >>> 4) ≠ [] := by
  refine ⟨final_state tvb Dissection.init, ?_, ?_, top_labels_table_entries tvb _, ?_⟩
  · unfold Dissect.trace
    rw [dissect_optommp_tree_result tvb _ (by omega)]
  · simp [final_state, header_state, Dissection.init,
      variant_entries_full tvb _ h16 hblock]
  · simp only [List.mem_cons, List.mem_singleton, List.not_mem_nil, or_false] at ht
    rcases ht with h | h | h | h | h | h | h <;> rw [h] <;> simp [variant_names]

/-- Instance of the table theorem: a Read Block Response carrying six bytes. -/
theorem dissect_optommp_variant_table_witness :
    ∃ r, (dissect_optommp
        [0x00, 0x00, 0x04, 0x70, 0x00, 0x05, 0x00, 0x00, 0x00, 0x00, 0x00, 0x00,
          0x00, 0x06, 0x00, 0x00, 0x01, 0x02, 0x03, 0x04, 0x05, 0x06] true).trace = some r ∧
      top_labels (r.fields.drop 3) =
        ["source_ID", "rcode", "data_length", "data_block (as quadlets)",
          "data_block (as bytes)"] :=
  (dissect_optommp_variant_table
    [0x00, 0x00, 0x04, 0x70, 0x00, 0x05, 0x00, 0x00, 0x00, 0x00, 0x00, 0x00,
      0x00, 0x06, 0x00, 0x00, 0x01, 0x02, 0x03, 0x04, 0x05, 0x06]
    (by decide) (by decide) (by decide)).elim fun r h =>
      ⟨r, h.1, by rw [h.2.1]; decide⟩

/-- C16: for a block message (tcode 1 or 7) whose buffer holds the whole block,
`dissect_optommp_data_block`, called as the decoder calls it (cursor 16, the data_length of
bytes 12-13), adds the word-view container, `data_length / 4` words, the byte-view container
and `data_length` bytes, and these entries end the decoder's list; for data_length 6 the word
view is the one word over bytes 16-19, so block bytes 4 and 5 are in no word, and the byte
view has 6 bytes. -/
theorem dissect_optommp_data_block_counts (tvb : Tvb) (s : Dissection)
    (ht : byte_at tvb 3 >>> 4 = 1 ∨ byte_at tvb 3 >>> 4 = 7)
    (hfull : 16 + get_uint_value tvb 12 2 ≤ tvb.length) :
    dissect_optommp_data_block tvb 16 (get_uint_value tvb 12 2) s =
        .ok ((), { s with fields := s.fields ++
          ([Entry.subtree .ett_optommp 16 (get_uint_value tvb 12 2) .ett_data_block_q
              "data_block (as quadlets)"] ++
            word_view tvb 16 (get_uint_value tvb 12 2) ++
            [Entry.subtree .ett_optommp 16 (get_uint_value tvb 12 2) .ett_data_block_b
              "data_block (as bytes)"] ++
            byte_view tvb 16 (get_uint_value tvb 12 2)) }) ∧
      (word_view tvb 16 (get_uint_value tvb 12 2)).length = get_uint_value tvb 12 2 / 4 ∧
      (byte_view tvb 16 (get_uint_value tvb 12 2)).length = get_uint_value tvb 12 2 ∧
      (∃ r before, (dissect_optommp tvb true).trace = some r ∧
        r.fields = before ++ data_block_views tvb 16 (get_uint_value tvb 12 2)) ∧
      (get_uint_value tvb 12 2 = 6 →
        word_view tvb 16 (get_uint_value tvb 12 2) =
          [Entry.item .ett_data_block_q .hf_optommp_data_block_quadlet 16 4
            (.bytes ((tvb.drop 16).take 4))] ∧
        (∀ e ∈ word_view tvb 16 (get_uint_value tvb 12 2),
          e.covers 20 = false ∧ e.covers 21 = false) ∧
        (byte_view tvb 16 (get_uint_value tvb 12 2)).length = 6) := by
  have hlt := get_uint_value_two_lt tvb 12
  refine ⟨?_, by simp [word_view], by simp [byte_view], ?_, ?_⟩
  · rw [dissect_optommp_data_block_run tvb 16 _ s (by omega) hlt,
      data_block_entries_full tvb 16 _ hfull]
    rfl
  · refine ⟨final_state tvb Dissection.init, ?_, ?_, ?_⟩
    · exact header_entries tvb ++
        (if byte_at tvb 3 >>> 4 = 1 then [source_ID_entry tvb, dest_offset_entry tvb]
          else [source_ID_entry tvb, rcode_entry tvb]) ++ [data_length_entry tvb]
    · unfold Dissect.trace
      rw [dissect_optommp_tree_result tvb _ (by omega)]
    · have hv := variant_entries_full tvb (byte_at tvb 3 >>> 4) (by omega) (fun _ => hfull)
      simp only [final_state, header_state, Dissection.init, List.nil_append, hv]
      rcases ht with h | h <;> rw [h] <;> simp [table_entries]
  · intro h6
    rw [h6]
    refine ⟨by simp [word_view, List.range_succ], ?_, by simp [byte_view]⟩
    intro e he
    simp [word_view, List.range_succ] at he
    simp [he, Entry.covers, Entry.start, Entry.length]

/-- Instance of the data block theorem: a Read Block Response carrying six bytes. -/
theorem dissect_optommp_data_block_counts_witness :
    (word_view
        [0x00, 0x00, 0x04, 0x70, 0x00, 0x05, 0x00, 0x00, 0x00, 0x00, 0x00, 0x00,
          0x00, 0x06, 0x00, 0x00, 0x01, 0x02, 0x03, 0x04, 0x05, 0x06] 16 6).length = 6 / 4 ∧
      (byte_view
        [0x00, 0x00, 0x04, 0x70, 0x00, 0x05, 0x00, 0x00, 0x00, 0x00, 0x00, 0x00,
          0x00, 0x06, 0x00, 0x00, 0x01, 0x02, 0x03, 0x04, 0x05, 0x06] 16 6).length = 6 ∧
      word_view
        [0x00, 0x00, 0x04, 0x70, 0x00, 0x05, 0x00, 0x00, 0x00, 0x00, 0x00, 0x00,
          0x00, 0x06, 0x00, 0x00, 0x01, 0x02, 0x03, 0x04, 0x05, 0x06] 16 6 =
        [Entry.item .ett_data_block_q .hf_optommp_data_block_quadlet 16 4
          (.bytes [0x01, 0x02, 0x03, 0x04])] :=
  ⟨(dissect_optommp_data_block_counts
      [0x00, 0x00, 0x04, 0x70, 0x00, 0x05, 0x00, 0x00, 0x00, 0x00, 0x00, 0x00,
        0x00, 0x06, 0x00, 0x00, 0x01, 0x02, 0x03, 0x04, 0x05, 0x06] Dissection.init
      (by decide) (by decide)).2.1,
    (dissect_optommp_data_block_counts
      [0x00, 0x00, 0x04, 0x70, 0x00, 0x05, 0x00, 0x00, 0x00, 0x00, 0x00, 0x00,
        0x00, 0x06, 0x00, 0x00, 0x01, 0x02, 0x03, 0x04, 0x05, 0x06] Dissection.init
      (by decide) (by decide)).2.2.1,
    ((dissect_optommp_data_block_counts
      [0x00, 0x00, 0x04, 0x70, 0x00, 0x05, 0x00, 0x00, 0x00, 0x00, 0x00, 0x00,
        0x00, 0x06, 0x00, 0x00, 0x01, 0x02, 0x03, 0x04, 0x05, 0x06] Dissection.init
      (by decide) (by decide)).2.2.2.2 (by decide)).1⟩

/-! ## All buffers: no fault, and truncation -/

/-- On every buffer `dissect_optommp` returns the buffer length; the entries it has added
are `emitted_entries` and the bytes it has fetched are `performed_reads`. -/
theorem dissect_optommp_total (tvb : Tvb) (tree : Bool) :
    ∃ r, dissect_optommp tvb tree Dissection.init = .ok (tvb.length, r) ∧
      r.fields = emitted_entries tvb tree ∧ r.reads = performed_reads tvb tree := by
  by_cases h : 12 ≤ tvb.length
  · cases tree
    · rw [dissect_optommp_no_tree_result tvb _ h]
      exact ⟨_, rfl, by simp [emitted_entries, Dissection.init],
        by simp [performed_reads, h, Dissection.init]⟩
    · rw [dissect_optommp_tree_result tvb _ h]
      exact ⟨_, rfl, by simp [emitted_entries, h, final_state, header_state, Dissection.init],
        by simp [performed_reads, h, final_state, header_state, Dissection.init]⟩
  · rw [dissect_optommp_short_result tvb tree _ (by omega)]
    exact ⟨_, rfl, by simp [emitted_entries, h, Dissection.init],
      by simp [performed_reads, h, Dissection.init]⟩

/-- On every buffer `test_optommp` returns, and the bytes it has fetched lie inside the
buffer. -/
theorem test_optommp_total (tvb : Tvb) :
    ∃ b s, test_optommp tvb Dissection.init = .ok (b, s) ∧ ∀ i ∈ s.reads, i < tvb.length := by
  by_cases hc : tvb.length < 4
  · refine ⟨false, Dissection.init, ?_, by simp [Dissection.init]⟩
    simp [test_optommp, tvb_captured_length, hc]
  · have h2 : 0 + 2 ≤ tvb.length := by omega
    have h3 : 2 + 1 ≤ tvb.length := by omega
    have h4 : 3 + 1 ≤ tvb.length := by omega
    have hcap : ¬ tvb_captured_length tvb < 4 := by simpa [tvb_captured_length] using hc
    unfold test_optommp
    rw [if_neg hcap]
    simp only [dissect_bind_apply, tvb_get_ntohs, tvb_get_guint8, tvb_get_bytes_ok _ _ _ _ h2]
    by_cases hd : get_uint_value tvb 0 2 = 0
    · simp only [hd, ne_eq, not_true_eq_false, if_false, dissect_bind_apply,
        tvb_get_bytes_ok _ _ _ _ h3, get_uint_value_one]
      by_cases hb : byte_at tvb 2 &&& 0x3 = 0
      · simp only [hb, not_true_eq_false, if_false, dissect_bind_apply,
          tvb_get_bytes_ok _ _ _ _ h4, get_uint_value_one]
        split_ifs <;>
          exact ⟨_, _, rfl, by
            intro i hi
            simp [Dissection.init, List.range'] at hi
            omega⟩
      · simp only [hb, not_false_eq_true, if_true]
        exact ⟨_, _, rfl, by
          intro i hi
          simp [Dissection.init, List.range'] at hi
          omega⟩
    · simp only [hd, ne_eq, not_false_eq_true, if_true]
      exact ⟨_, _, rfl, by
        intro i hi
        simp [Dissection.init, List.range'] at hi
        omega⟩

theorem loop_entries_inside (tvb : Tvb) (parent : Ett) (hfindex : Hf) (width : Nat) :
    ∀ (count offset : Nat) (e : Entry),
      e ∈ loop_entries tvb parent hfindex width count offset →
        e.is_field = true ∧ e.start + e.length ≤ tvb.length := by
  intro count
  induction count with
  | zero => intro offset e he; simp [loop_entries] at he
  | succ n ih =>
    intro offset e he
    simp only [loop_entries, List.mem_append] at he
    rcases he with he | he
    · split_ifs at he with hc
      · simp at he
        simp [he, Entry.start, Entry.length, Entry.is_field, hc]
      · simp at he
    · exact ih (offset + width) e he

theorem header_entries_inside (tvb : Tvb) (e : Entry) (he : e ∈ header_entries tvb) :
    e.start + e.length ≤ 4 := by
  unfold header_entries dest_id_entries at he
  split_ifs at he
  · simp at he
    rcases he with h | h | h | h | h <;> simp [h, Entry.start, Entry.length]
  · simp at he
    rcases he with h | h | h <;> simp [h, Entry.start, Entry.length]

theorem variant_entries_inside (tvb : Tvb) (h12 : 12 ≤ tvb.length) (tcode : Nat) (e : Entry)
    (he : e ∈ variant_entries tvb tcode) (hf : e.is_field = true) :
    e.start + e.length ≤ tvb.length := by
  have hloop : ∀ (parent : Ett) (hfindex : Hf) (width count : Nat),
      e ∈ loop_entries tvb parent hfindex width count 16 →
        e.start + e.length ≤ tvb.length := by
    intro parent hfindex width count h
    exact (loop_entries_inside tvb parent hfindex width count 16 e h).2
  unfold variant_entries at he
  split at he <;>
    simp only [List.mem_append, List.mem_cons, List.mem_singleton, List.not_mem_nil, or_false,
      data_block_entries, List.mem_ite_nil_right] at he
  · rcases he with (h | h) | ⟨_, h⟩ <;>
      simp [h, source_ID_entry, dest_offset_entry, quadlet_data_entry, Entry.start,
        Entry.length] <;> omega
  · rcases he with ((h | h) | ⟨_, h⟩) | (((h | h) | h) | h)
    all_goals first
      | exact hloop _ _ _ _ h
      | (simp [h, source_ID_entry, dest_offset_entry, data_length_entry, Entry.start,
          Entry.length]; omega)
      | simp [h, Entry.is_field] at hf
  · rcases he with h | h <;>
      simp [h, source_ID_entry, rcode_entry, Entry.start, Entry.length] <;> omega
  · rcases he with h | h <;>
      simp [h, source_ID_entry, dest_offset_entry, Entry.start, Entry.length] <;> omega
  · rcases he with (h | h) | ⟨_, h⟩ <;>
      simp [h, source_ID_entry, dest_offset_entry, data_length_entry, Entry.start,
        Entry.length] <;> omega
  · rcases he with (h | h) | ⟨_, h⟩ <;>
      simp [h, source_ID_entry, rcode_entry, quadlet_data_entry, Entry.start,
        Entry.length] <;> omega
  · rcases he with ((h | h) | ⟨_, h⟩) | (((h | h) | h) | h)
    all_goals first
      | exact hloop _ _ _ _ h
      | (simp [h, source_ID_entry, rcode_entry, data_length_entry, Entry.start,
          Entry.length]; omega)
      | simp [h, Entry.is_field] at hf

theorem performed_reads_inside (tvb : Tvb) (tree : Bool) (i : Nat)
    (hi : i ∈ performed_reads tvb tree) : i < tvb.length := by
  unfold performed_reads dest_off_reads variant_reads at hi
  split_ifs at hi <;> simp at hi <;> omega

/-- C18: on every buffer, of any length, `test_optommp` and `dissect_optommp` return (no
exception); every byte they fetch lies inside the buffer, and every registered field
`dissect_optommp` adds (header field, variant field, data-block word or byte) ends at or
before the buffer length. -/
theorem core_never_faults (tvb : Tvb) (tree : Bool) :
    (∃ b s, test_optommp tvb Dissection.init = .ok (b, s) ∧
      ∀ i ∈ s.reads, i < tvb.length) ∧
    (∃ r, dissect_optommp tvb tree Dissection.init = .ok (tvb.length, r) ∧
      (∀ i ∈ r.reads, i < tvb.length) ∧
      (∀ e ∈ r.fields, e.is_field = true → e.start + e.length ≤ tvb.length)) := by
  refine ⟨test_optommp_total tvb, ?_⟩
  obtain ⟨r, hr, hfields, hreads⟩ := dissect_optommp_total tvb tree
  refine ⟨r, hr, ?_, ?_⟩
  · intro i hi
    rw [hreads] at hi
    exact performed_reads_inside tvb tree i hi
  · intro e he hfld
    rw [hfields] at he
    unfold emitted_entries at he
    split_ifs at he with hc
    · rcases List.mem_append.1 he with h | h
      · have := header_entries_inside tvb e h
        omega
      · exact variant_entries_inside tvb hc.1 _ e h hfld
    · simp at he

theorem field_value_append (p ext : Tvb) (hfindex : Hf) (offset width : Nat)
    (h : offset + width ≤ p.length) :
    field_value hfindex (p ++ ext) offset width = field_value hfindex p offset width := by
  have hb : ((p ++ ext).drop offset).take width = (p.drop offset).take width := by
    rw [List.drop_append_of_le_length (by omega),
      List.take_append_of_le_length (by rw [List.length_drop]; omega)]
  unfold field_value
  rw [get_uint_value_append p ext offset width h, hb]

theorem loop_entries_append_sublist (p ext : Tvb) (parent : Ett) (hfindex : Hf) (width : Nat) :
    ∀ (count offset : Nat),
      List.Sublist (loop_entries p parent hfindex width count offset)
        (loop_entries (p ++ ext) parent hfindex width count offset) := by
  intro count
  induction count with
  | zero => intro offset; simp [loop_entries]
  | succ n ih =>
    intro offset
    simp only [loop_entries]
    apply List.Sublist.append _ (ih (offset + width))
    by_cases hc : offset + width ≤ p.length
    · have hc2 : offset + width ≤ (p ++ ext).length := by
        rw [List.length_append]; omega
      rw [if_pos hc, if_pos hc2, field_value_append p ext hfindex offset width hc]
    · rw [if_neg hc]
      exact List.nil_sublist _

theorem loop_entries_field_items (tvb : Tvb) (parent : Ett) (hfindex : Hf) (width : Nat)
    (count offset : Nat) :
    field_items (loop_entries tvb parent hfindex width count offset) =
      loop_entries tvb parent hfindex width count offset := by
  unfold field_items
  rw [List.filter_eq_self]
  intro e he
  exact (loop_entries_inside tvb parent hfindex width count offset e he).1

theorem field_items_append (a b : List Entry) :
    field_items (a ++ b) = field_items a ++ field_items b := by
  simp [field_items]

theorem field_items_data_block (tvb : Tvb) (offset data_length : Nat) :
    field_items (data_block_entries tvb offset data_length) =
      loop_entries tvb .ett_data_block_q .hf_optommp_data_block_quadlet 4 (data_length / 4)
          offset ++
        loop_entries tvb .ett_data_block_b .hf_optommp_data_block_byte 1 data_length offset := by
  unfold data_block_entries
  simp only [field_items_append, loop_entries_field_items]
  simp [field_items, Entry.is_field]

theorem header_entries_append (p ext : Tvb) (h : 12 ≤ p.length) :
    header_entries (p ++ ext) = header_entries p := by
  unfold header_entries dest_id_entries
  rw [get_uint_value_append p ext 0 2 (by omega), byte_at_append p ext 2 (by omega),
    byte_at_append p ext 3 (by omega)]

theorem optional_entry_sublist (c d : Prop) [Decidable c] [Decidable d] (x y : Entry)
    (hcd : c → d) (hxy : c → x = y) :
    List.Sublist (field_items (if c then [x] else [])) (field_items (if d then [y] else [])) := by
  by_cases hc : c
  · rw [if_pos hc, if_pos (hcd hc), hxy hc]
  · rw [if_neg hc]
    exact List.nil_sublist _

/-- The registered fields of the variant body on a buffer of at least 12 bytes are a
sublist of those on any extension of the buffer. -/
theorem variant_entries_append_sublist (p ext : Tvb) (h : 12 ≤ p.length) (tcode : Nat) :
    List.Sublist (field_items (variant_entries p tcode))
      (field_items (variant_entries (p ++ ext) tcode)) := by
  have hlen : p.length ≤ (p ++ ext).length := by rw [List.length_append]; omega
  have es : source_ID_entry (p ++ ext) = source_ID_entry p := by
    unfold source_ID_entry; rw [get_uint_value_append p ext 4 2 (by omega)]
  have er : rcode_entry (p ++ ext) = rcode_entry p := by
    unfold rcode_entry; rw [byte_at_append p ext 6 (by omega)]
  have eo : dest_offset_entry (p ++ ext) = dest_offset_entry p := by
    unfold dest_offset_entry; rw [get_uint_value_append p ext 8 4 (by omega)]
  have hq := optional_entry_sublist (16 ≤ p.length) (16 ≤ (p ++ ext).length)
    (quadlet_data_entry p) (quadlet_data_entry (p ++ ext)) (fun hc => by omega)
    (fun hc => by unfold quadlet_data_entry; rw [get_uint_value_append p ext 12 4 (by omega)])
  have hl := optional_entry_sublist (14 ≤ p.length) (14 ≤ (p ++ ext).length)
    (data_length_entry p) (data_length_entry (p ++ ext)) (fun hc => by omega)
    (fun hc => by unfold data_length_entry; rw [get_uint_value_append p ext 12 2 (by omega)])
  have hblock : List.Sublist (field_items (data_block_entries p 16 (data_length_value p)))
      (field_items (data_block_entries (p ++ ext) 16 (data_length_value (p ++ ext)))) := by
    rw [field_items_data_block, field_items_data_block]
    by_cases h14 : 14 ≤ p.length
    · have hd : data_length_value (p ++ ext) = data_length_value p := by
        unfold data_length_value
        rw [if_pos h14, if_pos (by omega), get_uint_value_append p ext 12 2 (by omega)]
      rw [hd]
      exact List.Sublist.append (loop_entries_append_sublist p ext _ _ 4 _ 16)
        (loop_entries_append_sublist p ext _ _ 1 _ 16)
    · have hd : data_length_value p = 0 := by
        unfold data_length_value
        rw [if_neg h14]
      rw [hd]
      simp [loop_entries]
  unfold variant_entries
  split
  · rw [es, eo, field_items_append, field_items_append]
    exact List.Sublist.append (List.Sublist.refl _) hq
  · rw [es, eo, field_items_append, field_items_append, field_items_append, field_items_append]
    exact List.Sublist.append (List.Sublist.append (List.Sublist.refl _) hl) hblock
  · rw [es, er]
  · rw [es, eo]
  · rw [es, eo, field_items_append, field_items_append]
    exact List.Sublist.append (List.Sublist.refl _) hl
  · rw [es, er, field_items_append, field_items_append]
    exact List.Sublist.append (List.Sublist.refl _) hq
  · rw [es, er, field_items_append, field_items_append, field_items_append, field_items_append]
    exact List.Sublist.append (List.Sublist.append (List.Sublist.refl _) hl) hblock
  · exact List.Sublist.refl _

/-- C19: truncation only removes fields. For every buffer `p ++ ext` and its leading part
`p`, `dissect_optommp` returns on both, and the registered fields it adds for `p` are, with
the same name, byte range and value and in the same order, a sublist of the registered
fields it adds for `p ++ ext`. -/
theorem truncation_only_removes_fields (p ext : Tvb) (tree : Bool) :
    ∃ rp rb, (dissect_optommp p tree).trace = some rp ∧
      (dissect_optommp (p ++ ext) tree).trace = some rb ∧
      List.Sublist (field_items rp.fields) (field_items rb.fields) := by
  obtain ⟨rp, hp, hpf, _⟩ := dissect_optommp_total p tree
  obtain ⟨rb, hb, hbf, _⟩ := dissect_optommp_total (p ++ ext) tree
  refine ⟨rp, rb, by simp [Dissect.trace, hp], by simp [Dissect.trace, hb], ?_⟩
  rw [hpf, hbf]
  unfold emitted_entries
  by_cases hc : 12 ≤ p.length ∧ tree = true
  · have hc2 : 12 ≤ (p ++ ext).length ∧ tree = true := by
      refine ⟨?_, hc.2⟩
      rw [List.length_append]; omega
    rw [if_pos hc, if_pos hc2, header_entries_append p ext hc.1,
      byte_at_append p ext 3 (by omega), field_items_append, field_items_append]
    exact List.Sublist.append (List.Sublist.refl _)
      (variant_entries_append_sublist p ext hc.1 _)
  · rw [if_neg hc]
    exact List.nil_sublist _

/-! ## The field primitives on their own -/

/-- C21 (as stated): with the cursor at `0xFFFFFFFF` and a two-byte buffer the buffer does
not hold `[offset, offset + 2)`, yet `dissect_optommp_source_ID` does not skip the field and
advance: the `guint` sum `offset + 2` wraps to 1, the length test passes and the field read
raises the bounds exception. -/
theorem source_ID_guard_wraps_at_guint_max :
    ¬ (tvb_reported_length [0x12, 0x34] ≥ 4294967295 + 2) ∧
      guint_add 4294967295 2 = 1 ∧
      dissect_optommp_source_ID [0x12, 0x34] 4294967295 Dissection.init =
        .error .ReportedBoundsError := by
  decide

/-- C21 (amended): for every buffer and every cursor offset whose end `offset + width` fits
the 32-bit cursor, `dissect_optommp_source_ID` (width 2), `dissect_optommp_quadlet_data`
(width 4), `dissect_optommp_rcode` (width 1) and `dissect_optommp_data_length` (width 2) add
their field over `[offset, offset + width)` exactly when the buffer length is at least
`offset + width`, and return the cursor `offset + width` in both cases. -/
theorem fixed_width_primitives_guarded (tvb : Tvb) (offset : Nat) (s : Dissection) :
    (offset + 2 < 4294967296 →
      dissect_optommp_source_ID tvb offset s =
        .ok (offset + 2, { s with fields := s.fields ++
          if offset + 2 ≤ tvb.length then
            [Entry.item .ett_optommp .hf_optommp_source_ID offset 2
              (.uint (get_uint_value tvb offset 2))]
          else [] })) ∧
    (offset + 4 < 4294967296 →
      dissect_optommp_quadlet_data tvb offset s =
        .ok (offset + 4, { s with fields := s.fields ++
          if offset + 4 ≤ tvb.length then
            [Entry.item .ett_optommp .hf_optommp_quadlet_data offset 4
              (.uint (get_uint_value tvb offset 4))]
          else [] })) ∧
    (offset + 1 < 4294967296 →
      dissect_optommp_rcode tvb offset s =
        .ok (offset + 1, { s with fields := s.fields ++
          if offset + 1 ≤ tvb.length then
            [Entry.item .ett_optommp .hf_optommp_rcode offset 1
              (.uint (byte_at tvb offset >>> 4))]
          else [] })) ∧
    (offset + 2 < 4294967296 →
      ∃ data_length s1, dissect_optommp_data_length tvb offset s =
          .ok ((data_length, offset + 2), s1) ∧
        s1.fields = s.fields ++
          if offset + 2 ≤ tvb.length then
            [Entry.item .ett_optommp .hf_optommp_data_length offset 2
              (.uint (get_uint_value tvb offset 2))]
          else []) :=
  ⟨dissect_optommp_source_ID_run tvb offset s,
    dissect_optommp_quadlet_data_run tvb offset s,
    dissect_optommp_rcode_run tvb offset s,
    fun ho => ⟨_, _, dissect_optommp_data_length_run tvb offset s ho, rfl⟩⟩

/-- Instances of the primitive theorem on a six-byte buffer: source_ID at cursor 4 is
added, quadlet_data at cursor 4 is skipped, and both cursors advance. -/
theorem fixed_width_primitives_guarded_witness :
    dissect_optommp_source_ID [0x00, 0x00, 0x04, 0x00, 0x12, 0x34] 4 Dissection.init =
        .ok (6, ⟨[], "", "", none,
          [Entry.item .ett_optommp .hf_optommp_source_ID 4 2 (.uint 0x1234)]⟩) ∧
      dissect_optommp_quadlet_data [0x00, 0x00, 0x04, 0x00, 0x12, 0x34] 4 Dissection.init =
        .ok (8, ⟨[], "", "", none, []⟩) :=
  ⟨(fixed_width_primitives_guarded [0x00, 0x00, 0x04, 0x00, 0x12, 0x34] 4
      Dissection.init).1 (by decide),
    (fixed_width_primitives_guarded [0x00, 0x00, 0x04, 0x00, 0x12, 0x34] 4
      Dissection.init).2.1 (by decide)⟩

/-- C23 (as stated): with the cursor at `0xFFFFFFFF` and a one-byte buffer the buffer does
not hold bytes `o` and `o + 1`, yet `dissect_optommp_data_length` does not return 0: the
`guint` sum `o + 2` wraps to 1, the length test passes and the read raises the bounds
exception. -/
theorem data_length_guard_wraps_at_guint_max :
    ¬ (tvb_reported_length [0x12] ≥ 4294967295 + 2) ∧
      dissect_optommp_data_length [0x12] 4294967295 Dissection.init =
        .error .ReportedBoundsError := by
  decide

/-- C23 (amended): for every buffer and cursor offset `o` with `o + 2` inside the 32-bit
cursor range, `dissect_optommp_data_length` returns the big-endian value of bytes `o` and
`o + 1` when the buffer length is at least `o + 2` and 0 otherwise; and a block message
(tcode 1 or 7) of 12 or 13 bytes is decoded with data_length 0: past the header the decoder
adds two fields, the two data-block containers of length 0 at byte 16, no word and no byte. -/
theorem data_length_zero_when_short (tvb : Tvb) (offset : Nat) (s : Dissection) :
    (offset + 2 < 4294967296 →
      ∃ s1, dissect_optommp_data_length tvb offset s =
        .ok ((if offset + 2 ≤ tvb.length then
            byte_at tvb offset * 256 + byte_at tvb (offset + 1) else 0, offset + 2), s1)) ∧
    (12 ≤ tvb.length → tvb.length < 14 →
      byte_at tvb 3 >>> 4 = 1 ∨ byte_at tvb 3 >>> 4 = 7 →
      data_length_value tvb = 0 ∧
      ∃ r first second, (dissect_optommp tvb true).trace = some r ∧
        r.fields = header_entries tvb ++
          [ first, second,
            Entry.subtree .ett_optommp 16 0 .ett_data_block_q "data_block (as quadlets)",
            Entry.subtree .ett_optommp 16 0 .ett_data_block_b "data_block (as bytes)" ] ∧
        first.is_field = true ∧ second.is_field = true) := by
  constructor
  · intro ho
    rw [dissect_optommp_data_length_run tvb offset s ho, get_uint_value_two]
    exact ⟨_, rfl⟩
  · intro h12 h14 ht
    have hn : ¬ 14 ≤ tvb.length := by omega
    have hz : data_length_value tvb = 0 := by simp [data_length_value, hn]
    refine ⟨hz, final_state tvb Dissection.init, ?_⟩
    have htr : (dissect_optommp tvb true).trace = some (final_state tvb Dissection.init) := by
      unfold Dissect.trace
      rw [dissect_optommp_tree_result tvb _ h12]
    rcases ht with ht | ht
    · refine ⟨source_ID_entry tvb, dest_offset_entry tvb, htr, ?_, rfl, rfl⟩
      simp [final_state, header_state, Dissection.init, ht, variant_entries, hn, hz,
        data_block_entries, loop_entries]
    · refine ⟨source_ID_entry tvb, rcode_entry tvb, htr, ?_, rfl, rfl⟩
      simp [final_state, header_state, Dissection.init, ht, variant_entries, hn, hz,
        data_block_entries, loop_entries]

/-- Instances of the data_length theorem: cursor 12 on a 13-byte buffer returns 0, and a
13-byte Write Block Request has data_length 0. -/
theorem data_length_zero_when_short_witness :
    (∃ s1, dissect_optommp_data_length
        [0x00, 0x00, 0x04, 0x10, 0x00, 0x05, 0xFF, 0xFF, 0xF0, 0x30, 0x00, 0x00, 0x01] 12
        Dissection.init = .ok ((0, 14), s1)) ∧
      data_length_value
        [0x00, 0x00, 0x04, 0x10, 0x00, 0x05, 0xFF, 0xFF, 0xF0, 0x30, 0x00, 0x00, 0x01] = 0 :=
  ⟨(data_length_zero_when_short
      [0x00, 0x00, 0x04, 0x10, 0x00, 0x05, 0xFF, 0xFF, 0xF0, 0x30, 0x00, 0x00, 0x01] 12
      Dissection.init).1 (by decide),
    ((data_length_zero_when_short
      [0x00, 0x00, 0x04, 0x10, 0x00, 0x05, 0xFF, 0xFF, 0xF0, 0x30, 0x00, 0x00, 0x01] 12
      Dissection.init).2 (by decide) (by decide) (by decide)).1⟩

/-! ## The data block -/

/-- C24: `dissect_optommp_data_block` changes nothing but the entry list and hands no
cursor back; its two loops walk local cursors that start at the shared cursor `offset` and
end at `offset + 4 * (data_length / 4)` and `offset + data_length`; the two callers continue
with the cursor they passed in, so after a Write Block Request or Read Block Response the
cursor is 16 whatever the data_length is. -/
theorem data_block_keeps_shared_cursor (tvb : Tvb) (offset data_length : Nat) (s : Dissection)
    (ho : offset + data_length < 4294967296) (hd : data_length < 65536) :
    dissect_optommp_data_block tvb offset data_length s =
        .ok ((), { s with fields := s.fields ++ data_block_entries tvb offset data_length }) ∧
      (∃ s1, repeat_cursor (dissect_optommp_data_block_quadlet tvb)
        (data_length / 4 % 65536) offset s = .ok (offset + 4 * (data_length / 4), s1)) ∧
      (∃ s1, repeat_cursor (dissect_optommp_data_block_byte tvb) data_length offset s =
        .ok (offset + 1 * data_length, s1)) ∧
      (12 ≤ tvb.length →
        (∃ s1, dissect_optommp_write_block_request tvb 4 s = .ok (16, s1)) ∧
        (∃ s1, dissect_optommp_read_block_response tvb 4 s = .ok (16, s1))) := by
  have hm : data_length / 4 % 65536 = data_length / 4 := by omega
  refine ⟨dissect_optommp_data_block_run tvb offset data_length s ho hd, ?_, ?_, ?_⟩
  · rw [hm, repeat_cursor_run tvb .ett_data_block_q .hf_optommp_data_block_quadlet 4 _
      (dissect_optommp_data_block_quadlet_run tvb) (data_length / 4) offset s (by omega)]
    exact ⟨_, rfl⟩
  · rw [repeat_cursor_run tvb .ett_data_block_b .hf_optommp_data_block_byte 1 _
      (dissect_optommp_data_block_byte_run tvb) data_length offset s (by omega)]
    exact ⟨_, rfl⟩
  · intro h12
    have h1 := dissect_optommp_switch_run tvb s h12 1 (by decide)
    have h7 := dissect_optommp_switch_run tvb s h12 7 (by decide)
    simp only [dissect_optommp_switch, variant_cursor] at h1 h7
    exact ⟨⟨_, h1⟩, ⟨_, h7⟩⟩

/-- Instance of the cursor theorem: a Read Block Response carrying six bytes. -/
theorem data_block_keeps_shared_cursor_witness :
    (∃ s1, repeat_cursor (dissect_optommp_data_block_byte
        [0x00, 0x00, 0x04, 0x70, 0x00, 0x05, 0x00, 0x00, 0x00, 0x00, 0x00, 0x00,
          0x00, 0x06, 0x00, 0x00, 0x01, 0x02, 0x03, 0x04, 0x05, 0x06]) 6 16 Dissection.init =
        .ok (16 + 1 * 6, s1)) ∧
      (∃ s1, dissect_optommp_read_block_response
        [0x00, 0x00, 0x04, 0x70, 0x00, 0x05, 0x00, 0x00, 0x00, 0x00, 0x00, 0x00,
          0x00, 0x06, 0x00, 0x00, 0x01, 0x02, 0x03, 0x04, 0x05, 0x06] 4 Dissection.init =
        .ok (16, s1)) :=
  ⟨(data_block_keeps_shared_cursor
      [0x00, 0x00, 0x04, 0x70, 0x00, 0x05, 0x00, 0x00, 0x00, 0x00, 0x00, 0x00,
        0x00, 0x06, 0x00, 0x00, 0x01, 0x02, 0x03, 0x04, 0x05, 0x06] 16 6 Dissection.init
      (by decide) (by decide)).2.2.1,
    ((data_block_keeps_shared_cursor
      [0x00, 0x00, 0x04, 0x70, 0x00, 0x05, 0x00, 0x00, 0x00, 0x00, 0x00, 0x00,
        0x00, 0x06, 0x00, 0x00, 0x01, 0x02, 0x03, 0x04, 0x05, 0x06] 16 6 Dissection.init
      (by decide) (by decide)).2.2.2 (by decide)).2⟩

theorem concat_bytes_append (a b : List Entry) :
    concat_bytes (a ++ b) = concat_bytes a ++ concat_bytes b := by
  induction a with
  | nil => rfl
  | cons e rest ih => simp [concat_bytes, ih]

/-- The slices of `width` bytes at `offset`, `offset + width`, ... concatenate to the bytes
of the buffer from `offset` on. -/
theorem concat_bytes_slices (tvb : Tvb) (parent : Ett) (hfindex : Hf) (width offset : Nat) :
    ∀ count : Nat,
      concat_bytes ((List.range count).map fun i =>
        Entry.item parent hfindex (offset + width * i) width
          (.bytes ((tvb.drop (offset + width * i)).take width))) =
        (tvb.drop offset).take (width * count) := by
  intro count
  induction count with
  | zero => simp [concat_bytes]
  | succ n ih =>
    rw [List.range_succ, List.map_append, concat_bytes_append, ih]
    have e : width * (n + 1) = width * n + width := by ring
    rw [e, List.take_add, List.drop_drop]
    simp [concat_bytes, Entry.value_bytes]

/-- C25: for a block that lies inside the buffer, `dissect_optommp_data_block` adds the two
views of the same bytes: word `i` is the field over `[o + 4 i, o + 4 i + 4)`, byte `j` the
field over `[o + j, o + j + 1)`; the words concatenate to the first `4 * (data_length / 4)`
bytes of the concatenated byte view, and the byte view concatenates to the buffer bytes
`[o, o + data_length)`. -/
theorem data_block_views_same_bytes (tvb : Tvb) (offset data_length : Nat) (s : Dissection)
    (hin : offset + data_length ≤ tvb.length) (hlen : tvb.length < 4294967296)
    (hd : data_length < 65536) :
    dissect_optommp_data_block tvb offset data_length s =
        .ok ((), { s with fields := s.fields ++ data_block_views tvb offset data_length }) ∧
      (∀ i, i < data_length / 4 →
        (word_view tvb offset data_length)[i]? =
          some (Entry.item .ett_data_block_q .hf_optommp_data_block_quadlet (offset + 4 * i) 4
            (.bytes ((tvb.drop (offset + 4 * i)).take 4)))) ∧
      (∀ j, j < data_length →
        (byte_view tvb offset data_length)[j]? =
          some (Entry.item .ett_data_block_b .hf_optommp_data_block_byte (offset + 1 * j) 1
            (.bytes ((tvb.drop (offset + 1 * j)).take 1)))) ∧
      concat_bytes (word_view tvb offset data_length) =
        (concat_bytes (byte_view tvb offset data_length)).take (4 * (data_length / 4)) ∧
      concat_bytes (byte_view tvb offset data_length) = (tvb.drop offset).take data_length := by
  have hb : concat_bytes (byte_view tvb offset data_length) =
      (tvb.drop offset).take data_length := by
    unfold byte_view
    rw [concat_bytes_slices tvb _ _ 1 offset data_length, Nat.one_mul]
  refine ⟨?_, ?_, ?_, ?_, hb⟩
  · rw [dissect_optommp_data_block_run tvb offset data_length s (by omega) hd,
      data_block_entries_full tvb offset data_length hin]
  · intro i hi
    simp [word_view, List.getElem?_range, hi]
  · intro j hj
    simp [byte_view, List.getElem?_range, hj]
  · rw [hb]
    unfold word_view
    rw [concat_bytes_slices tvb _ _ 4 offset (data_length / 4), List.take_take]
    congr 1
    omega

/-- Instance of the views theorem: six block bytes at offset 16. -/
theorem data_block_views_same_bytes_witness :
    concat_bytes (word_view
        [0x00, 0x00, 0x04, 0x70, 0x00, 0x05, 0x00, 0x00, 0x00, 0x00, 0x00, 0x00,
          0x00, 0x06, 0x00, 0x00, 0x01, 0x02, 0x03, 0x04, 0x05, 0x06] 16 6) =
        [0x01, 0x02, 0x03, 0x04] ∧
      concat_bytes (byte_view
        [0x00, 0x00, 0x04, 0x70, 0x00, 0x05, 0x00, 0x00, 0x00, 0x00, 0x00, 0x00,
          0x00, 0x06, 0x00, 0x00, 0x01, 0x02, 0x03, 0x04, 0x05, 0x06] 16 6) =
        [0x01, 0x02, 0x03, 0x04, 0x05, 0x06] :=
  ⟨(data_block_views_same_bytes
      [0x00, 0x00, 0x04, 0x70, 0x00, 0x05, 0x00, 0x00, 0x00, 0x00, 0x00, 0x00,
        0x00, 0x06, 0x00, 0x00, 0x01, 0x02, 0x03, 0x04, 0x05, 0x06] 16 6 Dissection.init
      (by decide) (by decide) (by decide)).2.2.2.1.trans (by decide),
    (data_block_views_same_bytes
      [0x00, 0x00, 0x04, 0x70, 0x00, 0x05, 0x00, 0x00, 0x00, 0x00, 0x00, 0x00,
        0x00, 0x06, 0x00, 0x00, 0x01, 0x02, 0x03, 0x04, 0x05, 0x06] 16 6 Dissection.init
      (by decide) (by decide) (by decide)).2.2.2.2.trans (by decide)⟩

/-! ## Bounds on the work and agreement with the length function -/

theorem loop_entries_length_le (tvb : Tvb) (parent : Ett) (hfindex : Hf) (width : Nat) :
    ∀ (count offset : Nat),
      (loop_entries tvb parent hfindex width count offset).length ≤ count := by
  intro count
  induction count with
  | zero => intro offset; simp [loop_entries]
  | succ n ih =>
    intro offset
    have := ih (offset + width)
    simp only [loop_entries, List.length_append]
    split_ifs <;> simp <;> omega

theorem header_entries_length_le (tvb : Tvb) : (header_entries tvb).length ≤ 5 := by
  unfold header_entries dest_id_entries
  split_ifs <;> simp

theorem variant_entries_length_le (tvb : Tvb) :
    (variant_entries tvb (byte_at tvb 3 >>> 4)).length ≤
      5 + block_data_length tvb + block_data_length tvb / 4 := by
  have hq := loop_entries_length_le tvb .ett_data_block_q .hf_optommp_data_block_quadlet 4
    (data_length_value tvb / 4) 16
  have hb := loop_entries_length_le tvb .ett_data_block_b .hf_optommp_data_block_byte 1
    (data_length_value tvb) 16
  have hl := tcode_lt tvb 3
  unfold block_data_length
  generalize byte_at tvb 3 >>> 4 = t at hl ⊢
  interval_cases t <;>
    simp only [variant_entries, data_block_entries, List.length_append, List.length_cons,
      List.length_nil] <;>
    (try split_ifs) <;> simp at * <;> omega

/-- C26: `dissect_optommp` returns on every buffer, with or without a tree; the
data_length it works with is at most 65535; started at the block, the word loop makes
`data_length / 4` rounds (its cursor ends `4 * (data_length / 4)` further) and the byte loop
`data_length` rounds; and the number of entries added beneath the root entry, fields and
containers together, is at most `10 + data_length + data_length / 4`, with data_length
counted as 0 when the tcode is not 1 or 7. -/
theorem dissect_optommp_work_bounded (tvb : Tvb) (tree : Bool) :
    (∃ r, dissect_optommp tvb tree Dissection.init = .ok (tvb.length, r) ∧
      r.fields.length ≤ 10 + block_data_length tvb + block_data_length tvb / 4) ∧
    block_data_length tvb ≤ 65535 ∧
    (∀ s, ∃ s1, repeat_cursor (dissect_optommp_data_block_quadlet tvb)
      (block_data_length tvb / 4 % 65536) 16 s =
        .ok (16 + 4 * (block_data_length tvb / 4), s1)) ∧
    (∀ s, ∃ s1, repeat_cursor (dissect_optommp_data_block_byte tvb)
      (block_data_length tvb) 16 s = .ok (16 + 1 * block_data_length tvb, s1)) := by
  have hd : block_data_length tvb ≤ 65535 := by
    have := data_length_value_lt tvb
    unfold block_data_length
    split_ifs <;> omega
  have hm : block_data_length tvb / 4 % 65536 = block_data_length tvb / 4 := by omega
  refine ⟨?_, hd, ?_, ?_⟩
  · obtain ⟨r, hr, hfields, _⟩ := dissect_optommp_total tvb tree
    refine ⟨r, hr, ?_⟩
    rw [hfields]
    unfold emitted_entries
    split_ifs
    · have h1 := header_entries_length_le tvb
      have h2 := variant_entries_length_le tvb
      rw [List.length_append]
      omega
    · simp
  · intro s
    rw [hm, repeat_cursor_run tvb .ett_data_block_q .hf_optommp_data_block_quadlet 4 _
      (dissect_optommp_data_block_quadlet_run tvb) _ 16 s (by omega)]
    exact ⟨_, rfl⟩
  · intro s
    rw [repeat_cursor_run tvb .ett_data_block_b .hf_optommp_data_block_byte 1 _
      (dissect_optommp_data_block_byte_run tvb) _ 16 s (by omega)]
    exact ⟨_, rfl⟩

/-- C27: on every buffer of at least 14 bytes with tcode 1 or 7, the data_length
`dissect_optommp` reads and reports is the big-endian value of bytes 12-13, the value
`get_optommp_message_len` adds to 16; both data-block containers start at byte 16 and end at
`16 + data_length`, which is the value of `get_optommp_message_len` at offset 0. -/
theorem decoder_and_length_agree_on_block (tvb : Tvb) (h14 : 14 ≤ tvb.length)
    (ht : byte_at tvb 3 >>> 4 = 1 ∨ byte_at tvb 3 >>> 4 = 7) :
    (get_optommp_message_len tvb 0).eval = .ok (16 + get_uint_value tvb 12 2) ∧
      data_length_value tvb = get_uint_value tvb 12 2 ∧
      ∃ r, (dissect_optommp tvb true).trace = some r ∧
        Entry.item .ett_optommp .hf_optommp_data_length 12 2
          (.uint (get_uint_value tvb 12 2)) ∈ r.fields ∧
        Entry.subtree .ett_optommp 16 (get_uint_value tvb 12 2) .ett_data_block_q
          "data_block (as quadlets)" ∈ r.fields ∧
        Entry.subtree .ett_optommp 16 (get_uint_value tvb 12 2) .ett_data_block_b
          "data_block (as bytes)" ∈ r.fields := by
  have hv : data_length_value tvb = get_uint_value tvb 12 2 := by
    simp [data_length_value, h14]
  refine ⟨?_, hv, final_state tvb Dissection.init, ?_, ?_, ?_, ?_⟩
  · rw [get_optommp_message_len_eval tvb 0 (by omega)]
    simp [ht, h14]
  · unfold Dissect.trace
    rw [dissect_optommp_tree_result tvb _ (by omega)]
  all_goals
    simp only [final_state, header_state, Dissection.init, List.nil_append]
    rcases ht with ht | ht <;>
      simp [ht, variant_entries, data_block_entries, h14, hv, data_length_entry]

/-- Instance of the agreement theorem: a 14-byte Write Block Request announcing six bytes. -/
theorem decoder_and_length_agree_on_block_witness :
    (get_optommp_message_len
        [0x00, 0x00, 0x04, 0x10, 0x00, 0x05, 0xFF, 0xFF, 0xF0, 0x30, 0x00, 0x00, 0x00, 0x06]
        0).eval = .ok 22 ∧
      data_length_value
        [0x00, 0x00, 0x04, 0x10, 0x00, 0x05, 0xFF, 0xFF, 0xF0, 0x30, 0x00, 0x00, 0x00, 0x06] =
        6 :=
  ⟨(decoder_and_length_agree_on_block
      [0x00, 0x00, 0x04, 0x10, 0x00, 0x05, 0xFF, 0xFF, 0xF0, 0x30, 0x00, 0x00, 0x00, 0x06]
      (by decide) (by decide)).1,
    (decoder_and_length_agree_on_block
      [0x00, 0x00, 0x04, 0x10, 0x00, 0x05, 0xFF, 0xFF, 0xF0, 0x30, 0x00, 0x00, 0x00, 0x06]
      (by decide) (by decide)).2.1⟩

theorem loop_entries_end (tvb : Tvb) (parent : Ett) (hfindex : Hf) (width : Nat) :
    ∀ (count offset : Nat) (e : Entry),
      e ∈ loop_entries tvb parent hfindex width count offset →
        e.start + e.length ≤ offset + width * count := by
  intro count
  induction count with
  | zero => intro offset e he; simp [loop_entries] at he
  | succ n ih =>
    intro offset e he
    have e1 : width * (n + 1) = width * n + width := by ring
    simp only [loop_entries, List.mem_append] at he
    rcases he with he | he
    · split_ifs at he
      · simp at he
        simp [he, Entry.start, Entry.length]
        omega
      · simp at he
    · have := ih (offset + width) e he
      omega

/-- Every entry of the variant body ends at or before the message length the length
function computes for the buffer. -/
theorem variant_entries_end (tvb : Tvb) (tcode : Nat) (e : Entry)
    (he : e ∈ variant_entries tvb tcode) :
    e.start + e.length ≤
      (if (tcode = 1 ∨ tcode = 7) ∧ 0 + 14 ≤ tvb.length then 16 + get_uint_value tvb (0 + 12) 2
       else if tcode ∈ [0, 1, 5, 6, 7] then 16
       else if tcode ∈ [2, 4] then 12 else 8) := by
  have hq : ∀ n, e ∈ loop_entries tvb .ett_data_block_q .hf_optommp_data_block_quadlet 4
      (n / 4) 16 → e.start + e.length ≤ 16 + n := by
    intro n h
    have := loop_entries_end tvb _ _ 4 (n / 4) 16 e h
    omega
  have hb : ∀ n, e ∈ loop_entries tvb .ett_data_block_b .hf_optommp_data_block_byte 1
      n 16 → e.start + e.length ≤ 16 + n := by
    intro n h
    have := loop_entries_end tvb _ _ 1 n 16 e h
    omega
  have hblock : e ∈ data_block_entries tvb 16 (data_length_value tvb) →
      e.start + e.length ≤
        (if 0 + 14 ≤ tvb.length then 16 + get_uint_value tvb (0 + 12) 2 else 16) := by
    intro h
    have hbound : e.start + e.length ≤ 16 + data_length_value tvb := by
      simp only [data_block_entries, List.mem_append, List.mem_cons, List.mem_singleton,
        List.not_mem_nil, or_false] at h
      rcases h with ((h | h) | h) | h
      · simp [h, Entry.start, Entry.length]
      · exact hq _ h
      · simp [h, Entry.start, Entry.length]
      · exact hb _ h
    unfold data_length_value at hbound
    simp only [Nat.zero_add]
    split_ifs at hbound ⊢ <;> omega
  unfold variant_entries at he
  split at he
  · simp only [List.mem_append, List.mem_cons, List.mem_singleton, List.not_mem_nil, or_false,
      List.mem_ite_nil_right] at he
    rcases he with (h | h) | ⟨_, h⟩ <;>
      simp [h, source_ID_entry, dest_offset_entry, quadlet_data_entry, Entry.start,
        Entry.length]
  · simp only [List.mem_append, List.mem_cons, List.mem_singleton, List.not_mem_nil, or_false,
      List.mem_ite_nil_right] at he
    have hb2 := hblock
    simp only [true_or, true_and, Nat.zero_add] at hb2 ⊢
    rcases he with ((h | h) | ⟨_, h⟩) | h
    · simp [h, source_ID_entry, Entry.start, Entry.length]; split_ifs <;> omega
    · simp [h, dest_offset_entry, Entry.start, Entry.length]; split_ifs <;> omega
    · simp [h, data_length_entry, Entry.start, Entry.length]; split_ifs; omega
    · exact hb2 h
  · simp only [List.mem_cons, List.mem_singleton, List.not_mem_nil, or_false] at he
    rcases he with h | h <;>
      simp [h, source_ID_entry, rcode_entry, Entry.start, Entry.length]
  · simp only [List.mem_cons, List.mem_singleton, List.not_mem_nil, or_false] at he
    rcases he with h | h <;>
      simp [h, source_ID_entry, dest_offset_entry, Entry.start, Entry.length]
  · simp only [List.mem_append, List.mem_cons, List.mem_singleton, List.not_mem_nil, or_false,
      List.mem_ite_nil_right] at he
    rcases he with (h | h) | ⟨_, h⟩ <;>
      simp [h, source_ID_entry, dest_offset_entry, data_length_entry, Entry.start,
        Entry.length]
  · simp only [List.mem_append, List.mem_cons, List.mem_singleton, List.not_mem_nil, or_false,
      List.mem_ite_nil_right] at he
    rcases he with (h | h) | ⟨_, h⟩ <;>
      simp [h, source_ID_entry, rcode_entry, quadlet_data_entry, Entry.start, Entry.length]
  · simp only [List.mem_append, List.mem_cons, List.mem_singleton, List.not_mem_nil, or_false,
      List.mem_ite_nil_right] at he
    have hb2 := hblock
    simp only [or_true, true_and, Nat.zero_add] at hb2 ⊢
    rcases he with ((h | h) | ⟨_, h⟩) | h
    · simp [h, source_ID_entry, Entry.start, Entry.length]; split_ifs <;> omega
    · simp [h, rcode_entry, Entry.start, Entry.length]; split_ifs <;> omega
    · simp [h, data_length_entry, Entry.start, Entry.length]; split_ifs; omega
    · exact hb2 h
  · simp at he

/-- C28: on every buffer of at least 12 bytes, whatever the tcode, every entry
`dissect_optommp` adds beneath the root entry (field or container) ends at or before the
length `get_optommp_message_len` computes for the buffer at offset 0. -/
theorem entries_end_before_message_length (tvb : Tvb) (h : 12 ≤ tvb.length) :
    ∃ r n, (dissect_optommp tvb true).trace = some r ∧
      (get_optommp_message_len tvb 0).eval = .ok n ∧
      ∀ e ∈ r.fields, e.start + e.length ≤ n := by
  refine ⟨final_state tvb Dissection.init, _, ?_,
    get_optommp_message_len_eval tvb 0 (by omega), ?_⟩
  · unfold Dissect.trace
    rw [dissect_optommp_tree_result tvb _ h]
  · intro e he
    simp only [final_state, header_state, Dissection.init, List.nil_append,
      List.mem_append] at he
    rcases he with he | he
    · have h4 := header_entries_inside tvb e he
      have h8 : 8 ≤ (if (byte_at tvb (0 + 3) >>> 4 = 1 ∨ byte_at tvb (0 + 3) >>> 4 = 7) ∧
          0 + 14 ≤ tvb.length then 16 + get_uint_value tvb (0 + 12) 2
        else if byte_at tvb (0 + 3) >>> 4 ∈ [0, 1, 5, 6, 7] then 16
        else if byte_at tvb (0 + 3) >>> 4 ∈ [2, 4] then 12 else 8) := by
        split_ifs <;> omega
      omega
    · have := variant_entries_end tvb _ e he
      simpa using this

/-- Instance of the boundary theorem: a 22-byte Read Block Response carrying six bytes. -/
theorem entries_end_before_message_length_witness :
    ∃ r n, (dissect_optommp
        [0x00, 0x00, 0x04, 0x70, 0x00, 0x05, 0x00, 0x00, 0x00, 0x00, 0x00, 0x00,
          0x00, 0x06, 0x00, 0x00, 0x01, 0x02, 0x03, 0x04, 0x05, 0x06] true).trace = some r ∧
      (get_optommp_message_len
        [0x00, 0x00, 0x04, 0x70, 0x00, 0x05, 0x00, 0x00, 0x00, 0x00, 0x00, 0x00,
          0x00, 0x06, 0x00, 0x00, 0x01, 0x02, 0x03, 0x04, 0x05, 0x06] 0).eval = .ok n ∧
      ∀ e ∈ r.fields, e.start + e.length ≤ n :=
  entries_end_before_message_length
    [0x00, 0x00, 0x04, 0x70, 0x00, 0x05, 0x00, 0x00, 0x00, 0x00, 0x00, 0x00,
      0x00, 0x06, 0x00, 0x00, 0x01, 0x02, 0x03, 0x04, 0x05, 0x06] (by decide)

/-- C29: the 12 bytes `00 00 00 30 00 00 00 00 00 00 00 00` are accepted by `test_optommp`,
and `get_optommp_message_len` at offset 0 returns 8 for them, less than
`OPTOMMP_MIN_LENGTH` = 12. -/
theorem accepted_buffer_with_length_below_minimum :
    (test_optommp
        [0x00, 0x00, 0x00, 0x30, 0x00, 0x00, 0x00, 0x00, 0x00, 0x00, 0x00, 0x00]).eval =
        .ok true ∧
      (get_optommp_message_len
        [0x00, 0x00, 0x00, 0x30, 0x00, 0x00, 0x00, 0x00, 0x00, 0x00, 0x00, 0x00] 0).eval =
        .ok 8 ∧
      8 < OPTOMMP_MIN_LENGTH := by
  decide

/-! ## Truncated blocks -/

theorem loop_entries_outside (tvb : Tvb) (parent : Ett) (hfindex : Hf) (width : Nat) :
    ∀ (count offset : Nat), tvb.length < offset + width →
      loop_entries tvb parent hfindex width count offset = [] := by
  intro count
  induction count with
  | zero => intro offset _; rfl
  | succ n ih =>
    intro offset h
    rw [loop_entries, if_neg (by omega), ih (offset + width) (by omega)]
    rfl

/-- The entries of a guarded loop are the first `(len - offset) / width` entries of the
loop on a whole block. -/
theorem loop_entries_truncated (tvb : Tvb) (parent : Ett) (hfindex : Hf) (width : Nat)
    (hw : 0 < width) :
    ∀ (count offset : Nat),
      loop_entries tvb parent hfindex width count offset =
        (List.range (min count ((tvb.length - offset) / width))).map fun i =>
          Entry.item parent hfindex (offset + width * i) width
            (field_value hfindex tvb (offset + width * i) width) := by
  intro count
  induction count with
  | zero => intro offset; simp [loop_entries]
  | succ n ih =>
    intro offset
    by_cases hc : offset + width ≤ tvb.length
    · have hdiv : (tvb.length - offset) / width = (tvb.length - (offset + width)) / width + 1 := by
        have e : tvb.length - offset = tvb.length - (offset + width) + width := by omega
        rw [e, Nat.add_div_right _ hw]
      have hmin : min (n + 1) ((tvb.length - offset) / width) =
          min n ((tvb.length - (offset + width)) / width) + 1 := by
        rw [hdiv]; omega
      rw [loop_entries, if_pos hc, ih (offset + width), hmin, List.range_succ_eq_map]
      simp only [List.map_cons, List.map_map, Nat.mul_zero, Nat.add_zero,
        List.singleton_append, List.cons.injEq, true_and]
      apply List.map_congr_left
      intro i _
      have e2 : offset + width + width * i = offset + width * (i + 1) := by ring
      simp [e2]
    · have hz : (tvb.length - offset) / width = 0 :=
        Nat.div_eq_of_lt (by omega)
      rw [loop_entries_outside tvb parent hfindex width (n + 1) offset (by omega), hz]
      simp

/-- C30: for every buffer of length `L` of at least 14 bytes with tcode 1 or 7 and
data_length `n` in bytes 12-13, the entries after the data_length field are the word-view
container, the first `(L - 16) / 4` words of the full word view, the byte-view container and
the first `L - 16` bytes of the full byte view; so for `L ≥ 16` there are
`min (n / 4) ((L - 16) / 4)` words and `min n (L - 16)` bytes, and for `L < 16` both views
are empty although the data_length field is reported. -/
theorem truncated_block_views (tvb : Tvb) (h14 : 14 ≤ tvb.length)
    (ht : byte_at tvb 3 >>> 4 = 1 ∨ byte_at tvb 3 >>> 4 = 7) :
    ∃ r before, (dissect_optommp tvb true).trace = some r ∧
      r.fields = before ++
        [ Entry.item .ett_optommp .hf_optommp_data_length 12 2
            (.uint (get_uint_value tvb 12 2)),
          Entry.subtree .ett_optommp 16 (get_uint_value tvb 12 2) .ett_data_block_q
            "data_block (as quadlets)" ] ++
        (word_view tvb 16 (get_uint_value tvb 12 2)).take ((tvb.length - 16) / 4) ++
        [ Entry.subtree .ett_optommp 16 (get_uint_value tvb 12 2) .ett_data_block_b
            "data_block (as bytes)" ] ++
        (byte_view tvb 16 (get_uint_value tvb 12 2)).take (tvb.length - 16) ∧
      (16 ≤ tvb.length →
        ((word_view tvb 16 (get_uint_value tvb 12 2)).take ((tvb.length - 16) / 4)).length =
            min (get_uint_value tvb 12 2 / 4) ((tvb.length - 16) / 4) ∧
          ((byte_view tvb 16 (get_uint_value tvb 12 2)).take (tvb.length - 16)).length =
            min (get_uint_value tvb 12 2) (tvb.length - 16)) ∧
      (tvb.length < 16 →
        (word_view tvb 16 (get_uint_value tvb 12 2)).take ((tvb.length - 16) / 4) = [] ∧
          (byte_view tvb 16 (get_uint_value tvb 12 2)).take (tvb.length - 16) = []) := by
  have hv : data_length_value tvb = get_uint_value tvb 12 2 := by
    simp [data_length_value, h14]
  have hwords : loop_entries tvb .ett_data_block_q .hf_optommp_data_block_quadlet 4
      (get_uint_value tvb 12 2 / 4) 16 =
      (word_view tvb 16 (get_uint_value tvb 12 2)).take ((tvb.length - 16) / 4) := by
    rw [loop_entries_truncated tvb _ _ 4 (by decide)]
    unfold word_view
    rw [← List.map_take, List.take_range, Nat.min_comm]
    simp [field_value, hf]
  have hbytes : loop_entries tvb .ett_data_block_b .hf_optommp_data_block_byte 1
      (get_uint_value tvb 12 2) 16 =
      (byte_view tvb 16 (get_uint_value tvb 12 2)).take (tvb.length - 16) := by
    rw [loop_entries_truncated tvb _ _ 1 (by decide)]
    unfold byte_view
    rw [← List.map_take, List.take_range, Nat.min_comm, Nat.div_one]
    simp [field_value, hf]
  refine ⟨final_state tvb Dissection.init,
    header_entries tvb ++
      (if byte_at tvb 3 >>> 4 = 1 then [source_ID_entry tvb, dest_offset_entry tvb]
        else [source_ID_entry tvb, rcode_entry tvb]), ?_, ?_, ?_, ?_⟩
  · unfold Dissect.trace
    rw [dissect_optommp_tree_result tvb _ (by omega)]
  · simp only [final_state, header_state, Dissection.init, List.nil_append]
    rcases ht with ht | ht <;>
      simp [ht, variant_entries, data_block_entries, h14, hv, data_length_entry, hwords,
        hbytes]
  · intro _
    constructor
    · simp [word_view, Nat.min_comm]
    · simp [byte_view, Nat.min_comm]
  · intro h16
    have hz : tvb.length - 16 = 0 := by omega
    simp [hz]

/-- Instances of the truncated-block theorem: a Read Block Response announcing six bytes
with five of them present, and one cut after its data_length field. -/
theorem truncated_block_views_witness :
    (((word_view
        [0x00, 0x00, 0x04, 0x70, 0x00, 0x05, 0x00, 0x00, 0x00, 0x00, 0x00, 0x00,
          0x00, 0x06, 0x00, 0x00, 0x01, 0x02, 0x03, 0x04, 0x05] 16 6).take
            ((21 - 16) / 4)).length = min (6 / 4) ((21 - 16) / 4) ∧
      ((byte_view
        [0x00, 0x00, 0x04, 0x70, 0x00, 0x05, 0x00, 0x00, 0x00, 0x00, 0x00, 0x00,
          0x00, 0x06, 0x00, 0x00, 0x01, 0x02, 0x03, 0x04, 0x05] 16 6).take
            (21 - 16)).length = min 6 (21 - 16)) ∧
    ((word_view
        [0x00, 0x00, 0x04, 0x70, 0x00, 0x05, 0x00, 0x00, 0x00, 0x00, 0x00, 0x00,
          0x00, 0x06] 16 6).take ((14 - 16) / 4) = [] ∧
      (byte_view
        [0x00, 0x00, 0x04, 0x70, 0x00, 0x05, 0x00, 0x00, 0x00, 0x00, 0x00, 0x00,
          0x00, 0x06] 16 6).take (14 - 16) = []) :=
  ⟨(truncated_block_views
      [0x00, 0x00, 0x04, 0x70, 0x00, 0x05, 0x00, 0x00, 0x00, 0x00, 0x00, 0x00,
        0x00, 0x06, 0x00, 0x00, 0x01, 0x02, 0x03, 0x04, 0x05]
      (by decide) (by decide)).elim fun _ hr => hr.elim fun _ h => h.2.2.1 (by decide),
    (truncated_block_views
      [0x00, 0x00, 0x04, 0x70, 0x00, 0x05, 0x00, 0x00, 0x00, 0x00, 0x00, 0x00,
        0x00, 0x06]
      (by decide) (by decide)).elim fun _ hr => hr.elim fun _ h => h.2.2.2 (by decide)⟩

/-! ## The cursor after the variant body -/

/-- C31: on every buffer of at least 12 bytes the tree part of `dissect_optommp` returns,
and the cursor it ends with is fixed by the tcode alone: 16 for tcodes 0, 1, 6 and 7, 7 for
tcode 2, 12 for tcode 4, 14 for tcode 5 and 4 for every other tcode. The four variant bodies
that call `dissect_optommp_destination_offset_6` (tcodes 0, 1, 4, 5) call it right after
`dissect_optommp_source_ID` has moved the cursor from 4 to 6; at cursor 6 its length test
holds, it adds the destination_offset field over bytes 8-11 and returns the cursor 12. -/
theorem variant_cursor_fixed_by_tcode (tvb : Tvb) (s : Dissection) (h : 12 ≤ tvb.length) :
    (∃ s1, dissect_optommp_tree tvb s =
      .ok (if byte_at tvb 3 >>> 4 = 0 ∨ byte_at tvb 3 >>> 4 = 1 ∨ byte_at tvb 3 >>> 4 = 6 ∨
            byte_at tvb 3 >>> 4 = 7 then 16
          else if byte_at tvb 3 >>> 4 = 2 then 7
          else if byte_at tvb 3 >>> 4 = 4 then 12
          else if byte_at tvb 3 >>> 4 = 5 then 14 else 4, s1)) ∧
    (∃ s1, dissect_optommp_source_ID tvb 4 s = .ok (6, s1) ∧
      dissect_optommp_write_quadlet_request tvb 4 s =
        (do
          let offset ← dissect_optommp_destination_offset_6 tvb 6
          dissect_optommp_quadlet_data tvb offset : Dissect Nat) s1 ∧
      dissect_optommp_write_block_request tvb 4 s =
        (do
          let offset ← dissect_optommp_destination_offset_6 tvb 6
          let (data_length, offset) ← dissect_optommp_data_length tvb offset
          let offset := guint_add offset 2
          dissect_optommp_data_block tvb offset data_length
          pure offset : Dissect Nat) s1 ∧
      dissect_optommp_read_quadlet_request tvb 4 s =
        dissect_optommp_destination_offset_6 tvb 6 s1 ∧
      dissect_optommp_read_block_request tvb 4 s =
        (do
          let offset ← dissect_optommp_destination_offset_6 tvb 6
          let (_, offset) ← dissect_optommp_data_length tvb offset
          pure offset : Dissect Nat) s1) ∧
    tvb_reported_length tvb ≥ guint_add 6 6 ∧
    (∀ s0, dissect_optommp_destination_offset_6 tvb 6 s0 =
      .ok (6 + 6, { s0 with fields := s0.fields ++ [dest_offset_entry tvb] })) := by
  have h6 : 4 + 2 ≤ tvb.length := by omega
  have hs := dissect_optommp_source_ID_run tvb 4 s (by decide)
  rw [if_pos h6] at hs
  refine ⟨?_, ⟨_, hs, ?_, ?_, ?_, ?_⟩, ?_, ?_⟩
  · rw [dissect_optommp_tree_run tvb s h,
      dissect_optommp_switch_run tvb _ h _ (tcode_lt tvb 3)]
    have ht := tcode_lt tvb 3
    have key : variant_cursor (byte_at tvb 3 >>> 4) =
        (if byte_at tvb 3 >>> 4 = 0 ∨ byte_at tvb 3 >>> 4 = 1 ∨ byte_at tvb 3 >>> 4 = 6 ∨
            byte_at tvb 3 >>> 4 = 7 then 16
          else if byte_at tvb 3 >>> 4 = 2 then 7
          else if byte_at tvb 3 >>> 4 = 4 then 12
          else if byte_at tvb 3 >>> 4 = 5 then 14 else 4) := by
      generalize byte_at tvb 3 >>> 4 = t at ht ⊢
      interval_cases t <;> rfl
    rw [key]
    exact ⟨_, rfl⟩
  · unfold dissect_optommp_write_quadlet_request
    simp only [dissect_bind_apply, hs]
  · unfold dissect_optommp_write_block_request
    simp only [dissect_bind_apply, hs]
  · unfold dissect_optommp_read_quadlet_request
    simp only [dissect_bind_apply, hs]
  · unfold dissect_optommp_read_block_request
    simp only [dissect_bind_apply, hs]
  · have e : guint_add 6 6 = 12 := by decide
    rw [e]
    exact h
  · intro s0
    exact dissect_optommp_destination_offset_6_run tvb 6 s0 (by decide) (by omega)

/-- Instances of the cursor theorem: a 12-byte and a 14-byte Read Block Request both end
with the cursor 14, and the destination_offset primitive entered at 6 returns 12. -/
theorem variant_cursor_fixed_by_tcode_witness :
    (∃ s1, dissect_optommp_tree
        [0x00, 0x00, 0x04, 0x50, 0x00, 0x05, 0xFF, 0xFF, 0xF0, 0x30, 0x00, 0x00]
        Dissection.init = .ok (14, s1)) ∧
      (∃ s1, dissect_optommp_tree
        [0x00, 0x00, 0x04, 0x50, 0x00, 0x05, 0xFF, 0xFF, 0xF0, 0x30, 0x00, 0x00, 0x00, 0x06]
        Dissection.init = .ok (14, s1)) ∧
      ∃ s1, dissect_optommp_destination_offset_6
        [0x00, 0x00, 0x04, 0x50, 0x00, 0x05, 0xFF, 0xFF, 0xF0, 0x30, 0x00, 0x00] 6
        Dissection.init = .ok (12, s1) :=
  ⟨(variant_cursor_fixed_by_tcode
      [0x00, 0x00, 0x04, 0x50, 0x00, 0x05, 0xFF, 0xFF, 0xF0, 0x30, 0x00, 0x00]
      Dissection.init (by decide)).1.elim fun s1 hr => ⟨s1, hr⟩,
    (variant_cursor_fixed_by_tcode
      [0x00, 0x00, 0x04, 0x50, 0x00, 0x05, 0xFF, 0xFF, 0xF0, 0x30, 0x00, 0x00, 0x00, 0x06]
      Dissection.init (by decide)).1.elim fun s1 hr => ⟨s1, hr⟩,
    ⟨_, (variant_cursor_fixed_by_tcode
      [0x00, 0x00, 0x04, 0x50, 0x00, 0x05, 0xFF, 0xFF, 0xF0, 0x30, 0x00, 0x00]
      Dissection.init (by decide)).2.2.2 Dissection.init⟩⟩

/-! ## The range of the data-block containers -/

theorem loop_entries_filter_container (tvb : Tvb) (parent : Ett) (hfindex : Hf)
    (width : Nat) :
    ∀ (count offset : Nat),
      (loop_entries tvb parent hfindex width count offset).filter
        Entry.is_data_block_container = [] := by
  intro count
  induction count with
  | zero => intro offset; simp [loop_entries]
  | succ n ih =>
    intro offset
    simp only [loop_entries, List.filter_append, ih, List.append_nil]
    split_ifs <;> simp [Entry.is_data_block_container]

theorem header_entries_filter_container (tvb : Tvb) :
    (header_entries tvb).filter Entry.is_data_block_container = [] := by
  unfold header_entries dest_id_entries
  split_ifs <;> simp [Entry.is_data_block_container]

theorem header_entries_parent (tvb : Tvb) (e : Entry) (he : e ∈ header_entries tvb) :
    e.parent = .ett_optommp ∨ e.parent = .ett_dest_id := by
  unfold header_entries dest_id_entries at he
  split_ifs at he
  · simp at he
    rcases he with h | h | h | h | h <;> simp [h, Entry.parent]
  · simp at he
    rcases he with h | h | h <;> simp [h, Entry.parent]

/-- C32 (as stated): a 14-byte Write Block Request announcing six bytes is decoded with both
view containers declared over `[16, 22)`, and a 12-byte one with both declared over
`[16, 16)`; neither range lies inside the buffer. -/
theorem data_block_container_declared_past_buffer :
    ((dissect_optommp
        [0x00, 0x00, 0x04, 0x10, 0x00, 0x05, 0xFF, 0xFF, 0xF0, 0x30, 0x00, 0x00, 0x00, 0x06]
        true).trace.map fun r => r.fields.filter Entry.is_data_block_container) =
        some [ Entry.subtree .ett_optommp 16 6 .ett_data_block_q "data_block (as quadlets)",
          Entry.subtree .ett_optommp 16 6 .ett_data_block_b "data_block (as bytes)" ] ∧
      byte_at
        [0x00, 0x00, 0x04, 0x10, 0x00, 0x05, 0xFF, 0xFF, 0xF0, 0x30, 0x00, 0x00, 0x00, 0x06]
        3 >>> 4 = 1 ∧
      ¬ (16 + 6 ≤ tvb_reported_length
        [0x00, 0x00, 0x04, 0x10, 0x00, 0x05, 0xFF, 0xFF, 0xF0, 0x30, 0x00, 0x00, 0x00, 0x06]) ∧
      ((dissect_optommp
        [0x00, 0x00, 0x04, 0x10, 0x00, 0x05, 0xFF, 0xFF, 0xF0, 0x30, 0x00, 0x00]
        true).trace.map fun r => r.fields.filter Entry.is_data_block_container) =
        some [ Entry.subtree .ett_optommp 16 0 .ett_data_block_q "data_block (as quadlets)",
          Entry.subtree .ett_optommp 16 0 .ett_data_block_b "data_block (as bytes)" ] ∧
      ¬ (16 + 0 ≤ tvb_reported_length
        [0x00, 0x00, 0x04, 0x10, 0x00, 0x05, 0xFF, 0xFF, 0xF0, 0x30, 0x00, 0x00]) := by
  unfold Dissect.trace
  rw [dissect_optommp_tree_result _ _ (by decide), dissect_optommp_tree_result _ _ (by decide)]
  decide

/-- C32 (amended): for every buffer of at least 12 bytes with tcode 1 or 7,
`dissect_optommp` declares exactly two data-block view containers, each over
`[16, 16 + data_length)` with data_length the value of bytes 12-13 (0 when the buffer has
fewer than 14 bytes), whatever the buffer length; such a range lies inside the buffer exactly
when `16 + data_length ≤ length(buffer)`; and every entry reported inside the containers
starts at or after byte 16 and ends inside both the declared range and the buffer. -/
theorem data_block_containers_declared_range (tvb : Tvb) (h : 12 ≤ tvb.length)
    (ht : byte_at tvb 3 >>> 4 = 1 ∨ byte_at tvb 3 >>> 4 = 7) :
    ∃ r, (dissect_optommp tvb true).trace = some r ∧
      r.fields.filter Entry.is_data_block_container =
        [ Entry.subtree .ett_optommp 16 (data_length_value tvb) .ett_data_block_q
            "data_block (as quadlets)",
          Entry.subtree .ett_optommp 16 (data_length_value tvb) .ett_data_block_b
            "data_block (as bytes)" ] ∧
      (∀ e ∈ r.fields.filter Entry.is_data_block_container,
        (e.start + e.length ≤ tvb.length ↔ 16 + data_length_value tvb ≤ tvb.length)) ∧
      (∀ e ∈ r.fields, e.parent = .ett_data_block_q ∨ e.parent = .ett_data_block_b →
        16 ≤ e.start ∧ e.start + e.length ≤ 16 + data_length_value tvb ∧
          e.start + e.length ≤ tvb.length) := by
  have hfilter : (final_state tvb Dissection.init).fields.filter
      Entry.is_data_block_container =
      [ Entry.subtree .ett_optommp 16 (data_length_value tvb) .ett_data_block_q
          "data_block (as quadlets)",
        Entry.subtree .ett_optommp 16 (data_length_value tvb) .ett_data_block_b
          "data_block (as bytes)" ] := by
    simp only [final_state, header_state, Dissection.init, List.nil_append,
      List.filter_append, header_entries_filter_container]
    rcases ht with ht | ht
    · rw [ht]
      simp only [variant_entries, data_block_entries, List.filter_append,
        loop_entries_filter_container]
      split_ifs <;>
        simp [Entry.is_data_block_container, source_ID_entry, dest_offset_entry,
          data_length_entry]
    · rw [ht]
      simp only [variant_entries, data_block_entries, List.filter_append,
        loop_entries_filter_container]
      split_ifs <;>
        simp [Entry.is_data_block_container, source_ID_entry, rcode_entry,
          data_length_entry]
  refine ⟨final_state tvb Dissection.init, ?_, hfilter, ?_, ?_⟩
  · unfold Dissect.trace
    rw [dissect_optommp_tree_result tvb _ h]
  · intro e he
    rw [hfilter] at he
    simp only [List.mem_cons, List.mem_singleton, List.not_mem_nil, or_false] at he
    rcases he with he | he <;> simp [he, Entry.start, Entry.length]
  · intro e he hp
    have hloop : ∀ (parent : Ett) (hfindex : Hf) (width count : Nat),
        width * count ≤ data_length_value tvb →
        e ∈ loop_entries tvb parent hfindex width count 16 →
          16 ≤ e.start ∧ e.start + e.length ≤ 16 + data_length_value tvb ∧
            e.start + e.length ≤ tvb.length := by
      intro parent hfindex width count hle hm
      have h1 := loop_entries_start tvb parent hfindex width count 16 e hm
      have h2 := loop_entries_end tvb parent hfindex width count 16 e hm
      have h3 := (loop_entries_inside tvb parent hfindex width count 16 e hm).2
      omega
    have hq := hloop .ett_data_block_q .hf_optommp_data_block_quadlet 4
      (data_length_value tvb / 4) (by omega)
    have hb := hloop .ett_data_block_b .hf_optommp_data_block_byte 1
      (data_length_value tvb) (by omega)
    simp only [final_state, header_state, Dissection.init, List.nil_append,
      List.mem_append] at he
    rcases he with he | he
    · have := header_entries_parent tvb e he
      rcases this with hh | hh <;> rcases hp with hp | hp <;> rw [hh] at hp <;> cases hp
    · have hblock : e ∈ data_block_entries tvb 16 (data_length_value tvb) →
          16 ≤ e.start ∧ e.start + e.length ≤ 16 + data_length_value tvb ∧
            e.start + e.length ≤ tvb.length := by
        intro hm
        unfold data_block_entries at hm
        simp only [List.mem_append, List.mem_singleton] at hm
        rcases hm with ((hm | hm) | hm) | hm
        · simp [hm, Entry.parent] at hp
        · exact hq hm
        · simp [hm, Entry.parent] at hp
        · exact hb hm
      have hlen : e ∈ (if 14 ≤ tvb.length then [data_length_entry tvb] else []) →
          16 ≤ e.start ∧ e.start + e.length ≤ 16 + data_length_value tvb ∧
            e.start + e.length ≤ tvb.length := by
        intro hm
        split_ifs at hm
        · simp only [List.mem_singleton] at hm
          simp [hm, data_length_entry, Entry.parent] at hp
        · simp at hm
      rcases ht with ht | ht
      · rw [ht] at he
        simp only [variant_entries, List.mem_append] at he
        rcases he with (he | he) | he
        · simp only [List.mem_cons, List.mem_singleton, List.not_mem_nil, or_false] at he
          rcases he with he | he
          · simp [he, source_ID_entry, Entry.parent] at hp
          · simp [he, dest_offset_entry, Entry.parent] at hp
        · exact hlen he
        · exact hblock he
      · rw [ht] at he
        simp only [variant_entries, List.mem_append] at he
        rcases he with (he | he) | he
        · simp only [List.mem_cons, List.mem_singleton, List.not_mem_nil, or_false] at he
          rcases he with he | he
          · simp [he, source_ID_entry, Entry.parent] at hp
          · simp [he, rcode_entry, Entry.parent] at hp
        · exact hlen he
        · exact hblock he

/-- Instance of the container theorem: a 21-byte Read Block Response announcing six bytes
with five of them present. -/
theorem data_block_containers_declared_range_witness :
    ∃ r, (dissect_optommp
        [0x00, 0x00, 0x04, 0x70, 0x00, 0x05, 0x00, 0x00, 0x00, 0x00, 0x00, 0x00,
          0x00, 0x06, 0x00, 0x00, 0x01, 0x02, 0x03, 0x04, 0x05] true).trace = some r ∧
      r.fields.filter Entry.is_data_block_container =
        [ Entry.subtree .ett_optommp 16 6 .ett_data_block_q "data_block (as quadlets)",
          Entry.subtree .ett_optommp 16 6 .ett_data_block_b "data_block (as bytes)" ] :=
  (data_block_containers_declared_range
    [0x00, 0x00, 0x04, 0x70, 0x00, 0x05, 0x00, 0x00, 0x00, 0x00, 0x00, 0x00,
      0x00, 0x06, 0x00, 0x00, 0x01, 0x02, 0x03, 0x04, 0x05]
    (by decide) (by decide)).elim fun r hr => ⟨r, hr.1, hr.2.1.trans (by decide)⟩

end Optommp
